import Mathlib

/-!
Verification of `dumbvm`: the frame allocator, the fault handler and the
address-space records.

A shallow embedding of `kern/arch/mips/vm/dumbvm.c` (OS/161 1.99 with the
A3 core map).  The file-level statics of the C file are the fields of `VM`;
every function takes the state it reads and returns the state it leaves.

Conventions of the embedding.

* `paddr_t`, `vaddr_t`, `size_t` and `unsigned long` are 32-bit on the MIPS
  target.  Values are `Nat`; address and size arithmetic that can leave the
  32-bit range is written with `u32` / `sub32`.
* `CORE_MAP` is a C pointer used as an array of descriptors.  The frame
  table is its first `NUM_PAGES` descriptors, but the C code indexes the
  pointer without comparing the index with `NUM_PAGES` in several places
  (`CORE_MAP[i+c]` in `getppages`, `CORE_MAP[fn]` and `CORE_MAP[fn+i]` in
  `free_kpages`).  The embedding therefore keeps the whole memory at that
  address: `CORE_MAP : Nat → frame` gives for every index `k` the descriptor
  that the code finds at `CORE_MAP[k]`.  For `k < NUM_PAGES` this is frame
  `k` of the table; for `k ≥ NUM_PAGES` it is whatever the memory past the
  end of the table holds, read as a descriptor.  An access reads or writes
  that function at the index the code computes and goes on, as the C code
  does.  `vm_bootstrap` takes the memory it finds as a parameter and
  overwrites the first `NUM_PAGES` descriptors.
* Between two calls of the allocator the memory `CORE_MAP` is changed by
  nobody else: a sequence of calls threads the function from one call to the
  next.
* The index arithmetic `i + c` and `fn + i` is not truncated: the memory is
  an array without end, and a run on which such a sum would leave the 32-bit
  range is outside the embedding.
* `panic` and a failing `KASSERT` stop the kernel: `Halt.panic`,
  `Halt.kassert`.  A stop carries the memory `CORE_MAP` as it was at that
  point.
* The spinlock, `splhigh`/`splx`, `kprintf` and `DEBUG` have no effect on the
  values modelled and are left out.  So are the contents of the pages
  (`bzero`, `memmove`) and the kernel heap (`kmalloc`, `kfree`), of which
  only the outcome of the `kmalloc` in `as_create` is a parameter.
-/

namespace Dumbvm

/-! ## Machine constants (headers that the C file includes) -/

/-- Modelled from the spec: `PAGE_SIZE` of `machine/vm.h`, the size of a
page and of a frame (4 KiB on the MIPS target). -/
def PAGE_SIZE : Nat := 4096

/-- Modelled from the spec: `PAGE_FRAME` of `machine/vm.h`, the mask that
keeps the page number of a 32-bit address. -/
def PAGE_FRAME : Nat := 0xfffff000

/-- Modelled from the spec: `MIPS_KSEG0` of `machine/vm.h`, the base of the
direct-mapped kernel segment. -/
def MIPS_KSEG0 : Nat := 0x80000000

/-- Modelled from the spec: `USERSTACK` of `machine/vm.h`, the top of the
user stack (the top of the user half of the address space). -/
def USERSTACK : Nat := MIPS_KSEG0

/-- The constant `DUMBVM_STACKPAGES` of the C file. -/
def DUMBVM_STACKPAGES : Nat := 12

/-- Modelled from the spec: `NUM_TLB` of `mips/tlb.h`, the number of TLB
slots. -/
def NUM_TLB : Nat := 64

/-- Modelled from the spec: `TLBLO_DIRTY` of `mips/tlb.h`, the write-enable
bit of the low word of a TLB entry. -/
def TLBLO_DIRTY : Nat := 0x00000400

/-- Modelled from the spec: `TLBLO_VALID` of `mips/tlb.h`, the valid bit of
the low word of a TLB entry. -/
def TLBLO_VALID : Nat := 0x00000200

/-- Modelled from the spec: `VM_FAULT_READ` of `vm.h`. -/
def VM_FAULT_READ : Int := 0

/-- Modelled from the spec: `VM_FAULT_WRITE` of `vm.h`. -/
def VM_FAULT_WRITE : Int := 1

/-- Modelled from the spec: `VM_FAULT_READONLY` of `vm.h`. -/
def VM_FAULT_READONLY : Int := 2

/-- Truncation of a value to 32 bits. -/
def u32 (x : Nat) : Nat := x % 2 ^ 32

/-- The 32-bit subtraction `a - b` of C on unsigned operands. -/
def sub32 (a b : Nat) : Nat := (a % 2 ^ 32 + (2 ^ 32 - b % 2 ^ 32)) % 2 ^ 32

/-- Modelled from the spec: the macro `PADDR_TO_KVADDR` of `machine/vm.h`,
the kernel virtual address at which a physical address is direct-mapped. -/
def PADDR_TO_KVADDR (paddr : Nat) : Nat := u32 (paddr + MIPS_KSEG0)

/-- Modelled from the spec: the macro `KVADDR_TO_PADDR` of `machine/vm.h`,
the inverse of `PADDR_TO_KVADDR`. -/
def KVADDR_TO_PADDR (vaddr : Nat) : Nat := sub32 vaddr MIPS_KSEG0

/-- The macro `DIVROUNDUP` of `lib.h`: `(a + b - 1) / b` on 32-bit values. -/
def DIVROUNDUP (a b : Nat) : Nat := sub32 (u32 (a + b)) 1 / b

/-- The values an `int`-returning function of the file can return. `zero`
is the C value `0`; the other constructors are the error numbers of
`kern/errno.h` by name. -/
inductive RetCode where
  | zero
  | EINVAL
  | EFAULT
  | ENOMEM
  | EUNIMP
  deriving DecidableEq, Repr

/-! ## The frame table -/

/-- The C `struct frame`. -/
@[ext]
structure frame where
  in_use : Bool
  block_len : Nat
  deriving DecidableEq, Repr

/-- Why the kernel stopped instead of returning from a call. -/
inductive Halt where
  /-- The call `panic("getppages: Out of memory!\n")`. -/
  | panic
  /-- A `KASSERT` whose condition was false. -/
  | kassert
  /-- The loop budget of the embedding ran out (never happens, see
  `getppages_scan_no_fuel`). -/
  | no_fuel
  deriving DecidableEq, Repr

/-- A stop of the kernel: the reason and the memory `CORE_MAP` at that
point. -/
structure Stop where
  reason : Halt
  CORE_MAP : Nat → frame

/-- The file-level statics of the C file. `CORE_MAP k` is the descriptor at
`CORE_MAP[k]`: frame `k` of the table for `k < NUM_PAGES`, the memory past
the end of the table for `k ≥ NUM_PAGES`. -/
structure VM where
  MEM_AVAL_START : Nat
  MEM_START : Nat
  MEM_END : Nat
  CORE_MAP : Nat → frame
  MEM_BYTES : Nat
  NUM_PAGES : Nat
  CORE_MAP_BYTES : Nat
  CORE_MAP_NPAGES : Nat
  BOOTSTRAP_DONE : Bool

/-- The assignment `CORE_MAP[k] = f`. -/
def store (cm : Nat → frame) (k : Nat) (f : frame) : Nat → frame :=
  fun j => if j = k then f else cm j

/-- The C function `vm_bootstrap`. `lo` and `hi` are the two values that
`ram_getsize` stores in `MEM_START` and `MEM_END`; `sizeof_frame` is
`sizeof(struct frame)`; `mem` is the memory found at `CORE_MAP`, read as
descriptors. The loop assigns the descriptors `0 .. NUM_PAGES-1` and no
other. -/
def vm_bootstrap (lo hi sizeof_frame : Nat) (mem : Nat → frame) : VM :=
  let MEM_START := lo
  let MEM_END := hi
  let MEM_BYTES := sub32 MEM_END MEM_START
  let NUM_PAGES := MEM_BYTES / PAGE_SIZE
  let CORE_MAP_BYTES := u32 (NUM_PAGES * sizeof_frame)
  let CORE_MAP_NPAGES := DIVROUNDUP CORE_MAP_BYTES PAGE_SIZE
  let MEM_AVAL_START := u32 (MEM_START + u32 (CORE_MAP_NPAGES * PAGE_SIZE))
  { MEM_AVAL_START := MEM_AVAL_START
    MEM_START := MEM_START
    MEM_END := MEM_END
    CORE_MAP := fun i =>
      if i < NUM_PAGES then { in_use := decide (i < CORE_MAP_NPAGES), block_len := 0 }
      else mem i
    MEM_BYTES := MEM_BYTES
    NUM_PAGES := NUM_PAGES
    CORE_MAP_BYTES := CORE_MAP_BYTES
    CORE_MAP_NPAGES := CORE_MAP_NPAGES
    BOOTSTRAP_DONE := true }

/-- The inner loop of `getppages`,
`for (c = 0; c < npages; c++) if (CORE_MAP[i+c].in_use) { long_enough = false; break; }`,
entered at counter `c` with `rem = npages - c` rounds to go. The index
`i + c` is not compared with `NUM_PAGES`. The result is `(long_enough, c)`
at the exit of the loop. -/
def fit_scan (cm : Nat → frame) (i : Nat) : Nat → Nat → Bool × Nat
  | 0, c => (true, c)
  | rem + 1, c => if (cm (i + c)).in_use then (false, c) else fit_scan cm i rem (c + 1)

/-- The marking loop of `getppages`,
`for (c = 0; c < npages; c++) { KASSERT(!CORE_MAP[i+c].in_use); CORE_MAP[i+c].in_use = true; }`,
entered at counter `c` with `rem = npages - c` rounds to go. The index
`i + c` is not compared with `NUM_PAGES`. -/
def mark_in_use (i : Nat) : Nat → Nat → (Nat → frame) → Except Stop (Nat → frame)
  | 0, _, cm => .ok cm
  | rem + 1, c, cm =>
    if (cm (i + c)).in_use then .error ⟨.kassert, cm⟩
    else mark_in_use i rem (c + 1) (store cm (i + c) { cm (i + c) with in_use := true })

/-- The outer loop of `getppages`, `for (i = 0; i < NUM_PAGES; i++)`, entered
at frame number `i`, followed by the test `if (i >= NUM_PAGES) panic(...)`.
Every round moves `i` forward, so a budget of `NUM_PAGES` rounds is never
used up. The result is the frame number `i` at the `break` and the memory
`CORE_MAP`. -/
def getppages_scan (NUM_PAGES npages : Nat) :
    Nat → Nat → (Nat → frame) → Except Stop (Nat × (Nat → frame))
  | 0, i, cm => if i < NUM_PAGES then .error ⟨.no_fuel, cm⟩ else .error ⟨.panic, cm⟩
  | fuel + 1, i, cm =>
    if i < NUM_PAGES then
      if (cm i).in_use then getppages_scan NUM_PAGES npages fuel (i + 1) cm
      else
        match fit_scan cm i npages 0 with
        | (false, c) => getppages_scan NUM_PAGES npages fuel (i + c + 1) cm
        | (true, _) =>
          match mark_in_use i npages 0 (store cm i { cm i with block_len := npages }) with
          | .error e => .error e
          | .ok cm2 => .ok (i, cm2)
    else .error ⟨.panic, cm⟩

/-- The C function `getppages`. `ram_stealmem` is the function of `ram.c`
that serves the requests made before `vm_bootstrap`. The result is the
returned `paddr_t` and the statics after the call. -/
def getppages (ram_stealmem : Nat → Nat) (vm : VM) (npages : Nat) :
    Except Stop (Nat × VM) :=
  if vm.BOOTSTRAP_DONE then
    match getppages_scan vm.NUM_PAGES npages vm.NUM_PAGES 0 vm.CORE_MAP with
    | .error e => .error e
    | .ok (i, cm) => .ok (u32 (vm.MEM_START + u32 (i * PAGE_SIZE)), { vm with CORE_MAP := cm })
  else .ok (ram_stealmem npages, vm)

/-- The C function `alloc_kpages`. -/
def alloc_kpages (ram_stealmem : Nat → Nat) (vm : VM) (npages : Nat) :
    Except Stop (Nat × VM) :=
  match getppages ram_stealmem vm npages with
  | .error e => .error e
  | .ok (pa, vm1) => if pa = 0 then .ok (0, vm1) else .ok (PADDR_TO_KVADDR pa, vm1)

/-- The loop of `free_kpages`,
`for (i = 0; i < f.block_len; i++) { KASSERT(CORE_MAP[fn+i].in_use); KASSERT(i == 0 ? ... > 0 : ... == 0); CORE_MAP[fn+i].in_use = false; }`,
entered at counter `i` with `rem = f.block_len - i` rounds to go. The index
`fn + i` is not compared with `NUM_PAGES`. -/
def free_loop (fn : Nat) : Nat → Nat → (Nat → frame) → Except Stop (Nat → frame)
  | 0, _, cm => .ok cm
  | rem + 1, i, cm =>
    if (cm (fn + i)).in_use = false then .error ⟨.kassert, cm⟩
    else if (if i = 0 then decide (0 < (cm (fn + i)).block_len)
        else decide ((cm (fn + i)).block_len = 0)) = false then
      .error ⟨.kassert, cm⟩
    else free_loop fn rem (i + 1) (store cm (fn + i) { cm (fn + i) with in_use := false })

/-- The frame number `(paddr - MEM_START) / PAGE_SIZE` that `free_kpages`
computes from a physical address. -/
def frame_number (vm : VM) (paddr : Nat) : Nat := sub32 paddr vm.MEM_START / PAGE_SIZE

/-- The C function `free_kpages`. The frame number `fn` is not compared with
`NUM_PAGES`; `f` is the copy `struct frame f = CORE_MAP[fn]`. -/
def free_kpages (vm : VM) (addr : Nat) : Except Stop VM :=
  if KVADDR_TO_PADDR addr < vm.MEM_START then .ok vm
  else
    let fn := frame_number vm (KVADDR_TO_PADDR addr)
    let f := vm.CORE_MAP fn
    if f.block_len = 0 then .error ⟨.kassert, vm.CORE_MAP⟩
    else
      match free_loop fn f.block_len 0 vm.CORE_MAP with
      | .error e => .error e
      | .ok cm => .ok { vm with CORE_MAP := store cm fn { cm fn with block_len := 0 } }

/-! ## The TLB and the fault handler -/

/-- The C `struct addrspace` of `addrspace.h` as this file uses it. -/
structure addrspace where
  as_vbase1 : Nat
  as_page_table1 : Nat
  as_npages1 : Nat
  as_vbase2 : Nat
  as_page_table2 : Nat
  as_npages2 : Nat
  as_stack_page_table : Nat
  load_done : Bool
  deriving DecidableEq, Repr

/-- The part of `struct proc` that the handler reads: `curproc_getas()`
returns `curproc->p_addrspace`, which may be `NULL`. -/
structure proc where
  p_addrspace : Option addrspace
  deriving DecidableEq, Repr

/-- The hardware TLB: slot `i` holds the pair `(entryhi, entrylo)`. -/
abbrev TLB := List (Nat × Nat)

/-- Modelled from the spec: `tlb_read` of `mips/tlb.h`, the pair held by
slot `i`. -/
def tlb_read (tlb : TLB) (i : Nat) : Nat × Nat := tlb.getD i (0, 0)

/-- Modelled from the spec: `tlb_write` of `mips/tlb.h`, which overwrites
slot `i`. -/
def tlb_write (tlb : TLB) (ehi elo i : Nat) : TLB := tlb.set i (ehi, elo)

/-- Modelled from the spec: `tlb_random` of `mips/tlb.h`, which overwrites
the slot picked by the hardware; `slot` is that pick. -/
def tlb_random (tlb : TLB) (slot ehi elo : Nat) : TLB := tlb.set slot (ehi, elo)

/-- The twelve `KASSERT`s of `vm_fault` on the address space, in order. -/
def setup_asserts (as : addrspace) : Bool :=
  as.as_vbase1 != 0 && as.as_page_table1 != 0 && as.as_npages1 != 0 &&
  as.as_vbase2 != 0 && as.as_page_table2 != 0 && as.as_npages2 != 0 &&
  as.as_stack_page_table != 0 &&
  (as.as_vbase1 &&& PAGE_FRAME) == as.as_vbase1 &&
  (as.as_page_table1 &&& PAGE_FRAME) == as.as_page_table1 &&
  (as.as_vbase2 &&& PAGE_FRAME) == as.as_vbase2 &&
  (as.as_page_table2 &&& PAGE_FRAME) == as.as_page_table2 &&
  (as.as_stack_page_table &&& PAGE_FRAME) == as.as_stack_page_table

/-- The value `vtop = vbase + npages * PAGE_SIZE` that `vm_fault` computes,
in 32-bit arithmetic. -/
def vtop (vbase npages : Nat) : Nat := u32 (vbase + u32 (npages * PAGE_SIZE))

/-- The value `stackbase = USERSTACK - DUMBVM_STACKPAGES * PAGE_SIZE` of
`vm_fault`. -/
def stackbase : Nat := sub32 USERSTACK (u32 (DUMBVM_STACKPAGES * PAGE_SIZE))

/-- The `if`/`else if` chain of `vm_fault` that picks the window of the
page-masked fault address and computes `paddr`; `none` is the final `else`
(`return EFAULT`). -/
def resolve (as : addrspace) (faultaddress : Nat) : Option Nat :=
  if as.as_vbase1 ≤ faultaddress ∧ faultaddress < vtop as.as_vbase1 as.as_npages1 then
    some (u32 (sub32 faultaddress as.as_vbase1 + as.as_page_table1))
  else if as.as_vbase2 ≤ faultaddress ∧ faultaddress < vtop as.as_vbase2 as.as_npages2 then
    some (u32 (sub32 faultaddress as.as_vbase2 + as.as_page_table2))
  else if stackbase ≤ faultaddress ∧ faultaddress < USERSTACK then
    some (u32 (sub32 faultaddress stackbase + as.as_stack_page_table))
  else none

/-- The loop `for (i=0; i<NUM_TLB; i++)` of the build without `OPT_A3`,
entered at slot `i` with `rem = NUM_TLB - i` rounds to go: the first slot
whose low word has the valid bit clear is overwritten. `none` is the exit
of the loop with every slot valid. -/
def tlb_fill (ehi elo : Nat) : Nat → Nat → TLB → Option TLB
  | 0, _, _ => none
  | rem + 1, i, tlb =>
    if (tlb_read tlb i).2 &&& TLBLO_VALID ≠ 0 then tlb_fill ehi elo rem (i + 1) tlb
    else some (tlb_write tlb ehi elo i)

/-- The C function `vm_fault`. `OPT_A3` is the build option of `opt-A3.h`,
`slot` the slot that `tlb_random` picks, `curproc` the current process
(`NULL` is `none`). The result is the returned `int` and the TLB after the
call. -/
def vm_fault (OPT_A3 : Bool) (slot : Nat) (curproc : Option proc) (tlb : TLB)
    (faulttype : Int) (faultaddress : Nat) : Except Halt (RetCode × TLB) :=
  let faultaddress := faultaddress &&& PAGE_FRAME
  if faulttype = VM_FAULT_READONLY then .ok (.zero, tlb)
  else if faulttype = VM_FAULT_READ ∨ faulttype = VM_FAULT_WRITE then
    match curproc with
    | none => .ok (.EFAULT, tlb)
    | some p =>
      match p.p_addrspace with
      | none => .ok (.EFAULT, tlb)
      | some as =>
        if setup_asserts as = false then .error .kassert
        else
          match resolve as faultaddress with
          | none => .ok (.EFAULT, tlb)
          | some paddr =>
            if paddr &&& PAGE_FRAME ≠ paddr then .error .kassert
            else if OPT_A3 then
              let ehi := faultaddress
              let elo :=
                if as.as_vbase1 ≤ faultaddress ∧
                    faultaddress < vtop as.as_vbase1 as.as_npages1 ∧ as.load_done = true then
                  paddr ||| TLBLO_VALID
                else paddr ||| TLBLO_DIRTY ||| TLBLO_VALID
              .ok (.zero, tlb_random tlb slot ehi elo)
            else
              match tlb_fill faultaddress (paddr ||| TLBLO_DIRTY ||| TLBLO_VALID) NUM_TLB 0 tlb with
              | some tlb2 => .ok (.zero, tlb2)
              | none => .ok (.EFAULT, tlb)
  else .ok (.EINVAL, tlb)

/-! ## Address-space records -/

/-- The C function `as_create`. `kmalloc_ok` says whether `kmalloc` returned
a record; `none` is the `NULL` result. -/
def as_create (kmalloc_ok : Bool) : Option addrspace :=
  if kmalloc_ok then
    some
      { as_vbase1 := 0
        as_page_table1 := 0
        as_npages1 := 0
        as_vbase2 := 0
        as_page_table2 := 0
        as_npages2 := 0
        as_stack_page_table := 0
        load_done := false }
  else none

/-- The 32-bit complement `~x`. -/
def not32 (x : Nat) : Nat := 2 ^ 32 - 1 - x % 2 ^ 32

/-- The base that `as_define_region` stores: `vaddr &= PAGE_FRAME`. -/
def region_vbase (vaddr : Nat) : Nat := vaddr &&& PAGE_FRAME

/-- The page count that `as_define_region` stores:
`sz += vaddr & ~PAGE_FRAME; sz = (sz + PAGE_SIZE - 1) & PAGE_FRAME; npages = sz / PAGE_SIZE`,
in 32-bit arithmetic. -/
def region_npages (vaddr sz : Nat) : Nat :=
  let sz1 := u32 (sz + (vaddr &&& not32 PAGE_FRAME))
  let sz2 := sub32 (u32 (sz1 + PAGE_SIZE)) 1 &&& PAGE_FRAME
  sz2 / PAGE_SIZE

/-- The C function `as_define_region`. The three permission arguments are
cast to `void`. The result is the returned `int` and the record after the
call. -/
def as_define_region (as : addrspace) (vaddr sz : Nat)
    (_readable _writeable _executable : Int) : RetCode × addrspace :=
  let npages := region_npages vaddr sz
  let vaddr := region_vbase vaddr
  if as.as_vbase1 = 0 then
    (.zero, { as with as_vbase1 := vaddr, as_npages1 := npages })
  else if as.as_vbase2 = 0 then
    (.zero, { as with as_vbase2 := vaddr, as_npages2 := npages })
  else (.EUNIMP, as)

/-- The C function `as_complete_load`; the flag is set in the `OPT_A3`
build only. -/
def as_complete_load (OPT_A3 : Bool) (as : addrspace) : RetCode × addrspace :=
  if OPT_A3 then (.zero, { as with load_done := true }) else (.zero, as)

/-- The C function `as_prepare_load`: three calls of `getppages`, each
followed by the test of its result against 0. `as_zero_region` fills the
blocks with zero bytes and changes none of the values modelled. The result
is the returned `int`, the record and the statics after the call. -/
def as_prepare_load (ram_stealmem : Nat → Nat) (vm : VM) (as : addrspace) :
    Except Stop (RetCode × addrspace × VM) :=
  if as.as_page_table1 ≠ 0 ∨ as.as_page_table2 ≠ 0 ∨ as.as_stack_page_table ≠ 0 then
    .error ⟨.kassert, vm.CORE_MAP⟩
  else
    match getppages ram_stealmem vm as.as_npages1 with
    | .error e => .error e
    | .ok (pt1, vm1) =>
      if pt1 = 0 then .ok (.ENOMEM, { as with as_page_table1 := pt1 }, vm1)
      else
        match getppages ram_stealmem vm1 as.as_npages2 with
        | .error e => .error e
        | .ok (pt2, vm2) =>
          if pt2 = 0 then
            .ok (.ENOMEM, { as with as_page_table1 := pt1, as_page_table2 := pt2 }, vm2)
          else
            match getppages ram_stealmem vm2 DUMBVM_STACKPAGES with
            | .error e => .error e
            | .ok (pt3, vm3) =>
              if pt3 = 0 then
                .ok (.ENOMEM, { as with as_page_table1 := pt1, as_page_table2 := pt2,
                                        as_stack_page_table := pt3 }, vm3)
              else
                .ok (.zero, { as with as_page_table1 := pt1, as_page_table2 := pt2,
                                      as_stack_page_table := pt3 }, vm3)

/-- The C function `as_destroy`: three calls of `free_kpages`, none of them
guarded. The final `kfree` of the record is served by the kernel heap and
is left out. -/
def as_destroy (vm : VM) (as : addrspace) : Except Stop VM :=
  match free_kpages vm (PADDR_TO_KVADDR as.as_page_table1) with
  | .error e => .error e
  | .ok vm1 =>
    match free_kpages vm1 (PADDR_TO_KVADDR as.as_page_table2) with
    | .error e => .error e
    | .ok vm2 => free_kpages vm2 (PADDR_TO_KVADDR as.as_stack_page_table)

/-- The C function `as_define_stack`. The result is the returned `int` and
the value stored through `stackptr`. -/
def as_define_stack (as : addrspace) : Except Halt (RetCode × Nat) :=
  if as.as_stack_page_table = 0 then .error .kassert else .ok (.zero, USERSTACK)

/-- The C function `as_copy`. `kmalloc_ok` says whether the `kmalloc` of
`as_create` returned a record; `vm` holds the statics at the call of
`as_prepare_load`. The three `memmove` calls copy the contents of the
blocks and change none of the values modelled. The result is the returned
`int`, the record stored through `ret` (if any) and the statics after the
call. -/
def as_copy (ram_stealmem : Nat → Nat) (kmalloc_ok : Bool) (vm : VM) (old : addrspace) :
    Except Stop (RetCode × Option addrspace × VM) :=
  match as_create kmalloc_ok with
  | none => .ok (.ENOMEM, none, vm)
  | some new0 =>
    let new1 : addrspace :=
      { new0 with as_vbase1 := old.as_vbase1, as_npages1 := old.as_npages1,
                  as_vbase2 := old.as_vbase2, as_npages2 := old.as_npages2 }
    match as_prepare_load ram_stealmem vm new1 with
    | .error e => .error e
    | .ok (r, new2, vm1) =>
      if r ≠ .zero then
        match as_destroy vm1 new2 with
        | .error e => .error e
        | .ok vm2 => .ok (.ENOMEM, none, vm2)
      else if new2.as_page_table1 = 0 ∨ new2.as_page_table2 = 0 ∨
          new2.as_stack_page_table = 0 then
        .error ⟨.kassert, vm1.CORE_MAP⟩
      else .ok (.zero, some new2, vm1)

/-! ## Predicates and reference functions of the specification -/

/-- The `n` descriptors `i .. i+n-1` all read `in_use = false`. The
descriptors are taken where the code reads them: in the table, or past
its end when `i + n > NUM_PAGES`. -/
def fits (cm : Nat → frame) (i n : Nat) : Prop := ∀ k < n, (cm (i + k)).in_use = false

instance (cm : Nat → frame) (i n : Nat) : Decidable (fits cm i n) := by
  unfold fits; infer_instance

/-- The test that `getppages(n)` makes at frame `i`: the descriptor `i` is
not in use and neither is any of the `n` descriptors from `i` on. -/
def fit_at (cm : Nat → frame) (i n : Nat) : Prop := (cm i).in_use = false ∧ fits cm i n

instance (cm : Nat → frame) (i n : Nat) : Decidable (fit_at cm i n) := by
  unfold fit_at; infer_instance

/-- The memory after an allocation of `n` frames at `i`, in the words of the
specification: descriptors `i .. i+n-1` are in use, descriptor `i` records
`block_len = n`, every other field is as before. -/
def mark_block (cm : Nat → frame) (i n : Nat) : Nat → frame :=
  fun k =>
    { in_use := (cm k).in_use || decide (i ≤ k ∧ k < i + n),
      block_len := if k = i then n else (cm k).block_len }

/-- The memory after the block of `n` frames at `fn` is freed, in the words
of the specification: descriptors `fn .. fn+n-1` are not in use, descriptor
`fn` records `block_len = 0`, every other field is as before. -/
def clear_block (cm : Nat → frame) (fn n : Nat) : Nat → frame :=
  fun k =>
    { in_use := (cm k).in_use && !decide (fn ≤ k ∧ k < fn + n),
      block_len := if k = fn then 0 else (cm k).block_len }

/-- The memory with the flag `in_use` of descriptors `lo .. lo+n-1` set to
`b`. -/
def fill_in_use (b : Bool) (lo n : Nat) (cm : Nat → frame) : Nat → frame :=
  fun k => if lo ≤ k ∧ k < lo + n then { cm k with in_use := b } else cm k

/-- The two assertions of the loop of `free_kpages` hold at descriptor
`fn + k`. -/
def free_ok_at (cm : Nat → frame) (fn k : Nat) : Bool :=
  (cm (fn + k)).in_use &&
    (if k = 0 then decide (0 < (cm (fn + k)).block_len) else decide ((cm (fn + k)).block_len = 0))

/-- The reason of the stop when a call stops the kernel; `none` when it
returns. -/
def stop_reason {α : Type} : Except Stop α → Option Halt
  | .error e => some e.reason
  | .ok _ => none

/-- The state after `vm_bootstrap`, as far as the allocator relies on it:
the flag is set and the frames of the table lie in the 32-bit physical
address space. -/
def post_bootstrap (vm : VM) : Prop :=
  vm.BOOTSTRAP_DONE = true ∧ vm.MEM_START + vm.NUM_PAGES * PAGE_SIZE ≤ 2 ^ 32

instance (vm : VM) : Decidable (post_bootstrap vm) := by
  unfold post_bootstrap; infer_instance

/-- The block invariant of the frame table: (a) a frame that is not in use
has `block_len = 0`, and (b) a frame `h` with `block_len = N > 0` has
`h + N ≤ NUM_PAGES`, frames `h .. h+N-1` in use and frames `h+1 .. h+N-1`
with `block_len = 0`. The frames are the `NUM_PAGES` descriptors of the
table. -/
def block_inv (vm : VM) : Prop :=
  ∀ h < vm.NUM_PAGES,
    ((vm.CORE_MAP h).in_use = false → (vm.CORE_MAP h).block_len = 0) ∧
    (0 < (vm.CORE_MAP h).block_len →
      h + (vm.CORE_MAP h).block_len ≤ vm.NUM_PAGES ∧
      ∀ k < (vm.CORE_MAP h).block_len,
        (vm.CORE_MAP (h + k)).in_use = true ∧
          (0 < k → (vm.CORE_MAP (h + k)).block_len = 0))

instance (vm : VM) : Decidable (block_inv vm) := by
  unfold block_inv; infer_instance

/-- Clause (a) of the block invariant alone: a frame of the table that is
not in use has `block_len = 0`. -/
def free_zero (vm : VM) : Prop :=
  ∀ h < vm.NUM_PAGES, (vm.CORE_MAP h).in_use = false → (vm.CORE_MAP h).block_len = 0

instance (vm : VM) : Decidable (free_zero vm) := by
  unfold free_zero; infer_instance

/-- A call of the allocator interface. -/
inductive Call where
  | getppages (npages : Nat)
  | free_kpages (addr : Nat)
  deriving DecidableEq, Repr

/-- The statics together with the allocations that were returned and not
yet freed, each as `(first frame, number of frames)`. -/
structure Trace where
  vm : VM
  live : List (Nat × Nat)

/-- One call that returns normally: `getppages` adds the block it returned to
the live allocations, `free_kpages` removes the block that starts at the
frame of its argument. A call that stops the kernel has no successor. -/
def call_step (ram_stealmem : Nat → Nat) (s : Trace) : Call → Option Trace
  | .getppages npages =>
    match getppages ram_stealmem s.vm npages with
    | .ok (addr, vm2) => some ⟨vm2, (frame_number s.vm addr, npages) :: s.live⟩
    | .error _ => none
  | .free_kpages addr =>
    match free_kpages s.vm addr with
    | .ok vm2 =>
      if KVADDR_TO_PADDR addr < s.vm.MEM_START then some ⟨vm2, s.live⟩
      else
        some ⟨vm2, s.live.filter (fun b => b.1 ≠ frame_number s.vm (KVADDR_TO_PADDR addr))⟩
    | .error _ => none

/-- A finite sequence of calls, each of which returns normally. -/
def run_calls (ram_stealmem : Nat → Nat) : List Call → Trace → Option Trace
  | [], s => some s
  | c :: cs, s =>
    match call_step ram_stealmem s c with
    | some s2 => run_calls ram_stealmem cs s2
    | none => none

/-- Two frame ranges `(first, count)` have no frame in common. -/
def disjoint_ranges (a b : Nat × Nat) : Prop := a.1 + a.2 ≤ b.1 ∨ b.1 + b.2 ≤ a.1

instance (a b : Nat × Nat) : Decidable (disjoint_ranges a b) := by
  unfold disjoint_ranges; infer_instance

/-- The link between the frame table and the live allocations: every live
block is non-empty, starts at a frame of the table, is recorded there and
has its frames of the table in use; every frame of the table that records a
block length starts a live block; and the live blocks are pairwise
disjoint. -/
def live_inv (s : Trace) : Prop :=
  post_bootstrap s.vm ∧
    (∀ b ∈ s.live, 0 < b.2 ∧ b.1 < s.vm.NUM_PAGES ∧ (s.vm.CORE_MAP b.1).block_len = b.2 ∧
      ∀ k < b.2, b.1 + k < s.vm.NUM_PAGES → (s.vm.CORE_MAP (b.1 + k)).in_use = true) ∧
    (∀ h < s.vm.NUM_PAGES, 0 < (s.vm.CORE_MAP h).block_len →
      (h, (s.vm.CORE_MAP h).block_len) ∈ s.live) ∧
    s.live.Pairwise disjoint_ranges

/-- The block of `n` frames at physical address `pbase` is a live
allocation: `pbase` is the base of a frame of the table, that frame records
`block_len = n`, and the `n` descriptors from it on are in use. -/
def live_block (vm : VM) (pbase n : Nat) : Prop :=
  frame_number vm pbase < vm.NUM_PAGES ∧
    pbase = vm.MEM_START + frame_number vm pbase * PAGE_SIZE ∧
    (vm.CORE_MAP (frame_number vm pbase)).block_len = n ∧
    ∀ k < n, (vm.CORE_MAP (frame_number vm pbase + k)).in_use = true

instance (vm : VM) (pbase n : Nat) : Decidable (live_block vm pbase n) := by
  unfold live_block; infer_instance

/-- The frames that hold the frame table itself stay out of reach of
`free_kpages`: the first `CORE_MAP_NPAGES` frames are in use and no frame
of the table below `CORE_MAP_NPAGES` records a block length. -/
def table_pages_inv (vm : VM) : Prop :=
  (∀ i < vm.NUM_PAGES, i < vm.CORE_MAP_NPAGES → (vm.CORE_MAP i).in_use = true) ∧
    ∀ h < vm.NUM_PAGES, 0 < (vm.CORE_MAP h).block_len → vm.CORE_MAP_NPAGES ≤ h

instance (vm : VM) : Decidable (table_pages_inv vm) := by
  unfold table_pages_inv; infer_instance

/-- The call `as_prepare_load` followed, when it returns, by `as_destroy` on
the record and the statics it left. The result is the `int` returned by
`as_prepare_load` and the statics after `as_destroy`. -/
def prepare_then_destroy (ram_stealmem : Nat → Nat) (vm : VM) (as : addrspace) :
    Except Stop (RetCode × VM) :=
  match as_prepare_load ram_stealmem vm as with
  | .error e => .error e
  | .ok (r, as2, vm2) =>
    match as_destroy vm2 as2 with
    | .error e => .error e
    | .ok vm3 => .ok (r, vm3)

/-- A `ram_stealmem` that serves nothing; the calls of the examples are all
made after `vm_bootstrap`. -/
def no_stealmem : Nat → Nat := fun _ => 0

/-- Memory that holds zero bytes: every descriptor reads `in_use = false`,
`block_len = 0`. -/
def zero_mem : Nat → frame := fun _ => ⟨false, 0⟩

/-- The `int` that a call returns; `none` when the call stops the
kernel. -/
def returned {α : Type} : Except Stop (RetCode × α) → Option RetCode
  | .ok (r, _) => some r
  | .error _ => none

/-- The frame ranges `(first frame, number of frames)` of the three blocks
that back the record `as`: region 1, region 2 and the stack. -/
def backing_blocks (vm : VM) (as : addrspace) : List (Nat × Nat) :=
  [(frame_number vm as.as_page_table1, as.as_npages1),
    (frame_number vm as.as_page_table2, as.as_npages2),
    (frame_number vm as.as_stack_page_table, DUMBVM_STACKPAGES)]

/-- Every descriptor past the end of the table that one of the three
backing blocks of `as` covers, other than the first descriptor of a block,
records `block_len = 0`. Nothing is required of a block that lies inside
the table. -/
def past_table_zero (vm : VM) (as : addrspace) : Prop :=
  ∀ b ∈ backing_blocks vm as, ∀ k < b.2, 0 < k → vm.NUM_PAGES ≤ b.1 + k →
    (vm.CORE_MAP (b.1 + k)).block_len = 0

instance (vm : VM) (as : addrspace) : Decidable (past_table_zero vm as) := by
  unfold past_table_zero; infer_instance

/-- The page `p` lies in the window `[vbase, vbase + npages * PAGE_SIZE)`. -/
def in_region (vbase npages p : Nat) : Prop := vbase ≤ p ∧ p < vbase + npages * PAGE_SIZE

instance (vbase npages p : Nat) : Decidable (in_region vbase npages p) := by
  unfold in_region; infer_instance

/-- The page `p` lies in the stack window
`[USERSTACK - 12 * PAGE_SIZE, USERSTACK)`. -/
def in_stack (p : Nat) : Prop :=
  USERSTACK - DUMBVM_STACKPAGES * PAGE_SIZE ≤ p ∧ p < USERSTACK

instance (p : Nat) : Decidable (in_stack p) := by
  unfold in_stack; infer_instance

/-- The page `p` passes the window test of `vm_fault`,
`faultaddress >= vbase && faultaddress < vtop`, with `vtop` as the handler
computes it. -/
def in_window (vbase npages p : Nat) : Prop := vbase ≤ p ∧ p < vtop vbase npages

instance (vbase npages p : Nat) : Decidable (in_window vbase npages p) := by
  unfold in_window; infer_instance

/-- No window of the address space wraps around the 32-bit address space:
the two region windows end below `2^32` and the three physical blocks end
at or below `2^32`. -/
def no_wrap (as : addrspace) : Prop :=
  as.as_vbase1 + as.as_npages1 * PAGE_SIZE < 2 ^ 32 ∧
  as.as_page_table1 + as.as_npages1 * PAGE_SIZE ≤ 2 ^ 32 ∧
  as.as_vbase2 + as.as_npages2 * PAGE_SIZE < 2 ^ 32 ∧
  as.as_page_table2 + as.as_npages2 * PAGE_SIZE ≤ 2 ^ 32 ∧
  as.as_stack_page_table + DUMBVM_STACKPAGES * PAGE_SIZE ≤ 2 ^ 32

instance (as : addrspace) : Decidable (no_wrap as) := by
  unfold no_wrap; infer_instance

/-- An address space with a two-page region 1, a one-page region 2 and the
load completed. -/
def as_demo : addrspace :=
  { as_vbase1 := 0x400000
    as_page_table1 := 0x100000
    as_npages1 := 2
    as_vbase2 := 0x10000000
    as_page_table2 := 0x200000
    as_npages2 := 1
    as_stack_page_table := 0x300000
    load_done := true }

/-- An address space whose region 1 is the last page of the 32-bit address
space, so that its window ends at `2^32`. -/
def as_top_page : addrspace := { as_demo with as_vbase1 := 0xfffff000, as_npages1 := 1 }

/-- An address space whose region 1 is backed by a block that ends past
`2^32`. -/
def as_top_block : addrspace := { as_demo with as_page_table1 := 0xfffff000 }

/-- The record that `as_create` returns: every field zero, load not
complete. -/
def as_fresh : addrspace :=
  { as_vbase1 := 0
    as_page_table1 := 0
    as_npages1 := 0
    as_vbase2 := 0
    as_page_table2 := 0
    as_npages2 := 0
    as_stack_page_table := 0
    load_done := false }

/-- A TLB with every slot valid. -/
def tlb_full : TLB := List.replicate 64 (0, TLBLO_VALID)

/-- A TLB with every slot invalid. -/
def tlb_empty : TLB := List.replicate 64 (0, 0)

/-- The statics after `vm_bootstrap` on eight pages at physical address 0
with 8-byte descriptors, on memory that holds zero bytes: the table takes
one page, frame 0. -/
def boot8 : VM := vm_bootstrap 0 32768 8 zero_mem

/-- The statics `boot8` after `getppages(2)` has returned frames 1 and 2. -/
def boot8_alloc2 : VM := { boot8 with CORE_MAP := mark_block boot8.CORE_MAP 1 2 }

/-- The statics after `vm_bootstrap` on the four pages from physical address
`0x100000` to `0x104000`, on memory that holds zero bytes: frame 0 holds the
table, frames 1 to 3 are free. -/
def boot4 : VM := vm_bootstrap 0x100000 0x104000 8 zero_mem

/-- A sequence of four calls on `boot8`. -/
def demo_calls : List Call :=
  [.getppages 2, .getppages 3, .free_kpages (PADDR_TO_KVADDR 4096), .getppages 1]

/-- The live allocations after `demo_calls`. -/
def demo_live : List (Nat × Nat) := [(1, 1), (3, 3)]

/-- The statics `boot8_alloc2` after `getppages(3)` has returned frames 3 to
5. -/
def boot8_alloc23 : VM := { boot8 with CORE_MAP := mark_block boot8_alloc2.CORE_MAP 3 3 }

/-- The statics `boot8_alloc23` after the block at frame 1 is freed. -/
def boot8_alloc3 : VM := { boot8 with CORE_MAP := clear_block boot8_alloc23.CORE_MAP 1 2 }

/-- The statics after `demo_calls`: `boot8_alloc3` after `getppages(1)` has
returned frame 1. -/
def boot8_demo : VM := { boot8 with CORE_MAP := mark_block boot8_alloc3.CORE_MAP 1 1 }

/-- Memory whose descriptors all read `in_use = true`, `block_len = 0`. -/
def busy_mem : Nat → frame := fun _ => ⟨true, 0⟩

/-- The statics after `vm_bootstrap` on the same four pages as `boot4`, on
memory whose descriptors read `in_use = true`: the table is the table of
`boot4`, the memory past its end differs. -/
def boot4_busy : VM := vm_bootstrap 0x100000 0x104000 8 busy_mem

/-- The statics `boot4` after `getppages(4)` has returned frame 1: the block
covers frames 1 to 3 of the table and descriptor 4, past its end. -/
def boot4_over : VM := { boot4 with CORE_MAP := mark_block boot4.CORE_MAP 1 4 }

/-- The statics after `vm_bootstrap` on the 1024 pages from physical address
`0x100000` to `0x500000`: 1024 descriptors of 8 bytes take two pages. -/
def boot1024 : VM := vm_bootstrap 0x100000 0x500000 8 zero_mem

/-- The statics after `vm_bootstrap` on the 512 pages from physical address
`0x100000` to `0x300000`: 512 descriptors of 8 bytes take one page. -/
def boot512 : VM := vm_bootstrap 0x100000 0x300000 8 zero_mem

/-- The statics after `vm_bootstrap` on the same eight pages as `boot8`, on
memory whose descriptors read `in_use = true`. -/
def boot8_busy : VM := vm_bootstrap 0 32768 8 busy_mem

/-- The statics `boot8` after `getppages(8)` has returned frame 1: the block
covers frames 1 to 7 of the table and descriptor 8, past its end. -/
def boot8_over : VM := { boot8 with CORE_MAP := mark_block boot8.CORE_MAP 1 8 }

/-- Memory whose descriptors all read `in_use = false`, `block_len = 7`. -/
def junk_mem : Nat → frame := fun _ => ⟨false, 7⟩

/-- The statics after `vm_bootstrap` on the same four pages as `boot4`, on
memory whose descriptors read `in_use = false`, `block_len = 7`. -/
def boot4_junk : VM := vm_bootstrap 0x100000 0x104000 8 junk_mem

/-- The statics `boot4_junk` after `getppages(4)` has returned frame 1: the
block covers frames 1 to 3 of the table and descriptor 4, past its end. -/
def boot4_junk_over : VM := { boot4_junk with CORE_MAP := mark_block boot4_junk.CORE_MAP 1 4 }

/-- The statics `boot8` after `getppages(1)` has returned frame 1. -/
def boot8_a1 : VM := { boot8 with CORE_MAP := mark_block boot8.CORE_MAP 1 1 }

/-- The statics `boot8_a1` after `getppages(1)` has returned frame 2. -/
def boot8_a12 : VM := { boot8 with CORE_MAP := mark_block boot8_a1.CORE_MAP 2 1 }

/-- The eight-page table with frame 0 holding the table, a free frame 1 and
a live one-frame block at frame 2. -/
def boot8_hole : VM := { boot8 with CORE_MAP := clear_block boot8_a12.CORE_MAP 1 1 }

/-- The statics `boot8_hole` after `getppages(2)` has returned frames 3 and
4. -/
def boot8_hole_alloc2 : VM := { boot8 with CORE_MAP := mark_block boot8_hole.CORE_MAP 3 2 }

/-- The statics `boot8_hole` after `getppages(1)` has returned frame 1. -/
def boot8_hole_alloc1 : VM := { boot8 with CORE_MAP := mark_block boot8_hole.CORE_MAP 1 1 }

/-- The three calls that lead from `boot8` to `boot8_hole`. -/
def hole_calls : List Call :=
  [.getppages 1, .getppages 1, .free_kpages (PADDR_TO_KVADDR 4096)]

/-- The statics after `vm_bootstrap` on the sixteen pages from physical
address `0x100000` to `0x110000`: frame 0 holds the table, frames 1 to 15
are free. -/
def boot16 : VM := vm_bootstrap 0x100000 0x110000 8 zero_mem

/-- A record with one region of two pages and no second region. -/
def as_one_region : addrspace := { as_fresh with as_vbase1 := 0x400000, as_npages1 := 2 }

/-- A record with a region of two pages and a region of one page, before
`as_prepare_load`. -/
def as_two_regions : addrspace :=
  { as_fresh with as_vbase1 := 0x400000, as_npages1 := 2,
                  as_vbase2 := 0x10000000, as_npages2 := 1 }

/-- The statics after `vm_bootstrap` on the same eight pages as `boot8`, on
memory whose descriptors read `in_use = false`, `block_len = 7`. -/
def boot8_junk : VM := vm_bootstrap 0 32768 8 junk_mem

/-- The statics `boot8_alloc2` after `getppages(1)` has returned frame 3. -/
def boot8_l2 : VM := { boot8 with CORE_MAP := mark_block boot8_alloc2.CORE_MAP 3 1 }

/-- The statics `boot8` after `as_prepare_load` on `as_two_regions`: region 1
at frames 1 and 2, region 2 at frame 3, and the stack at frame 4, a block of
twelve descriptors of which four are frames of the table and eight lie past
its end. -/
def boot8_loaded : VM := { boot8 with CORE_MAP := mark_block boot8_l2.CORE_MAP 4 12 }

/-- The record `as_two_regions` after `as_prepare_load` on `boot8`. -/
def as_loaded8 : addrspace :=
  { as_two_regions with as_page_table1 := 0x1000, as_page_table2 := 0x3000,
                        as_stack_page_table := 0x4000 }

/-- The statics after `vm_bootstrap` on the 32 pages from physical address
`0x100000` to `0x120000`: frame 0 holds the table, frames 1 to 31 are
free. -/
def boot32 : VM := vm_bootstrap 0x100000 0x120000 8 zero_mem

/-- The record `as_two_regions` after `as_prepare_load` on `boot32`: region 1
at frames 1 and 2, region 2 at frame 3, the stack at frames 4 to 15. -/
def as_loaded : addrspace :=
  { as_two_regions with as_page_table1 := 0x101000, as_page_table2 := 0x103000,
                        as_stack_page_table := 0x104000 }

/-- The statics `boot32` after `getppages(2)` has returned frames 1 and 2. -/
def boot32_l1 : VM := { boot32 with CORE_MAP := mark_block boot32.CORE_MAP 1 2 }

/-- The statics `boot32_l1` after `getppages(1)` has returned frame 3. -/
def boot32_l2 : VM := { boot32 with CORE_MAP := mark_block boot32_l1.CORE_MAP 3 1 }

/-- The statics `boot32` after `as_prepare_load` on `as_two_regions`: blocks
of 2, 1 and 12 frames at frames 1, 3 and 4. -/
def boot32_loaded : VM := { boot32 with CORE_MAP := mark_block boot32_l2.CORE_MAP 4 12 }

/-- The record `as_loaded` with its load completed. -/
def as_loaded_done : addrspace := { as_loaded with load_done := true }

/-- The record that `as_copy` makes of `as_loaded_done` on `boot32_loaded`:
region 1 at frames 16 and 17, region 2 at frame 18, the stack at frames 19
to 30. -/
def as_copied : addrspace :=
  { as_two_regions with as_page_table1 := 0x110000, as_page_table2 := 0x112000,
                        as_stack_page_table := 0x113000 }

/-- The statics `boot32_loaded` after `getppages(2)` has returned frames 16
and 17. -/
def boot32_c1 : VM := { boot32 with CORE_MAP := mark_block boot32_loaded.CORE_MAP 16 2 }

/-- The statics `boot32_c1` after `getppages(1)` has returned frame 18. -/
def boot32_c2 : VM := { boot32 with CORE_MAP := mark_block boot32_c1.CORE_MAP 18 1 }

/-- The statics `boot32_loaded` after `as_copy` of `as_loaded_done`: three
more blocks of 2, 1 and 12 frames at frames 16, 18 and 19. -/
def boot32_copied : VM := { boot32 with CORE_MAP := mark_block boot32_c2.CORE_MAP 19 12 }

/-- The entry `(ehi, elo)` was written to one slot of the TLB and no other
slot changed, where `elo` carries the physical page `paddr` and the valid
bit. -/
def installs (tlb tlb2 : TLB) (ehi paddr : Nat) : Prop :=
  ∃ j < tlb.length, tlb2 = tlb.set j (ehi, (tlb_read tlb2 j).2) ∧
    (tlb_read tlb2 j).2 &&& PAGE_FRAME = paddr ∧
    (tlb_read tlb2 j).2 &&& TLBLO_VALID = TLBLO_VALID

instance (tlb tlb2 : TLB) (ehi paddr : Nat) : Decidable (installs tlb tlb2 ehi paddr) := by
  unfold installs; infer_instance

instance decEqExcept {ε α : Type} [DecidableEq ε] [DecidableEq α] : DecidableEq (Except ε α)
  | .ok a, .ok b => if h : a = b then isTrue (by rw [h]) else isFalse (by intro e; cases e; exact h rfl)
  | .error a, .error b =>
    if h : a = b then isTrue (by rw [h]) else isFalse (by intro e; cases e; exact h rfl)
  | .ok _, .error _ => isFalse (by intro e; cases e)
  | .error _, .ok _ => isFalse (by intro e; cases e)

/-! ## The loops of the allocator -/

theorem u32_eq {x : Nat} (h : x < 2 ^ 32) : u32 x = x := Nat.mod_eq_of_lt h

theorem sub32_eq {a b : Nat} (hba : b ≤ a) (ha : a < 2 ^ 32) : sub32 a b = a - b := by
  unfold sub32
  have e : (2 : Nat) ^ 32 = 4294967296 := by norm_num
  rw [e] at ha ⊢
  omega

theorem store_same (cm : Nat → frame) (k : Nat) (f : frame) : store cm k f k = f := by
  unfold store
  rw [if_pos rfl]

theorem store_other (cm : Nat → frame) (k j : Nat) (f : frame) (h : j ≠ k) :
    store cm k f j = cm j := by
  unfold store
  rw [if_neg h]

/-- The exit of the fit scan: either the `rem` descriptors from `i + c` on
are all free and the scan ends with `long_enough`, or it breaks at the first
descriptor in use. -/
theorem fit_scan_cases (cm : Nat → frame) (i : Nat) :
    ∀ (rem c : Nat),
      (fit_scan cm i rem c = (true, c + rem) ∧ ∀ k < rem, (cm (i + c + k)).in_use = false) ∨
      (∃ d, c ≤ d ∧ d < c + rem ∧ fit_scan cm i rem c = (false, d) ∧
        (∀ k, c ≤ k → k < d → (cm (i + k)).in_use = false) ∧ (cm (i + d)).in_use = true)
  | 0, c => Or.inl ⟨rfl, fun k hk => absurd hk (Nat.not_lt_zero k)⟩
  | rem + 1, c => by
    rw [fit_scan]
    by_cases hu : (cm (i + c)).in_use = true
    · rw [if_pos hu]
      exact Or.inr ⟨c, le_refl _, by omega, rfl, fun k h1 h2 => by omega, hu⟩
    · rw [if_neg hu]
      have hf : (cm (i + c)).in_use = false := by simpa using hu
      rcases fit_scan_cases cm i rem (c + 1) with ⟨h1, h2⟩ | ⟨d, hd1, hd2, hs, hfr, hin⟩
      · refine Or.inl ⟨by rw [h1]; congr 1; omega, fun k hk => ?_⟩
        by_cases hk0 : k = 0
        · rw [hk0, Nat.add_zero]; exact hf
        · have := h2 (k - 1) (by omega)
          rwa [show i + (c + 1) + (k - 1) = i + c + k by omega] at this
      · refine Or.inr ⟨d, by omega, by omega, hs, fun k h1 h2 => ?_, hin⟩
        by_cases hkc : k = c
        · rw [hkc]; exact hf
        · exact hfr k (by omega) h2

/-- The marking loop on descriptors that are not in use: no assertion fails
and the flag is set on each of them. -/
theorem mark_in_use_ok (i : Nat) :
    ∀ (rem c : Nat) (cm : Nat → frame), (∀ k < rem, (cm (i + c + k)).in_use = false) →
      mark_in_use i rem c cm = .ok (fill_in_use true (i + c) rem cm)
  | 0, c, cm, _ => by
    rw [mark_in_use]
    congr 1
    funext k
    unfold fill_in_use
    rw [if_neg (by omega)]
  | rem + 1, c, cm, h => by
    rw [mark_in_use]
    have h0 := h 0 (by omega)
    rw [Nat.add_zero] at h0
    rw [if_neg (by rw [h0]; simp)]
    rw [mark_in_use_ok i rem (c + 1) _ (fun k hk => by
      rw [store_other _ _ _ _ (by omega)]
      have := h (k + 1) (by omega)
      rwa [show i + c + (k + 1) = i + (c + 1) + k by omega] at this)]
    congr 1
    funext k
    unfold fill_in_use
    by_cases hk : k = i + c
    · rw [if_neg (by omega), if_pos (by omega), hk, store_same]
    · rw [store_other _ _ _ _ hk]
      by_cases hr : i + (c + 1) ≤ k ∧ k < i + (c + 1) + rem
      · rw [if_pos hr, if_pos (by omega)]
      · rw [if_neg hr, if_neg (by omega)]

/-- Recording the block length at `i` and setting the flag on the `n`
descriptors from `i` on gives the memory that the specification
describes. -/
theorem fill_store_eq_mark_block (cm : Nat → frame) (i n : Nat) :
    fill_in_use true (i + 0) n (store cm i { cm i with block_len := n }) = mark_block cm i n := by
  funext k
  unfold fill_in_use mark_block
  rw [Nat.add_zero]
  by_cases hr : i ≤ k ∧ k < i + n
  · rw [if_pos hr]
    by_cases hk : k = i
    · rw [hk, store_same]
      ext
      · simp
        right
        omega
      · simp
    · rw [store_other _ _ _ _ hk]
      ext
      · simp [hr]
      · simp [hk]
  · rw [if_neg hr]
    by_cases hk : k = i
    · rw [hk, store_same]
      ext
      · simp
        intro _
        omega
      · simp
    · rw [store_other _ _ _ _ hk]
      ext
      · simp [hr]
      · simp [hk]

/-- The scan of `getppages` from frame `i` on: it returns the first frame
`j` of the table, `i ≤ j < NUM_PAGES`, at which the test of the code
succeeds, with the block marked; or it reaches the out-of-memory panic, when
the test fails at every frame of the table from `i` on. The `n` descriptors
that the test reads at `j` are not compared with `NUM_PAGES`. -/
theorem getppages_scan_spec (N n : Nat) :
    ∀ (fuel i : Nat) (cm : Nat → frame), N - i ≤ fuel →
      (∃ j, i ≤ j ∧ j < N ∧ fit_at cm j n ∧ (∀ k, i ≤ k → k < j → ¬ fit_at cm k n) ∧
        getppages_scan N n fuel i cm = .ok (j, mark_block cm j n)) ∨
      ((∀ k, i ≤ k → k < N → ¬ fit_at cm k n) ∧
        getppages_scan N n fuel i cm = .error ⟨.panic, cm⟩)
  | 0, i, cm, hfuel => by
    refine Or.inr ⟨fun k h1 h2 => by omega, ?_⟩
    rw [getppages_scan, if_neg (by omega)]
  | fuel + 1, i, cm, hfuel => by
    rw [getppages_scan]
    by_cases hi : i < N
    · rw [if_pos hi]
      by_cases hu : (cm i).in_use = true
      · rw [if_pos hu]
        have hno : ¬ fit_at cm i n := by
          intro hf
          rw [hf.1] at hu
          cases hu
        rcases getppages_scan_spec N n fuel (i + 1) cm (by omega) with
          ⟨j, h1, h2, h3, h4, h5⟩ | ⟨h1, h2⟩
        · refine Or.inl ⟨j, by omega, h2, h3, fun k hk1 hk2 => ?_, h5⟩
          by_cases hki : k = i
          · rw [hki]; exact hno
          · exact h4 k (by omega) hk2
        · refine Or.inr ⟨fun k hk1 hk2 => ?_, h2⟩
          by_cases hki : k = i
          · rw [hki]; exact hno
          · exact h1 k (by omega) hk2
      · rw [if_neg hu]
        have hf : (cm i).in_use = false := by simpa using hu
        rcases fit_scan_cases cm i n 0 with ⟨hs, hfree⟩ | ⟨d, _, hd, hs, hfree, hin⟩
        · rw [hs]
          simp only
          rw [mark_in_use_ok i n 0 _ (fun k hk => by
            have := hfree k hk
            by_cases hk0 : i + 0 + k = i
            · rw [hk0, store_same]
              rw [hk0] at this
              exact this
            · rw [store_other _ _ _ _ hk0]
              exact this)]
          rw [fill_store_eq_mark_block]
          refine Or.inl ⟨i, le_refl _, hi, ⟨hf, fun k hk => ?_⟩, fun k h1 h2 => by omega, rfl⟩
          have := hfree k hk
          rwa [Nat.add_zero] at this
        · rw [hs]
          simp only
          have hno : ∀ k, i ≤ k → k ≤ i + d → ¬ fit_at cm k n := by
            intro k hk1 hk2 hfit
            have := hfit.2 (i + d - k) (by omega)
            rw [show k + (i + d - k) = i + d by omega, hin] at this
            cases this
          rcases getppages_scan_spec N n fuel (i + d + 1) cm (by omega) with
            ⟨j, h1, h2, h3, h4, h5⟩ | ⟨h1, h2⟩
          · refine Or.inl ⟨j, by omega, h2, h3, fun k hk1 hk2 => ?_, h5⟩
            by_cases hkd : k ≤ i + d
            · exact hno k hk1 hkd
            · exact h4 k (by omega) hk2
          · refine Or.inr ⟨fun k hk1 hk2 => ?_, h2⟩
            by_cases hkd : k ≤ i + d
            · exact hno k hk1 hkd
            · exact h1 k (by omega) hk2
    · rw [if_neg hi]
      exact Or.inr ⟨fun k h1 h2 => by omega, rfl⟩

/-- The loop budget of `getppages_scan` is never used up: with a budget of
at least `NUM_PAGES - i` rounds no stop has the reason `no_fuel`, so every
stop of `getppages` is a stop of the C code. -/
theorem getppages_scan_no_fuel (N n : Nat) (fuel i : Nat) (cm : Nat → frame) (e : Stop)
    (hfuel : N - i ≤ fuel) (h : getppages_scan N n fuel i cm = .error e) :
    e.reason ≠ .no_fuel := by
  rcases getppages_scan_spec N n fuel i cm hfuel with ⟨j, _, _, _, _, h5⟩ | ⟨_, h2⟩
  · rw [h5] at h
    cases h
  · rw [h2] at h
    simp only [Except.error.injEq] at h
    rw [← h]
    exact fun hc => Halt.noConfusion hc

/-- The loop of `free_kpages` when both assertions hold at each of the
`rem` descriptors from `fn + i` on: the flag is cleared on each of them. -/
theorem free_loop_ok (fn : Nat) :
    ∀ (rem i : Nat) (cm : Nat → frame), (∀ k < rem, free_ok_at cm fn (i + k) = true) →
      free_loop fn rem i cm = .ok (fill_in_use false (fn + i) rem cm)
  | 0, i, cm, _ => by
    rw [free_loop]
    congr 1
    funext k
    unfold fill_in_use
    rw [if_neg (by omega)]
  | rem + 1, i, cm, h => by
    rw [free_loop]
    have h0 := h 0 (by omega)
    rw [Nat.add_zero] at h0
    unfold free_ok_at at h0
    simp only [Bool.and_eq_true] at h0
    rw [if_neg (by rw [h0.1]; simp), if_neg (by rw [h0.2]; simp)]
    rw [free_loop_ok fn rem (i + 1) _ (fun k hk => by
      have := h (k + 1) (by omega)
      unfold free_ok_at at this ⊢
      rw [store_other _ _ _ _ (by omega)]
      rw [show i + (k + 1) = i + 1 + k by omega] at this
      exact this)]
    congr 1
    funext k
    unfold fill_in_use
    by_cases hk : k = fn + i
    · rw [if_neg (by omega), if_pos (by omega), hk, store_same]
    · rw [store_other _ _ _ _ hk]
      by_cases hr : fn + (i + 1) ≤ k ∧ k < fn + (i + 1) + rem
      · rw [if_pos hr, if_pos (by omega)]
      · rw [if_neg hr, if_neg (by omega)]

/-- The loop of `free_kpages` when an assertion fails at one of the `rem`
descriptors from `fn + i` on: the kernel stops on a `KASSERT`. -/
theorem free_loop_stop (fn : Nat) :
    ∀ (rem i : Nat) (cm : Nat → frame), (∃ k < rem, free_ok_at cm fn (i + k) = false) →
      ∃ e, free_loop fn rem i cm = .error e ∧ e.reason = .kassert
  | 0, i, cm, h => by
    obtain ⟨k, hk, _⟩ := h
    omega
  | rem + 1, i, cm, h => by
    rw [free_loop]
    by_cases hu : (cm (fn + i)).in_use = false
    · rw [if_pos hu]
      exact ⟨_, rfl, rfl⟩
    · rw [if_neg hu]
      by_cases hb : (if i = 0 then decide (0 < (cm (fn + i)).block_len)
          else decide ((cm (fn + i)).block_len = 0)) = false
      · rw [if_pos hb]
        exact ⟨_, rfl, rfl⟩
      · rw [if_neg hb]
        obtain ⟨k, hk, hko⟩ := h
        have hk0 : k ≠ 0 := by
          intro e
          rw [e, Nat.add_zero] at hko
          unfold free_ok_at at hko
          simp only [Bool.not_eq_false] at hu hb
          rw [hu, hb] at hko
          cases hko
        refine free_loop_stop fn rem (i + 1) _ ⟨k - 1, by omega, ?_⟩
        unfold free_ok_at at hko ⊢
        rw [store_other _ _ _ _ (by omega)]
        rw [show i + 1 + (k - 1) = i + k by omega]
        exact hko

/-- Clearing the flag on the `n` descriptors from `fn` on and then the block
length at `fn` gives the memory that the specification describes. -/
theorem store_fill_eq_clear_block (cm : Nat → frame) (fn n : Nat) :
    store (fill_in_use false (fn + 0) n cm) fn
      { fill_in_use false (fn + 0) n cm fn with block_len := 0 } = clear_block cm fn n := by
  funext k
  unfold clear_block
  rw [Nat.add_zero]
  by_cases hk : k = fn
  · rw [hk, store_same]
    unfold fill_in_use
    by_cases hr : fn ≤ fn ∧ fn < fn + n
    · rw [if_pos hr]
      ext
      · simp [hr]
      · simp
    · rw [if_neg hr]
      ext
      · simp
        intro _
        omega
      · simp
  · rw [store_other _ _ _ _ hk]
    unfold fill_in_use
    by_cases hr : fn ≤ k ∧ k < fn + n
    · rw [if_pos hr]
      ext
      · simp [hr]
      · simp [hk]
    · rw [if_neg hr]
      ext
      · simp [hr]
      · simp [hk]

/-! ## The calls of the allocator -/

theorem kvaddr_roundtrip {a : Nat} (h : a < 2 ^ 32) : KVADDR_TO_PADDR (PADDR_TO_KVADDR a) = a := by
  unfold KVADDR_TO_PADDR PADDR_TO_KVADDR sub32 u32 MIPS_KSEG0
  have e : (2 : Nat) ^ 32 = 4294967296 := by norm_num
  rw [e] at h ⊢
  omega

theorem frame_number_base (vm : VM) (j : Nat) (hpb : post_bootstrap vm) (hj : j < vm.NUM_PAGES) :
    vm.MEM_START + j * PAGE_SIZE < 2 ^ 32 ∧
      frame_number vm (vm.MEM_START + j * PAGE_SIZE) = j := by
  obtain ⟨_, hrange⟩ := hpb
  have e : (2 : Nat) ^ 32 = 4294967296 := by norm_num
  have hps : PAGE_SIZE = 4096 := rfl
  rw [e, hps] at hrange
  unfold frame_number sub32
  rw [e, hps]
  omega

theorem getppages_addr (vm : VM) (j : Nat) (hpb : post_bootstrap vm) (hj : j < vm.NUM_PAGES) :
    u32 (vm.MEM_START + u32 (j * PAGE_SIZE)) = vm.MEM_START + j * PAGE_SIZE := by
  obtain ⟨_, hrange⟩ := hpb
  have e : (2 : Nat) ^ 32 = 4294967296 := by norm_num
  have hps : PAGE_SIZE = 4096 := rfl
  rw [e, hps] at hrange
  unfold u32
  rw [e, hps]
  omega

/-- The call `getppages(n)` after bootstrap: it returns the base of the
first frame `j` of the table at which the test of the code succeeds, with
the block marked, or it stops on the out-of-memory panic when the test
fails at every frame of the table. -/
theorem getppages_spec (ram_stealmem : Nat → Nat) (vm : VM) (n : Nat) (hpb : post_bootstrap vm) :
    (∃ j, j < vm.NUM_PAGES ∧ fit_at vm.CORE_MAP j n ∧ (∀ k < j, ¬ fit_at vm.CORE_MAP k n) ∧
      getppages ram_stealmem vm n =
        .ok (vm.MEM_START + j * PAGE_SIZE, { vm with CORE_MAP := mark_block vm.CORE_MAP j n })) ∨
    ((∀ k < vm.NUM_PAGES, ¬ fit_at vm.CORE_MAP k n) ∧
      getppages ram_stealmem vm n = .error ⟨.panic, vm.CORE_MAP⟩) := by
  unfold getppages
  rw [if_pos hpb.1]
  rcases getppages_scan_spec vm.NUM_PAGES n vm.NUM_PAGES 0 vm.CORE_MAP (by omega) with
    ⟨j, _, h2, h3, h4, h5⟩ | ⟨h1, h2⟩
  · refine Or.inl ⟨j, h2, h3, fun k hk => h4 k (Nat.zero_le _) hk, ?_⟩
    rw [h5]
    simp only
    rw [getppages_addr vm j hpb h2]
  · refine Or.inr ⟨fun k hk => h1 k (Nat.zero_le _) hk, ?_⟩
    rw [h2]

/-- What a returning `getppages(n)` after bootstrap has done. -/
theorem getppages_ok (ram_stealmem : Nat → Nat) (vm : VM) (n a : Nat) (vm2 : VM)
    (hpb : post_bootstrap vm) (h : getppages ram_stealmem vm n = .ok (a, vm2)) :
    ∃ j, j < vm.NUM_PAGES ∧ a = vm.MEM_START + j * PAGE_SIZE ∧ frame_number vm a = j ∧
      vm2 = { vm with CORE_MAP := mark_block vm.CORE_MAP j n } ∧
      fit_at vm.CORE_MAP j n ∧ ∀ k < j, ¬ fit_at vm.CORE_MAP k n := by
  rcases getppages_spec ram_stealmem vm n hpb with ⟨j, h1, h2, h3, h4⟩ | ⟨_, h2⟩
  · rw [h4] at h
    simp only [Except.ok.injEq, Prod.mk.injEq] at h
    refine ⟨j, h1, h.1.symm, ?_, h.2.symm, h2, h3⟩
    rw [← h.1]
    exact (frame_number_base vm j hpb h1).2
  · rw [h2] at h
    cases h

/-- First fit: when the test of the code succeeds at frame `j` of the table
and at no frame before it, `getppages(n)` returns the base of frame `j`. -/
theorem getppages_first_fit (ram_stealmem : Nat → Nat) (vm : VM) (n j : Nat)
    (hpb : post_bootstrap vm) (hj : j < vm.NUM_PAGES) (hfit : fit_at vm.CORE_MAP j n)
    (hmin : ∀ k < j, ¬ fit_at vm.CORE_MAP k n) :
    getppages ram_stealmem vm n =
      .ok (vm.MEM_START + j * PAGE_SIZE, { vm with CORE_MAP := mark_block vm.CORE_MAP j n }) := by
  rcases getppages_spec ram_stealmem vm n hpb with ⟨i, h1, h2, h3, h4⟩ | ⟨h1, _⟩
  · have hij : i = j := by
      rcases Nat.lt_trichotomy i j with hlt | heq | hgt
      · exact absurd h2 (hmin i hlt)
      · exact heq
      · exact absurd hfit (h3 j hgt)
    rw [← hij]
    exact h4
  · exact absurd hfit (h1 j hj)

/-- The out-of-memory panic: it is reached exactly when the test of the code
fails at every frame of the table. -/
theorem getppages_panic (ram_stealmem : Nat → Nat) (vm : VM) (n : Nat) (hpb : post_bootstrap vm)
    (hno : ∀ k < vm.NUM_PAGES, ¬ fit_at vm.CORE_MAP k n) :
    getppages ram_stealmem vm n = .error ⟨.panic, vm.CORE_MAP⟩ := by
  rcases getppages_spec ram_stealmem vm n hpb with ⟨i, h1, h2, _, _⟩ | ⟨_, h2⟩
  · exact absurd h2 (hno i h1)
  · exact h2

/-- The call `getppages` is total in the embedding: it returns, or stops on
the out-of-memory panic or on a failed assertion. -/
theorem getppages_total (ram_stealmem : Nat → Nat) (vm : VM) (n : Nat) (e : Stop)
    (h : getppages ram_stealmem vm n = .error e) : e.reason ≠ .no_fuel := by
  unfold getppages at h
  by_cases hb : vm.BOOTSTRAP_DONE = true
  · rw [if_pos hb] at h
    cases hs : getppages_scan vm.NUM_PAGES n vm.NUM_PAGES 0 vm.CORE_MAP with
    | error e2 =>
      rw [hs] at h
      simp only [Except.error.injEq] at h
      rw [← h]
      exact getppages_scan_no_fuel _ _ _ _ _ e2 (by omega) hs
    | ok r => rw [hs] at h; cases h
  · rw [if_neg hb] at h
    cases h

/-- The call `free_kpages` on an address at or above `MEM_START` whose
descriptor records a block length and whose block passes the assertions of
the loop: it returns with the block cleared. -/
theorem free_kpages_spec (vm : VM) (addr : Nat) (hlo : vm.MEM_START ≤ KVADDR_TO_PADDR addr)
    (hpos : 0 < (vm.CORE_MAP (frame_number vm (KVADDR_TO_PADDR addr))).block_len)
    (hok : ∀ k < (vm.CORE_MAP (frame_number vm (KVADDR_TO_PADDR addr))).block_len,
      free_ok_at vm.CORE_MAP (frame_number vm (KVADDR_TO_PADDR addr)) k = true) :
    free_kpages vm addr = .ok { vm with CORE_MAP := (clear_block vm.CORE_MAP
      (frame_number vm (KVADDR_TO_PADDR addr))
      (vm.CORE_MAP (frame_number vm (KVADDR_TO_PADDR addr))).block_len) } := by
  unfold free_kpages
  rw [if_neg (by omega)]
  simp only
  rw [if_neg (by omega)]
  rw [free_loop_ok _ _ 0 _ (fun k hk => by rw [Nat.zero_add]; exact hok k hk)]
  simp only
  rw [store_fill_eq_clear_block]

/-- What a returning `free_kpages` has done. -/
theorem free_kpages_ok (vm : VM) (addr : Nat) (vm2 : VM) (h : free_kpages vm addr = .ok vm2) :
    (KVADDR_TO_PADDR addr < vm.MEM_START ∧ vm2 = vm) ∨
    (vm.MEM_START ≤ KVADDR_TO_PADDR addr ∧
      0 < (vm.CORE_MAP (frame_number vm (KVADDR_TO_PADDR addr))).block_len ∧
      (∀ k < (vm.CORE_MAP (frame_number vm (KVADDR_TO_PADDR addr))).block_len,
        free_ok_at vm.CORE_MAP (frame_number vm (KVADDR_TO_PADDR addr)) k = true) ∧
      vm2 = { vm with CORE_MAP := (clear_block vm.CORE_MAP
        (frame_number vm (KVADDR_TO_PADDR addr))
        (vm.CORE_MAP (frame_number vm (KVADDR_TO_PADDR addr))).block_len) }) := by
  by_cases hlo : KVADDR_TO_PADDR addr < vm.MEM_START
  · left
    unfold free_kpages at h
    rw [if_pos hlo] at h
    simp only [Except.ok.injEq] at h
    exact ⟨hlo, h.symm⟩
  · right
    have hge : vm.MEM_START ≤ KVADDR_TO_PADDR addr := by omega
    by_cases hpos : 0 < (vm.CORE_MAP (frame_number vm (KVADDR_TO_PADDR addr))).block_len
    · by_cases hok : ∀ k < (vm.CORE_MAP (frame_number vm (KVADDR_TO_PADDR addr))).block_len,
          free_ok_at vm.CORE_MAP (frame_number vm (KVADDR_TO_PADDR addr)) k = true
      · rw [free_kpages_spec vm addr hge hpos hok] at h
        simp only [Except.ok.injEq] at h
        exact ⟨hge, hpos, hok, h.symm⟩
      · exfalso
        simp only [not_forall, Bool.not_eq_true] at hok
        obtain ⟨k, hk, hko⟩ := hok
        obtain ⟨e, he, _⟩ := free_loop_stop (frame_number vm (KVADDR_TO_PADDR addr)) _ 0
          vm.CORE_MAP ⟨k, hk, by rw [Nat.zero_add]; exact hko⟩
        unfold free_kpages at h
        rw [if_neg hlo] at h
        simp only at h
        rw [if_neg (by omega), he] at h
        cases h
    · exfalso
      unfold free_kpages at h
      rw [if_neg hlo] at h
      simp only at h
      rw [if_pos (by omega)] at h
      cases h

/-- Under the block invariant the block recorded at a frame of the table
passes the assertions of the loop of `free_kpages`. -/
theorem block_inv_free_ok (vm : VM) (hinv : block_inv vm) (fn : Nat) (hfn : fn < vm.NUM_PAGES)
    (hpos : 0 < (vm.CORE_MAP fn).block_len) :
    ∀ k < (vm.CORE_MAP fn).block_len, free_ok_at vm.CORE_MAP fn k = true := by
  intro k hk
  obtain ⟨_, hb⟩ := (hinv fn hfn).2 hpos
  obtain ⟨hu, hl⟩ := hb k hk
  unfold free_ok_at
  rw [hu]
  by_cases hk0 : k = 0
  · rw [if_pos hk0, hk0, Nat.add_zero]
    simpa using hpos
  · rw [if_neg hk0]
    simpa using hl (by omega)

/-! ## The block invariant -/

theorem block_inv_bootstrap (lo hi sz : Nat) (mem : Nat → frame) :
    block_inv (vm_bootstrap lo hi sz mem) := by
  intro h hh
  have e : (vm_bootstrap lo hi sz mem).CORE_MAP h =
      ⟨decide (h < (vm_bootstrap lo hi sz mem).CORE_MAP_NPAGES), 0⟩ := by
    simp only [vm_bootstrap] at hh ⊢
    rw [if_pos hh]
  rw [e]
  exact ⟨fun _ => rfl, fun hpos => absurd hpos (Nat.lt_irrefl 0)⟩

/-- Marking a block that lies inside the table keeps the block invariant. -/
theorem block_inv_mark_block (vm : VM) (j n : Nat) (hinv : block_inv vm)
    (hfit : fit_at vm.CORE_MAP j n) (hjn : j + n ≤ vm.NUM_PAGES) :
    block_inv { vm with CORE_MAP := mark_block vm.CORE_MAP j n } := by
  obtain ⟨hj0, hfits⟩ := hfit
  have hzero : ∀ k, j ≤ k → k < j + n → (vm.CORE_MAP k).block_len = 0 := by
    intro k h1 h2
    have := hfits (k - j) (by omega)
    rw [show j + (k - j) = k by omega] at this
    exact (hinv k (by omega)).1 this
  have hfree : ∀ k, j ≤ k → k < j + n → (vm.CORE_MAP k).in_use = false := by
    intro k h1 h2
    have := hfits (k - j) (by omega)
    rwa [show j + (k - j) = k by omega] at this
  intro h hh
  simp only [mark_block] at hh ⊢
  constructor
  · intro hu
    simp only [Bool.or_eq_false_iff, decide_eq_false_iff_not] at hu
    by_cases hhj : h = j
    · rw [if_pos hhj]
      by_contra hn0
      exact hu.2 ⟨by omega, by omega⟩
    · rw [if_neg hhj]
      exact (hinv h hh).1 hu.1
  · intro hpos
    by_cases hhj : h = j
    · rw [if_pos hhj] at hpos ⊢
      subst hhj
      refine ⟨hjn, fun k hk => ⟨?_, fun hk0 => ?_⟩⟩
      · simp
        right
        omega
      · rw [if_neg (by omega)]
        exact hzero (h + k) (by omega) (by omega)
    · rw [if_neg hhj] at hpos ⊢
      obtain ⟨hb1, hb2⟩ := (hinv h hh).2 hpos
      have hdis : j + n ≤ h ∨ h + (vm.CORE_MAP h).block_len ≤ j := by
        by_contra hcon
        by_cases hjh : j ≤ h
        · have := hzero h hjh (by omega)
          omega
        · have := (hb2 (j - h) (by omega)).1
          rw [show h + (j - h) = j by omega, hj0] at this
          cases this
      refine ⟨hb1, fun k hk => ⟨?_, fun hk0 => ?_⟩⟩
      · rw [(hb2 k hk).1]
        rfl
      · rw [if_neg (by omega)]
        exact (hb2 k hk).2 hk0

/-- Clearing the block recorded at a frame of the table keeps the block
invariant. -/
theorem block_inv_clear_block (vm : VM) (fn : Nat) (hinv : block_inv vm)
    (hfn : fn < vm.NUM_PAGES) (hpos : 0 < (vm.CORE_MAP fn).block_len) :
    block_inv { vm with CORE_MAP := clear_block vm.CORE_MAP fn (vm.CORE_MAP fn).block_len } := by
  obtain ⟨hb1, hb2⟩ := (hinv fn hfn).2 hpos
  intro h hh
  simp only [clear_block] at hh ⊢
  constructor
  · intro hu
    by_cases hhf : h = fn
    · rw [if_pos hhf]
    · rw [if_neg hhf]
      by_cases hr : fn ≤ h ∧ h < fn + (vm.CORE_MAP fn).block_len
      · have := (hb2 (h - fn) (by omega)).2 (by omega)
        rwa [show fn + (h - fn) = h by omega] at this
      · simp only [hr, decide_False, Bool.not_false, Bool.and_true] at hu
        exact (hinv h hh).1 hu
  · intro hpos2
    by_cases hhf : h = fn
    · rw [if_pos hhf] at hpos2
      omega
    · rw [if_neg hhf] at hpos2 ⊢
      obtain ⟨hc1, hc2⟩ := (hinv h hh).2 hpos2
      have hdis : fn + (vm.CORE_MAP fn).block_len ≤ h ∨ h + (vm.CORE_MAP h).block_len ≤ fn := by
        by_contra hcon
        by_cases hfh : fn ≤ h
        · have := (hb2 (h - fn) (by omega)).2 (by omega)
          rw [show fn + (h - fn) = h by omega] at this
          omega
        · have := (hc2 (fn - h) (by omega)).2 (by omega)
          rw [show h + (fn - h) = fn by omega] at this
          omega
      refine ⟨hc1, fun k hk => ⟨?_, fun hk0 => ?_⟩⟩
      · rw [(hc2 k hk).1]
        simp
        omega
      · rw [if_neg (by omega)]
        exact (hc2 k hk).2 hk0

/-! ## Live allocations -/

theorem disjoint_ranges_symm : Symmetric disjoint_ranges := by
  intro a b h
  unfold disjoint_ranges at h ⊢
  omega

theorem post_bootstrap_vm_bootstrap (lo hi sz : Nat) (mem : Nat → frame) (hlo : lo ≤ hi)
    (hhi : hi < 2 ^ 32) : post_bootstrap (vm_bootstrap lo hi sz mem) := by
  refine ⟨rfl, ?_⟩
  have e : (2 : Nat) ^ 32 = 4294967296 := by norm_num
  have hs : sub32 hi lo = hi - lo := sub32_eq hlo hhi
  simp only [vm_bootstrap, hs, PAGE_SIZE]
  rw [e] at hhi ⊢
  have := Nat.div_mul_le_self (hi - lo) 4096
  omega

theorem bootstrap_table (lo hi sz : Nat) (mem : Nat → frame) (i : Nat)
    (h : i < (vm_bootstrap lo hi sz mem).NUM_PAGES) :
    (vm_bootstrap lo hi sz mem).CORE_MAP i =
      ⟨decide (i < (vm_bootstrap lo hi sz mem).CORE_MAP_NPAGES), 0⟩ := by
  simp only [vm_bootstrap] at h ⊢
  rw [if_pos h]

theorem bootstrap_past (lo hi sz : Nat) (mem : Nat → frame) (i : Nat)
    (h : (vm_bootstrap lo hi sz mem).NUM_PAGES ≤ i) :
    (vm_bootstrap lo hi sz mem).CORE_MAP i = mem i := by
  simp only [vm_bootstrap] at h ⊢
  rw [if_neg (by omega)]

theorem live_inv_bootstrap (lo hi sz : Nat) (mem : Nat → frame) (hlo : lo ≤ hi)
    (hhi : hi < 2 ^ 32) : live_inv ⟨vm_bootstrap lo hi sz mem, []⟩ := by
  refine ⟨post_bootstrap_vm_bootstrap lo hi sz mem hlo hhi, ?_, ?_, List.Pairwise.nil⟩
  · intro b hb
    cases hb
  · intro h hh hpos
    simp only at hh hpos
    rw [bootstrap_table lo hi sz mem h hh] at hpos
    exact absurd hpos (Nat.lt_irrefl 0)

theorem live_inv_getppages (ram_stealmem : Nat → Nat) (s : Trace) (n a : Nat) (vm2 : VM)
    (hinv : live_inv s) (hn : 0 < n) (h : getppages ram_stealmem s.vm n = .ok (a, vm2)) :
    live_inv ⟨vm2, (frame_number s.vm a, n) :: s.live⟩ := by
  obtain ⟨hpb, hlive, hhead, hpair⟩ := hinv
  obtain ⟨j, hjN, _, hfn, rfl, ⟨hj0, hfit⟩, _⟩ := getppages_ok ram_stealmem s.vm n a vm2 hpb h
  rw [hfn]
  refine ⟨hpb, ?_, ?_, ?_⟩
  · intro b hb
    simp only [List.mem_cons] at hb
    rcases hb with rfl | hb
    · refine ⟨hn, hjN, ?_, fun k hk _ => ?_⟩
      · simp [mark_block]
      · simp [mark_block]
        right
        exact hk
    · obtain ⟨h1, h2, h3, h4⟩ := hlive b hb
      have hb0 := h4 0 h1 (by omega)
      rw [Nat.add_zero] at hb0
      have hne : b.1 ≠ j := by
        intro e
        rw [e, hj0] at hb0
        cases hb0
      refine ⟨h1, h2, ?_, fun k hk hkN => ?_⟩
      · simp only [mark_block]
        rw [if_neg hne]
        exact h3
      · simp only [mark_block]
        rw [h4 k hk hkN]
        rfl
  · intro h hh hpos
    simp only [mark_block] at hpos ⊢
    by_cases hj : h = j
    · rw [if_pos hj, hj]
      exact List.mem_cons_self _ _
    · rw [if_neg hj] at hpos ⊢
      exact List.mem_cons_of_mem _ (hhead h hh hpos)
  · refine List.pairwise_cons.mpr ⟨fun b hb => ?_, hpair⟩
    obtain ⟨h1, h2, _, h4⟩ := hlive b hb
    unfold disjoint_ranges
    simp only
    by_contra hcon
    have hb0 := h4 0 h1 (by omega)
    rw [Nat.add_zero] at hb0
    by_cases hjb : j ≤ b.1
    · have hf := hfit (b.1 - j) (by omega)
      rw [show j + (b.1 - j) = b.1 by omega, hb0] at hf
      cases hf
    · have hu := h4 (j - b.1) (by omega) (by omega)
      rw [show b.1 + (j - b.1) = j by omega, hj0] at hu
      cases hu

theorem live_inv_free_kpages (s : Trace) (addr : Nat) (vm2 : VM)
    (hinv : live_inv s) (h : free_kpages s.vm addr = .ok vm2)
    (hhi : ¬ KVADDR_TO_PADDR addr < s.vm.MEM_START) :
    live_inv ⟨vm2, s.live.filter
      (fun b => b.1 ≠ frame_number s.vm (KVADDR_TO_PADDR addr))⟩ := by
  obtain ⟨hpb, hlive, hhead, hpair⟩ := hinv
  rcases free_kpages_ok s.vm addr vm2 h with ⟨hlo, _⟩ | ⟨_, hpos, _, rfl⟩
  · exact absurd hlo hhi
  · generalize frame_number s.vm (KVADDR_TO_PADDR addr) = fn at hpos ⊢
    refine ⟨hpb, ?_, ?_, hpair.filter _⟩
    · intro b hb
      simp only [List.mem_filter, ne_eq, decide_not, Bool.not_eq_true', decide_eq_false_iff_not]
        at hb
      obtain ⟨hb, hne⟩ := hb
      obtain ⟨h1, h2, h3, h4⟩ := hlive b hb
      refine ⟨h1, h2, ?_, fun k hk hkN => ?_⟩
      · simp only [clear_block]
        rw [if_neg hne]
        exact h3
      · simp only [clear_block]
        rw [h4 k hk hkN]
        simp only [Bool.true_and, Bool.not_eq_true', decide_eq_false_iff_not]
        have hkN2 : b.1 + k < s.vm.NUM_PAGES := hkN
        by_cases hfnN : fn < s.vm.NUM_PAGES
        · have hmem := hhead fn hfnN hpos
          have hd : disjoint_ranges b (fn, (s.vm.CORE_MAP fn).block_len) :=
            hpair.forall disjoint_ranges_symm hb hmem (by
              intro e
              rw [e] at hne
              exact hne rfl)
          unfold disjoint_ranges at hd
          simp only at hd
          omega
        · omega
    · intro h hh hpos2
      simp only [clear_block] at hpos2 ⊢
      by_cases hj : h = fn
      · rw [if_pos hj] at hpos2
        omega
      · rw [if_neg hj] at hpos2 ⊢
        simp only [List.mem_filter, ne_eq, decide_not, Bool.not_eq_true',
          decide_eq_false_iff_not]
        exact ⟨hhead h hh hpos2, hj⟩

theorem live_inv_call_step (ram_stealmem : Nat → Nat) (s s2 : Trace) (c : Call)
    (hinv : live_inv s) (hn : ∀ n, c = Call.getppages n → 1 ≤ n)
    (h : call_step ram_stealmem s c = some s2) : live_inv s2 := by
  cases c with
  | getppages n =>
    simp only [call_step] at h
    cases hg : getppages ram_stealmem s.vm n with
    | error e => rw [hg] at h; cases h
    | ok r =>
      obtain ⟨a, vm2⟩ := r
      rw [hg] at h
      simp only [Option.some.injEq] at h
      rw [← h]
      exact live_inv_getppages ram_stealmem s n a vm2 hinv (hn n rfl) hg
  | free_kpages addr =>
    simp only [call_step] at h
    cases hf : free_kpages s.vm addr with
    | error e => rw [hf] at h; cases h
    | ok vm2 =>
      rw [hf] at h
      simp only at h
      by_cases hlo : KVADDR_TO_PADDR addr < s.vm.MEM_START
      · rw [if_pos hlo] at h
        simp only [Option.some.injEq] at h
        rw [← h]
        rcases free_kpages_ok s.vm addr vm2 hf with ⟨_, rfl⟩ | ⟨hge, _⟩
        · exact hinv
        · omega
      · rw [if_neg hlo] at h
        simp only [Option.some.injEq] at h
        rw [← h]
        exact live_inv_free_kpages s addr vm2 hinv hf hlo

/-- The link between table and live allocations is kept along every
sequence of returning calls. -/
theorem live_inv_run_calls (ram_stealmem : Nat → Nat) :
    ∀ (calls : List Call) (s s2 : Trace), live_inv s →
      (∀ n, Call.getppages n ∈ calls → 1 ≤ n) →
      run_calls ram_stealmem calls s = some s2 → live_inv s2
  | [], s, s2, hinv, _, h => by
    simp only [run_calls, Option.some.injEq] at h
    rw [← h]
    exact hinv
  | c :: cs, s, s2, hinv, hn, h => by
    rw [run_calls] at h
    cases hc : call_step ram_stealmem s c with
    | none => rw [hc] at h; cases h
    | some s1 =>
      rw [hc] at h
      simp only at h
      have h1 := live_inv_call_step ram_stealmem s s1 c hinv
        (fun n e => hn n (by rw [e]; exact List.mem_cons_self _ _)) hc
      exact live_inv_run_calls ram_stealmem cs s1 s2 h1
        (fun n hm => hn n (List.mem_cons_of_mem _ hm)) h

/-! ## Sequences of calls on concrete tables -/

theorem call_step_getppages (ram_stealmem : Nat → Nat) (s : Trace) (n a : Nat) (vm2 : VM)
    (h : getppages ram_stealmem s.vm n = .ok (a, vm2)) :
    call_step ram_stealmem s (.getppages n) =
      some ⟨vm2, (frame_number s.vm a, n) :: s.live⟩ := by
  simp only [call_step, h]

theorem call_step_free_kpages (ram_stealmem : Nat → Nat) (s : Trace) (addr : Nat) (vm2 : VM)
    (hge : s.vm.MEM_START ≤ KVADDR_TO_PADDR addr) (h : free_kpages s.vm addr = .ok vm2) :
    call_step ram_stealmem s (.free_kpages addr) =
      some ⟨vm2, s.live.filter (fun b => b.1 ≠ frame_number s.vm (KVADDR_TO_PADDR addr))⟩ := by
  simp only [call_step, h]
  rw [if_neg (by omega)]

theorem run_calls_cons (ram_stealmem : Nat → Nat) (c : Call) (cs : List Call) (s s1 : Trace)
    (h : call_step ram_stealmem s c = some s1) :
    run_calls ram_stealmem (c :: cs) s = run_calls ram_stealmem cs s1 := by
  rw [run_calls, h]

/-- The four calls `demo_calls` on the eight-page table all return, and
leave the blocks at frame 1 (one frame) and at frames 3 to 5 live. -/
theorem demo_run :
    run_calls no_stealmem demo_calls ⟨boot8, []⟩ = some ⟨boot8_demo, demo_live⟩ := by
  have h1 : call_step no_stealmem ⟨boot8, []⟩ (.getppages 2) = some ⟨boot8_alloc2, [(1, 2)]⟩ :=
    call_step_getppages no_stealmem ⟨boot8, []⟩ 2 4096 boot8_alloc2
      (getppages_first_fit no_stealmem boot8 2 1 (by decide) (by decide) (by decide) (by decide))
  have h2 : call_step no_stealmem ⟨boot8_alloc2, [(1, 2)]⟩ (.getppages 3) =
      some ⟨boot8_alloc23, [(3, 3), (1, 2)]⟩ :=
    call_step_getppages no_stealmem ⟨boot8_alloc2, [(1, 2)]⟩ 3 12288 boot8_alloc23
      (getppages_first_fit no_stealmem boot8_alloc2 3 3 (by decide) (by decide) (by decide)
        (by decide))
  have h3 : call_step no_stealmem ⟨boot8_alloc23, [(3, 3), (1, 2)]⟩
      (.free_kpages (PADDR_TO_KVADDR 4096)) = some ⟨boot8_alloc3, [(3, 3)]⟩ :=
    call_step_free_kpages no_stealmem ⟨boot8_alloc23, [(3, 3), (1, 2)]⟩ (PADDR_TO_KVADDR 4096)
      boot8_alloc3 (by decide)
      (free_kpages_spec boot8_alloc23 (PADDR_TO_KVADDR 4096) (by decide) (by decide) (by decide))
  have h4 : call_step no_stealmem ⟨boot8_alloc3, [(3, 3)]⟩ (.getppages 1) =
      some ⟨boot8_demo, demo_live⟩ :=
    call_step_getppages no_stealmem ⟨boot8_alloc3, [(3, 3)]⟩ 1 4096 boot8_demo
      (getppages_first_fit no_stealmem boot8_alloc3 1 1 (by decide) (by decide) (by decide)
        (by decide))
  unfold demo_calls
  rw [run_calls_cons _ _ _ _ _ h1, run_calls_cons _ _ _ _ _ h2, run_calls_cons _ _ _ _ _ h3,
    run_calls_cons _ _ _ _ _ h4]
  rfl

/-! ## The claims about the allocator -/

/-- When a run of `n` free frames lies inside the table, `getppages(n)`
returns the base of the first frame of the lowest such run: the resume step
after a failed fit skips no run, and a run that ends past the table starts
above every run inside it. -/
theorem getppages_first_fit_in_table (ram_stealmem : Nat → Nat) (vm : VM) (n i : Nat)
    (hpb : post_bootstrap vm) (hn : 1 ≤ n) (hin : i + n ≤ vm.NUM_PAGES)
    (hfit : fits vm.CORE_MAP i n)
    (hmin : ∀ k < i, ¬ (k + n ≤ vm.NUM_PAGES ∧ fits vm.CORE_MAP k n)) :
    getppages ram_stealmem vm n =
      .ok (vm.MEM_START + i * PAGE_SIZE, { vm with CORE_MAP := mark_block vm.CORE_MAP i n }) := by
  refine getppages_first_fit ram_stealmem vm n i hpb (by omega) ⟨?_, hfit⟩ (fun k hk hf => ?_)
  · have := hfit 0 (by omega)
    rwa [Nat.add_zero] at this
  · exact hmin k hk ⟨by omega, hf.2⟩

/-- When no run of `n` free frames lies inside the table, `getppages(n)`
reaches its panic only if the memory past the table stops every run that
begins in the table; a block that it returns instead ends past the end of
the table. -/
theorem getppages_no_fit_in_table (ram_stealmem : Nat → Nat) (vm : VM) (n a : Nat) (vm2 : VM)
    (hpb : post_bootstrap vm)
    (hno : ∀ i, i + n ≤ vm.NUM_PAGES → ¬ fits vm.CORE_MAP i n)
    (h : getppages ram_stealmem vm n = .ok (a, vm2)) :
    frame_number vm a < vm.NUM_PAGES ∧ vm.NUM_PAGES < frame_number vm a + n := by
  obtain ⟨j, hj, _, hfn, _, hfit, _⟩ := getppages_ok ram_stealmem vm n a vm2 hpb h
  rw [hfn]
  refine ⟨hj, ?_⟩
  by_contra hle
  exact hno j (by omega) hfit.2

/-- C2 (the request that no run inside the table can serve): on the
four-page table with frame 0 in use and frames 1 to 3 free there is no run
of four free frames inside the table, and `getppages(4)` does not reach its
out-of-memory panic: the fit scan started at frame 1 reads `CORE_MAP[4]`,
one past the last descriptor. When the memory there reads as not in use the
call returns the base of frame 1, a block of which only three frames exist;
on the same table it panics when that memory reads as in use. -/
theorem getppages_no_fit_reads_past_table :
    (boot4.NUM_PAGES = 4 ∧ boot4_busy.NUM_PAGES = 4) ∧
      (∀ i < 4, boot4.CORE_MAP i = boot4_busy.CORE_MAP i) ∧
      ((boot4.CORE_MAP 0).in_use = true ∧ ∀ i < 3, boot4.CORE_MAP (1 + i) = ⟨false, 0⟩) ∧
      (∀ i, i + 4 ≤ boot4.NUM_PAGES → ¬ fits boot4.CORE_MAP i 4) ∧
      ((boot4.CORE_MAP 4).in_use = false ∧
        getppages no_stealmem boot4 4 = .ok (0x101000, boot4_over)) ∧
      ((boot4_busy.CORE_MAP 4).in_use = true ∧
        getppages no_stealmem boot4_busy 4 = .error ⟨.panic, boot4_busy.CORE_MAP⟩) := by
  refine ⟨by decide, by decide, by decide, ?_, ⟨by decide, ?_⟩, ⟨by decide, ?_⟩⟩
  · intro i hi
    have h4 : boot4.NUM_PAGES = 4 := by decide
    rw [h4] at hi
    have h0 : i = 0 := by omega
    subst h0
    decide
  · exact getppages_first_fit no_stealmem boot4 4 1 (by decide) (by decide) (by decide) (by decide)
  · exact getppages_panic no_stealmem boot4_busy 4 (by decide) (by decide)

/-! ## The block invariant along the calls -/

/-- The block invariant reads the descriptors of the table only. -/
theorem block_inv_congr (vm : VM) (cm : Nat → frame) (hinv : block_inv vm)
    (heq : ∀ i < vm.NUM_PAGES, cm i = vm.CORE_MAP i) :
    block_inv { vm with CORE_MAP := cm } := by
  intro h hh
  simp only at hh ⊢
  rw [heq h hh]
  refine ⟨(hinv h hh).1, fun hpos => ?_⟩
  obtain ⟨hb1, hb2⟩ := (hinv h hh).2 hpos
  refine ⟨hb1, fun k hk => ?_⟩
  rw [heq (h + k) (by omega)]
  exact hb2 k hk

/-- A returning `getppages` whose block lies inside the table keeps the
block invariant. -/
theorem block_inv_getppages (ram_stealmem : Nat → Nat) (vm : VM) (n a : Nat) (vm2 : VM)
    (hpb : post_bootstrap vm) (hinv : block_inv vm)
    (h : getppages ram_stealmem vm n = .ok (a, vm2))
    (hin : frame_number vm a + n ≤ vm.NUM_PAGES) : block_inv vm2 := by
  obtain ⟨j, _, _, hfn, rfl, hfit, _⟩ := getppages_ok ram_stealmem vm n a vm2 hpb h
  rw [hfn] at hin
  exact block_inv_mark_block vm j n hinv hfit hin

/-- Every returning `free_kpages` keeps the block invariant. -/
theorem block_inv_free_kpages (vm : VM) (addr : Nat) (vm2 : VM) (hinv : block_inv vm)
    (h : free_kpages vm addr = .ok vm2) : block_inv vm2 := by
  rcases free_kpages_ok vm addr vm2 h with ⟨_, rfl⟩ | ⟨_, hpos, _, rfl⟩
  · exact hinv
  · by_cases hfn : frame_number vm (KVADDR_TO_PADDR addr) < vm.NUM_PAGES
    · exact block_inv_clear_block vm _ hinv hfn hpos
    · refine block_inv_congr vm _ hinv (fun i hi => ?_)
      unfold clear_block
      ext
      · simp
        intro _
        omega
      · simp
        intro h1
        omega

/-- C3 (the block that ends past the table): the block invariant holds for
the table that `vm_bootstrap` builds on four pages; `getppages(4)` returns
on it, with the block at frame 1; and the table it leaves breaks clause (b)
of the invariant: frame 1 records `block_len = 4` while `1 + 4` exceeds
`NUM_PAGES = 4`. -/
theorem block_invariant_broken_past_table :
    block_inv boot4 ∧ getppages no_stealmem boot4 4 = .ok (0x101000, boot4_over) ∧
      ((boot4_over.CORE_MAP 1).block_len = 4 ∧ boot4_over.NUM_PAGES = 4) ∧
      ¬ block_inv boot4_over :=
  ⟨by decide,
    getppages_first_fit no_stealmem boot4 4 1 (by decide) (by decide) (by decide) (by decide),
    by decide, by decide⟩

/-- C4: when `getppages(n)`, `n ≥ 1`, returns after bootstrap, the returned
address is `MEM_START + i * PAGE_SIZE` for a frame `i` of the table, and the
memory `CORE_MAP` after the call differs from the memory before in exactly
this: descriptors `i .. i+n-1` have `in_use = true` and descriptor `i` has
`block_len = n`; every other field of every descriptor, and every other
static, is unchanged. The descriptors `i .. i+n-1` are those that the code
writes, which lie past the end of the table when `i + n > NUM_PAGES`. -/
theorem getppages_frame_effect (ram_stealmem : Nat → Nat) (vm : VM) (n a : Nat) (vm2 : VM)
    (hpb : post_bootstrap vm) (hn : 1 ≤ n)
    (h : getppages ram_stealmem vm n = .ok (a, vm2)) :
    ∃ i, i < vm.NUM_PAGES ∧ a = vm.MEM_START + i * PAGE_SIZE ∧
      vm2 = { vm with CORE_MAP := vm2.CORE_MAP } ∧
      ∀ k, vm2.CORE_MAP k =
        if i ≤ k ∧ k < i + n then
          { in_use := true, block_len := if k = i then n else (vm.CORE_MAP k).block_len }
        else vm.CORE_MAP k := by
  obtain ⟨j, hj, ha, _, rfl, _, _⟩ := getppages_ok ram_stealmem vm n a vm2 hpb h
  refine ⟨j, hj, ha, rfl, fun k => ?_⟩
  simp only [mark_block]
  by_cases hr : j ≤ k ∧ k < j + n
  · rw [if_pos hr]
    simp [hr]
  · rw [if_neg hr]
    have hk : k ≠ j := by omega
    ext
    · simp [hr]
    · simp [hk]

/-- Witness of C4: `getppages(4)` on the four-page table with zero bytes
past its end returns frame 1; the descriptors written are frames 1 to 3 of
the table and descriptor 4, past its end. -/
theorem getppages_frame_effect_witness :
    (post_bootstrap boot4 ∧ 1 ≤ 4 ∧ getppages no_stealmem boot4 4 = .ok (0x101000, boot4_over)) ∧
      ∃ i, i < boot4.NUM_PAGES ∧ 0x101000 = boot4.MEM_START + i * PAGE_SIZE ∧
        boot4_over = { boot4 with CORE_MAP := boot4_over.CORE_MAP } ∧
        ∀ k, boot4_over.CORE_MAP k =
          if i ≤ k ∧ k < i + 4 then
            { in_use := true, block_len := if k = i then 4 else (boot4.CORE_MAP k).block_len }
          else boot4.CORE_MAP k :=
  ⟨⟨by decide, by decide,
      getppages_first_fit no_stealmem boot4 4 1 (by decide) (by decide) (by decide) (by decide)⟩,
    getppages_frame_effect no_stealmem boot4 4 0x101000 boot4_over (by decide) (by decide)
      (getppages_first_fit no_stealmem boot4 4 1 (by decide) (by decide) (by decide) (by decide))⟩

/-- C5: on a table that satisfies the block invariant, for an address of
the managed range whose frame `fn` is a frame of the table and a block head
with `block_len = N > 0`, `free_kpages` returns normally, and the memory
`CORE_MAP` after the call differs from the memory before in exactly this:
frames `fn .. fn+N-1` have `in_use = false` and frame `fn` has
`block_len = 0`. -/
theorem free_kpages_frees_block (vm : VM) (addr N : Nat) (hinv : block_inv vm)
    (hlo : vm.MEM_START ≤ KVADDR_TO_PADDR addr) (_hhi : KVADDR_TO_PADDR addr < vm.MEM_END)
    (hfn : frame_number vm (KVADDR_TO_PADDR addr) < vm.NUM_PAGES) (hN : 0 < N)
    (hhead : (vm.CORE_MAP (frame_number vm (KVADDR_TO_PADDR addr))).block_len = N) :
    ∃ vm2, free_kpages vm addr = .ok vm2 ∧
      vm2 = { vm with CORE_MAP := vm2.CORE_MAP } ∧
      ∀ k, vm2.CORE_MAP k =
        if frame_number vm (KVADDR_TO_PADDR addr) ≤ k ∧
            k < frame_number vm (KVADDR_TO_PADDR addr) + N then
          { in_use := false,
            block_len := if k = frame_number vm (KVADDR_TO_PADDR addr) then 0
              else (vm.CORE_MAP k).block_len }
        else vm.CORE_MAP k := by
  have hpos : 0 < (vm.CORE_MAP (frame_number vm (KVADDR_TO_PADDR addr))).block_len := by omega
  have hspec := free_kpages_spec vm addr hlo hpos (block_inv_free_ok vm hinv _ hfn hpos)
  rw [hhead] at hspec
  refine ⟨_, hspec, rfl, fun k => ?_⟩
  generalize frame_number vm (KVADDR_TO_PADDR addr) = fn
  simp only [clear_block]
  by_cases hr : fn ≤ k ∧ k < fn + N
  · rw [if_pos hr]
    simp [hr]
  · rw [if_neg hr]
    have hk : k ≠ fn := by omega
    ext
    · simp [hr]
    · simp [hk]

/-- Witness of C5: the block of two frames at frame 1 of the eight-page
table is freed through its kernel address. -/
theorem free_kpages_frees_block_witness :
    (block_inv boot8_alloc2 ∧ boot8_alloc2.MEM_START ≤ KVADDR_TO_PADDR (PADDR_TO_KVADDR 4096) ∧
      KVADDR_TO_PADDR (PADDR_TO_KVADDR 4096) < boot8_alloc2.MEM_END ∧
      frame_number boot8_alloc2 (KVADDR_TO_PADDR (PADDR_TO_KVADDR 4096)) <
        boot8_alloc2.NUM_PAGES ∧ 0 < 2 ∧
      (boot8_alloc2.CORE_MAP
        (frame_number boot8_alloc2 (KVADDR_TO_PADDR (PADDR_TO_KVADDR 4096)))).block_len = 2) ∧
      ∃ vm2, free_kpages boot8_alloc2 (PADDR_TO_KVADDR 4096) = .ok vm2 ∧
        vm2 = { boot8_alloc2 with CORE_MAP := vm2.CORE_MAP } ∧
        ∀ k, vm2.CORE_MAP k =
          if frame_number boot8_alloc2 (KVADDR_TO_PADDR (PADDR_TO_KVADDR 4096)) ≤ k ∧
              k < frame_number boot8_alloc2 (KVADDR_TO_PADDR (PADDR_TO_KVADDR 4096)) + 2 then
            { in_use := false,
              block_len :=
                if k = frame_number boot8_alloc2 (KVADDR_TO_PADDR (PADDR_TO_KVADDR 4096)) then 0
                else (boot8_alloc2.CORE_MAP k).block_len }
          else boot8_alloc2.CORE_MAP k :=
  ⟨⟨by decide, by decide, by decide, by decide, by decide, by decide⟩,
    free_kpages_frees_block boot8_alloc2 (PADDR_TO_KVADDR 4096) 2 (by decide) (by decide)
      (by decide) (by decide) (by decide) (by decide)⟩

/-- C6: for an address of the managed range whose frame has `block_len = 0`,
`free_kpages` stops on the assertion `KASSERT(f.block_len > 0)` with the
memory `CORE_MAP` untouched; it does not return. -/
theorem free_kpages_rejects_non_head (vm : VM) (addr : Nat)
    (hlo : vm.MEM_START ≤ KVADDR_TO_PADDR addr) (_hhi : KVADDR_TO_PADDR addr < vm.MEM_END)
    (hzero : (vm.CORE_MAP (frame_number vm (KVADDR_TO_PADDR addr))).block_len = 0) :
    free_kpages vm addr = .error ⟨.kassert, vm.CORE_MAP⟩ := by
  unfold free_kpages
  rw [if_neg (by omega)]
  simp only
  rw [if_pos hzero]

/-- Witness of C6: freeing the second frame of the live block at frames 1
and 2 of the eight-page table. -/
theorem free_kpages_rejects_non_head_witness :
    (boot8_alloc2.MEM_START ≤ KVADDR_TO_PADDR (PADDR_TO_KVADDR 8192) ∧
      KVADDR_TO_PADDR (PADDR_TO_KVADDR 8192) < boot8_alloc2.MEM_END ∧
      boot8_alloc2.CORE_MAP (frame_number boot8_alloc2
        (KVADDR_TO_PADDR (PADDR_TO_KVADDR 8192))) = ⟨true, 0⟩) ∧
      free_kpages boot8_alloc2 (PADDR_TO_KVADDR 8192) =
        .error ⟨.kassert, boot8_alloc2.CORE_MAP⟩ :=
  ⟨⟨by decide, by decide, by decide⟩,
    free_kpages_rejects_non_head boot8_alloc2 (PADDR_TO_KVADDR 8192) (by decide) (by decide)
      (by decide)⟩

/-! ## Bit masks and the fault handler -/

/-- Masking with `PAGE_FRAME` truncates to 32 bits and rounds down to a page
boundary. -/
theorem and_PAGE_FRAME (x : Nat) : x &&& PAGE_FRAME = x % 2 ^ 32 / 4096 * 4096 := by
  have hpf : PAGE_FRAME = 2 ^ 12 * (2 ^ 20 - 1) := by decide
  have h4096 : (4096 : Nat) = 2 ^ 12 := by norm_num
  rw [hpf, h4096, Nat.mul_comm _ (2 ^ 12), ← Nat.shiftRight_eq_div_pow]
  apply Nat.eq_of_testBit_eq
  intro j
  rw [Nat.testBit_and, Nat.testBit_mul_pow_two, Nat.testBit_mul_pow_two, Nat.testBit_shiftRight,
    Nat.testBit_mod_two_pow, Nat.testBit_two_pow_sub_one]
  by_cases hj : 12 ≤ j
  · rw [show 12 + (j - 12) = j by omega]
    by_cases h2 : j < 32
    · have h3 : j - 12 < 20 := by omega
      simp [hj, h2, h3]
    · have h3 : ¬ j - 12 < 20 := by omega
      simp [hj, h2, h3]
  · simp [hj]

theorem and_low_eq_zero {x m : Nat} (hx : x % 4096 = 0) (hm : m < 4096) : x &&& m = 0 := by
  have h4096 : (4096 : Nat) = 2 ^ 12 := by norm_num
  obtain ⟨q, rfl⟩ := Nat.dvd_of_mod_eq_zero hx
  rw [h4096] at hm ⊢
  apply Nat.eq_of_testBit_eq
  intro j
  rw [Nat.testBit_and, Nat.testBit_mul_pow_two, Nat.zero_testBit]
  by_cases hj : 12 ≤ j
  · have : m < 2 ^ j := lt_of_lt_of_le hm (Nat.pow_le_pow_right (by norm_num) hj)
    rw [Nat.testBit_lt_two_pow this]
    simp
  · simp [hj]

theorem aligned_iff (x : Nat) : x &&& PAGE_FRAME = x ↔ x < 2 ^ 32 ∧ x % 4096 = 0 := by
  rw [and_PAGE_FRAME]
  have e : (2 : Nat) ^ 32 = 4294967296 := by norm_num
  rw [e]
  omega

theorem or_and_low {x m c : Nat} (hx : x % 4096 = 0) (hc : c < 4096) :
    (x ||| m) &&& c = m &&& c := by
  rw [Nat.and_comm, Nat.and_or_distrib_left, Nat.and_comm c x, and_low_eq_zero hx hc,
    Nat.zero_or, Nat.and_comm]

theorem or_and_PAGE_FRAME {x m : Nat} (hx : x &&& PAGE_FRAME = x) (hm : m < 4096) :
    (x ||| m) &&& PAGE_FRAME = x := by
  rw [Nat.and_comm, Nat.and_or_distrib_left, Nat.and_comm PAGE_FRAME x, hx,
    and_low_eq_zero (by decide) hm, Nat.or_zero]

theorem setup_asserts_iff (as : addrspace) :
    setup_asserts as = true ↔
      (as.as_vbase1 ≠ 0 ∧ as.as_page_table1 ≠ 0 ∧ as.as_npages1 ≠ 0 ∧
        as.as_vbase2 ≠ 0 ∧ as.as_page_table2 ≠ 0 ∧ as.as_npages2 ≠ 0 ∧
        as.as_stack_page_table ≠ 0) ∧
      as.as_vbase1 &&& PAGE_FRAME = as.as_vbase1 ∧
      as.as_page_table1 &&& PAGE_FRAME = as.as_page_table1 ∧
      as.as_vbase2 &&& PAGE_FRAME = as.as_vbase2 ∧
      as.as_page_table2 &&& PAGE_FRAME = as.as_page_table2 ∧
      as.as_stack_page_table &&& PAGE_FRAME = as.as_stack_page_table := by
  unfold setup_asserts
  simp only [Bool.and_eq_true, bne_iff_ne, ne_eq, beq_iff_eq]
  tauto

theorem tlb_read_set (tlb : TLB) (j ehi elo : Nat) (hj : j < tlb.length) :
    tlb_read (tlb.set j (ehi, elo)) j = (ehi, elo) := by
  unfold tlb_read
  rw [List.getD_eq_getElem?_getD, List.getElem?_set_self hj]
  rfl

theorem installs_set (tlb : TLB) (j ehi elo paddr : Nat) (hj : j < tlb.length)
    (h1 : elo &&& PAGE_FRAME = paddr) (h2 : elo &&& TLBLO_VALID = TLBLO_VALID) :
    installs tlb (tlb.set j (ehi, elo)) ehi paddr := by
  refine ⟨j, hj, ?_⟩
  rw [tlb_read_set tlb j ehi elo hj]
  exact ⟨rfl, h1, h2⟩

theorem tlb_fill_some (ehi elo : Nat) (tlb : TLB) :
    ∀ (rem i : Nat), (∃ j, i ≤ j ∧ j < i + rem ∧ (tlb_read tlb j).2 &&& TLBLO_VALID = 0) →
      ∃ j, j < i + rem ∧ tlb_fill ehi elo rem i tlb = some (tlb.set j (ehi, elo))
  | 0, i, ⟨j, h1, h2, _⟩ => by omega
  | rem + 1, i, ⟨j, h1, h2, h3⟩ => by
    rw [tlb_fill]
    by_cases hv : (tlb_read tlb i).2 &&& TLBLO_VALID ≠ 0
    · rw [if_pos hv]
      have hne : i ≠ j := by
        intro e
        rw [e] at hv
        exact hv h3
      obtain ⟨k, hk, hfill⟩ := tlb_fill_some ehi elo tlb rem (i + 1) ⟨j, by omega, by omega, h3⟩
      exact ⟨k, by omega, hfill⟩
    · rw [if_neg hv]
      exact ⟨i, by omega, rfl⟩

theorem tlb_fill_none (ehi elo : Nat) (tlb : TLB) :
    ∀ (rem i : Nat), (∀ j, i ≤ j → j < i + rem → (tlb_read tlb j).2 &&& TLBLO_VALID ≠ 0) →
      tlb_fill ehi elo rem i tlb = none
  | 0, _, _ => rfl
  | rem + 1, i, h => by
    rw [tlb_fill, if_pos (h i (le_refl _) (by omega))]
    exact tlb_fill_none ehi elo tlb rem (i + 1) (fun j h1 h2 => h j (by omega) (by omega))

theorem stackbase_eq : stackbase = USERSTACK - DUMBVM_STACKPAGES * PAGE_SIZE := by decide

theorem page_mask_facts (v : Nat) :
    (v &&& PAGE_FRAME) < 2 ^ 32 ∧ (v &&& PAGE_FRAME) % 4096 = 0 ∧ v &&& PAGE_FRAME ≤ v := by
  rw [and_PAGE_FRAME]
  have e : (2 : Nat) ^ 32 = 4294967296 := by norm_num
  rw [e]
  have := Nat.mod_le v 4294967296
  omega

/-- Without wrap-around the window chain of
the handler is the chain over the plain intervals, and the physical address
is the plain sum. -/
theorem resolve_eq (as : addrspace) (p : Nat) (hnw : no_wrap as) (hp : p < 2 ^ 32) :
    resolve as p =
      if in_region as.as_vbase1 as.as_npages1 p then
        some (as.as_page_table1 + (p - as.as_vbase1))
      else if in_region as.as_vbase2 as.as_npages2 p then
        some (as.as_page_table2 + (p - as.as_vbase2))
      else if in_stack p then
        some (as.as_stack_page_table + (p - (USERSTACK - DUMBVM_STACKPAGES * PAGE_SIZE)))
      else none := by
  have e : (2 : Nat) ^ 32 = 4294967296 := by norm_num
  obtain ⟨n1, n2, n3, n4, n5⟩ := hnw
  have hsb : stackbase = 2147434496 := by decide
  have hus : USERSTACK = 2147483648 := by decide
  simp only [PAGE_SIZE, DUMBVM_STACKPAGES, e] at n1 n2 n3 n4 n5
  rw [e] at hp
  unfold resolve in_region in_stack vtop u32 sub32
  simp only [PAGE_SIZE, DUMBVM_STACKPAGES, e, hsb, hus]
  have m1 : as.as_npages1 * 4096 % 4294967296 = as.as_npages1 * 4096 := by omega
  have m2 : as.as_npages2 * 4096 % 4294967296 = as.as_npages2 * 4096 := by omega
  have t1 : (as.as_vbase1 + as.as_npages1 * 4096) % 4294967296 =
      as.as_vbase1 + as.as_npages1 * 4096 := by omega
  have t2 : (as.as_vbase2 + as.as_npages2 * 4096) % 4294967296 =
      as.as_vbase2 + as.as_npages2 * 4096 := by omega
  rw [m1, m2, t1, t2]
  by_cases w1 : as.as_vbase1 ≤ p ∧ p < as.as_vbase1 + as.as_npages1 * 4096
  · rw [if_pos w1, if_pos w1]
    exact congrArg some (by omega)
  · rw [if_neg w1, if_neg w1]
    by_cases w2 : as.as_vbase2 ≤ p ∧ p < as.as_vbase2 + as.as_npages2 * 4096
    · rw [if_pos w2, if_pos w2]
      exact congrArg some (by omega)
    · rw [if_neg w2, if_neg w2]
      by_cases w3 : 2147434496 ≤ p ∧ p < 2147483648
      · rw [if_pos w3, if_pos (by omega)]
        exact congrArg some (by omega)
      · rw [if_neg w3, if_neg (by omega)]

theorem not_readonly {faulttype : Int}
    (hft : faulttype = VM_FAULT_READ ∨ faulttype = VM_FAULT_WRITE) :
    ¬ faulttype = VM_FAULT_READONLY := by
  rcases hft with h | h <;> rw [h] <;> decide

theorem vm_fault_none (OPT_A3 : Bool) (slot : Nat) (as : addrspace) (tlb : TLB)
    (faulttype : Int) (v : Nat) (hsetup : setup_asserts as = true)
    (hft : faulttype = VM_FAULT_READ ∨ faulttype = VM_FAULT_WRITE)
    (hres : resolve as (v &&& PAGE_FRAME) = none) :
    vm_fault OPT_A3 slot (some ⟨some as⟩) tlb faulttype v = .ok (.EFAULT, tlb) := by
  simp only [vm_fault, if_neg (not_readonly hft), if_pos hft, hsetup, hres]
  rfl

/-- Once the window chain has produced a page-aligned `paddr`, the handler
returns 0 with the pair installed: in the slot of `tlb_random` in the
`OPT_A3` build, in the first invalid slot otherwise. -/
theorem vm_fault_install (OPT_A3 : Bool) (slot : Nat) (as : addrspace) (tlb : TLB)
    (faulttype : Int) (v paddr : Nat) (hsetup : setup_asserts as = true)
    (hft : faulttype = VM_FAULT_READ ∨ faulttype = VM_FAULT_WRITE)
    (htlb : tlb.length = NUM_TLB) (hslot : slot < NUM_TLB)
    (hroom : OPT_A3 = true ∨ ∃ j < NUM_TLB, (tlb_read tlb j).2 &&& TLBLO_VALID = 0)
    (hres : resolve as (v &&& PAGE_FRAME) = some paddr)
    (hal : paddr &&& PAGE_FRAME = paddr) :
    ∃ tlb2, vm_fault OPT_A3 slot (some ⟨some as⟩) tlb faulttype v = .ok (.zero, tlb2) ∧
      installs tlb tlb2 (v &&& PAGE_FRAME) paddr := by
  have hmod := ((aligned_iff paddr).mp hal).2
  have hV : (paddr ||| TLBLO_VALID) &&& TLBLO_VALID = TLBLO_VALID := by
    rw [or_and_low hmod (by decide)]
    decide
  have hDV : (paddr ||| TLBLO_DIRTY ||| TLBLO_VALID) &&& TLBLO_VALID = TLBLO_VALID := by
    rw [Nat.or_assoc, or_and_low hmod (by decide)]
    decide
  have hF : (paddr ||| TLBLO_VALID) &&& PAGE_FRAME = paddr := or_and_PAGE_FRAME hal (by decide)
  have hDF : (paddr ||| TLBLO_DIRTY ||| TLBLO_VALID) &&& PAGE_FRAME = paddr := by
    rw [Nat.or_assoc]
    exact or_and_PAGE_FRAME hal (by decide)
  simp only [vm_fault, if_neg (not_readonly hft), if_pos hft, hsetup, hres]
  simp only [Bool.true_eq_false, ↓reduceIte, ne_eq, hal, not_true_eq_false]
  cases OPT_A3 with
  | true =>
    simp only [↓reduceIte]
    split
    · exact ⟨_, rfl, installs_set tlb slot _ _ paddr (by omega) hF hV⟩
    · exact ⟨_, rfl, installs_set tlb slot _ _ paddr (by omega) hDF hDV⟩
  | false =>
    simp only [Bool.false_eq_true, ↓reduceIte]
    rcases hroom with h | ⟨j, hj, hinv⟩
    · cases h
    · obtain ⟨k, hk, hfill⟩ := tlb_fill_some (v &&& PAGE_FRAME)
        (paddr ||| TLBLO_DIRTY ||| TLBLO_VALID) tlb NUM_TLB 0 ⟨j, Nat.zero_le _, by omega, hinv⟩
      rw [hfill]
      exact ⟨_, rfl, installs_set tlb k _ _ paddr (by omega) hDF hDV⟩

theorem aligned_sum (npages : Nat) {pbase vbase p : Nat} (hpb : pbase &&& PAGE_FRAME = pbase)
    (hvb : vbase % 4096 = 0) (hp : p % 4096 = 0) (hle : vbase ≤ p)
    (hlt : p < vbase + npages * 4096) (hnw : pbase + npages * 4096 ≤ 2 ^ 32) :
    (pbase + (p - vbase)) &&& PAGE_FRAME = pbase + (p - vbase) := by
  have h1 := (aligned_iff pbase).mp hpb
  rw [aligned_iff]
  have e : (2 : Nat) ^ 32 = 4294967296 := by norm_num
  rw [e] at hnw h1 ⊢
  omega

/-- C7, as amended: for an address space that passes the setup assertions
of `vm_fault` and has no window that wraps around `2^32`, with a current
process and address space, a read or write fault at `v` and
`p = v & PAGE_FRAME`: in the `OPT_A3` build, or in the build without
`OPT_A3` when some TLB slot is invalid, the handler returns 0 having
installed `(p, pbase1 + (p - vbase1))` if `p` is in region 1's window,
otherwise `(p, pbase2 + (p - vbase2))` if `p` is in region 2's window,
otherwise `(p, stack_pbase + (p - (USERSTACK - 12 * PAGE_SIZE)))` if `p` is
in the stack window, so that `v` translates to `pbase + (v - vbase)` of its
window; if `p` is in none of the three windows the handler returns `EFAULT`
and leaves the TLB as it was. -/
theorem vm_fault_translation (OPT_A3 : Bool) (slot : Nat) (as : addrspace) (tlb : TLB)
    (faulttype : Int) (v : Nat) (hsetup : setup_asserts as = true) (hnw : no_wrap as)
    (hft : faulttype = VM_FAULT_READ ∨ faulttype = VM_FAULT_WRITE)
    (htlb : tlb.length = NUM_TLB) (hslot : slot < NUM_TLB)
    (hroom : OPT_A3 = true ∨ ∃ j < NUM_TLB, (tlb_read tlb j).2 &&& TLBLO_VALID = 0) :
    (in_region as.as_vbase1 as.as_npages1 (v &&& PAGE_FRAME) →
      (∃ tlb2, vm_fault OPT_A3 slot (some ⟨some as⟩) tlb faulttype v = .ok (.zero, tlb2) ∧
        installs tlb tlb2 (v &&& PAGE_FRAME)
          (as.as_page_table1 + ((v &&& PAGE_FRAME) - as.as_vbase1))) ∧
      as.as_page_table1 + ((v &&& PAGE_FRAME) - as.as_vbase1) + (v - (v &&& PAGE_FRAME)) =
        as.as_page_table1 + (v - as.as_vbase1)) ∧
    (¬ in_region as.as_vbase1 as.as_npages1 (v &&& PAGE_FRAME) →
      in_region as.as_vbase2 as.as_npages2 (v &&& PAGE_FRAME) →
      (∃ tlb2, vm_fault OPT_A3 slot (some ⟨some as⟩) tlb faulttype v = .ok (.zero, tlb2) ∧
        installs tlb tlb2 (v &&& PAGE_FRAME)
          (as.as_page_table2 + ((v &&& PAGE_FRAME) - as.as_vbase2))) ∧
      as.as_page_table2 + ((v &&& PAGE_FRAME) - as.as_vbase2) + (v - (v &&& PAGE_FRAME)) =
        as.as_page_table2 + (v - as.as_vbase2)) ∧
    (¬ in_region as.as_vbase1 as.as_npages1 (v &&& PAGE_FRAME) →
      ¬ in_region as.as_vbase2 as.as_npages2 (v &&& PAGE_FRAME) →
      in_stack (v &&& PAGE_FRAME) →
      (∃ tlb2, vm_fault OPT_A3 slot (some ⟨some as⟩) tlb faulttype v = .ok (.zero, tlb2) ∧
        installs tlb tlb2 (v &&& PAGE_FRAME)
          (as.as_stack_page_table +
            ((v &&& PAGE_FRAME) - (USERSTACK - DUMBVM_STACKPAGES * PAGE_SIZE)))) ∧
      as.as_stack_page_table +
          ((v &&& PAGE_FRAME) - (USERSTACK - DUMBVM_STACKPAGES * PAGE_SIZE)) +
          (v - (v &&& PAGE_FRAME)) =
        as.as_stack_page_table + (v - (USERSTACK - DUMBVM_STACKPAGES * PAGE_SIZE))) ∧
    (¬ in_region as.as_vbase1 as.as_npages1 (v &&& PAGE_FRAME) →
      ¬ in_region as.as_vbase2 as.as_npages2 (v &&& PAGE_FRAME) →
      ¬ in_stack (v &&& PAGE_FRAME) →
      vm_fault OPT_A3 slot (some ⟨some as⟩) tlb faulttype v = .ok (.EFAULT, tlb)) := by
  obtain ⟨hp32, hpmod, hpv⟩ := page_mask_facts v
  have hres := resolve_eq as (v &&& PAGE_FRAME) hnw hp32
  obtain ⟨_, a1, a2, a3, a4, a5⟩ := (setup_asserts_iff as).mp hsetup
  have hv1 := ((aligned_iff _).mp a1).2
  have hv2 := ((aligned_iff _).mp a3).2
  obtain ⟨_, n2, _, n4, n5⟩ := hnw
  refine ⟨fun w1 => ?_, fun w1 w2 => ?_, fun w1 w2 w3 => ?_, fun w1 w2 w3 => ?_⟩
  · rw [if_pos w1] at hres
    refine ⟨vm_fault_install OPT_A3 slot as tlb faulttype v _ hsetup hft htlb hslot hroom hres
      (aligned_sum as.as_npages1 a2 hv1 hpmod w1.1 w1.2 n2), ?_⟩
    have := w1.1
    omega
  · rw [if_neg w1, if_pos w2] at hres
    refine ⟨vm_fault_install OPT_A3 slot as tlb faulttype v _ hsetup hft htlb hslot hroom hres
      (aligned_sum as.as_npages2 a4 hv2 hpmod w2.1 w2.2 n4), ?_⟩
    have := w2.1
    omega
  · rw [if_neg w1, if_neg w2, if_pos w3] at hres
    have hsb : USERSTACK - DUMBVM_STACKPAGES * PAGE_SIZE = 2147434496 := by decide
    have hus : USERSTACK = 2147483648 := by decide
    have w3b := w3
    unfold in_stack at w3b
    rw [hsb, hus] at w3b
    rw [hsb] at hres ⊢
    refine ⟨vm_fault_install OPT_A3 slot as tlb faulttype v _ hsetup hft htlb hslot hroom hres
      (aligned_sum 12 a5 (by decide) hpmod w3b.1 (by omega) n5), ?_⟩
    omega
  · rw [if_neg w1, if_neg w2, if_neg w3] at hres
    exact vm_fault_none OPT_A3 slot as tlb faulttype v hsetup hft hres

/-- Witness of C7: a read fault at `0x400123` in the `OPT_A3` build, inside
region 1 of `as_demo`. -/
theorem vm_fault_translation_witness :
    (setup_asserts as_demo = true ∧ no_wrap as_demo ∧
      (VM_FAULT_READ = VM_FAULT_READ ∨ VM_FAULT_READ = VM_FAULT_WRITE) ∧
      tlb_empty.length = NUM_TLB ∧ 3 < NUM_TLB ∧
      in_region as_demo.as_vbase1 as_demo.as_npages1 (0x400123 &&& PAGE_FRAME)) ∧
      (∃ tlb2, vm_fault true 3 (some ⟨some as_demo⟩) tlb_empty VM_FAULT_READ 0x400123 =
          .ok (.zero, tlb2) ∧
        installs tlb_empty tlb2 (0x400123 &&& PAGE_FRAME)
          (as_demo.as_page_table1 + ((0x400123 &&& PAGE_FRAME) - as_demo.as_vbase1))) ∧
      as_demo.as_page_table1 + ((0x400123 &&& PAGE_FRAME) - as_demo.as_vbase1) +
          (0x400123 - (0x400123 &&& PAGE_FRAME)) =
        as_demo.as_page_table1 + (0x400123 - as_demo.as_vbase1) :=
  ⟨⟨by decide, by decide, Or.inl rfl, by decide, by decide, by decide⟩,
    (vm_fault_translation true 3 as_demo tlb_empty VM_FAULT_READ 0x400123 (by decide)
      (by decide) (Or.inl rfl) (by decide) (by decide) (Or.inl rfl)).1 (by decide)⟩

/-- C7 fails as stated at three inputs. In the build without `OPT_A3` with
every TLB slot valid a read fault inside region 1 returns `EFAULT` and
installs nothing. In the `OPT_A3` build, a region 1 that is the last page
below `2^32` has `vtop1 = 0` in 32-bit arithmetic, so a fault on that page
returns `EFAULT`. And for a region 1 whose block ends past `2^32` the second
page is installed with physical page `0`, not `pbase1 + (p - vbase1)`. -/
theorem vm_fault_translation_counterexample :
    (setup_asserts as_demo = true ∧
      in_region as_demo.as_vbase1 as_demo.as_npages1 (0x400123 &&& PAGE_FRAME) ∧
      vm_fault false 3 (some ⟨some as_demo⟩) tlb_full VM_FAULT_READ 0x400123 =
        .ok (.EFAULT, tlb_full)) ∧
    (setup_asserts as_top_page = true ∧
      in_region as_top_page.as_vbase1 as_top_page.as_npages1 (0xfffff123 &&& PAGE_FRAME) ∧
      vm_fault true 3 (some ⟨some as_top_page⟩) tlb_empty VM_FAULT_READ 0xfffff123 =
        .ok (.EFAULT, tlb_empty)) ∧
    (setup_asserts as_top_block = true ∧
      in_region as_top_block.as_vbase1 as_top_block.as_npages1 (0x401000 &&& PAGE_FRAME) ∧
      as_top_block.as_page_table1 + ((0x401000 &&& PAGE_FRAME) - as_top_block.as_vbase1) =
        2 ^ 32 ∧
      vm_fault true 3 (some ⟨some as_top_block⟩) tlb_empty VM_FAULT_READ 0x401000 =
        .ok (.zero, tlb_empty.set 3 (0x401000, 0 ||| TLBLO_VALID))) := by
  decide

/-- C8: in the `OPT_A3` build, every read or write fault that `vm_fault`
resolves installs, in the slot that `tlb_random` picks, the page-masked
fault address with a low word that has the valid bit set; the dirty bit of
that word is clear when the page passes the handler's test for region 1's
window and `load_done` is set, and set in every other case. -/
theorem vm_fault_dirty_bit (slot : Nat) (curproc : Option proc) (tlb : TLB) (faulttype : Int)
    (v : Nat) (tlb2 : TLB) (hft : faulttype = VM_FAULT_READ ∨ faulttype = VM_FAULT_WRITE)
    (h : vm_fault true slot curproc tlb faulttype v = .ok (.zero, tlb2)) :
    ∃ p as elo, curproc = some p ∧ p.p_addrspace = some as ∧
      tlb2 = tlb_random tlb slot (v &&& PAGE_FRAME) elo ∧
      elo &&& TLBLO_VALID = TLBLO_VALID ∧
      (elo &&& TLBLO_DIRTY = 0 ↔
        in_window as.as_vbase1 as.as_npages1 (v &&& PAGE_FRAME) ∧ as.load_done = true) ∧
      (¬ (in_window as.as_vbase1 as.as_npages1 (v &&& PAGE_FRAME) ∧ as.load_done = true) →
        elo &&& TLBLO_DIRTY = TLBLO_DIRTY) := by
  simp only [vm_fault, if_neg (not_readonly hft), if_pos hft] at h
  cases curproc with
  | none => simp at h
  | some p =>
    cases hp : p.p_addrspace with
    | none => simp [hp] at h
    | some as =>
      simp only [hp] at h
      by_cases hs : setup_asserts as = false
      · simp [hs] at h
      · rw [if_neg hs] at h
        cases hr : resolve as (v &&& PAGE_FRAME) with
        | none => simp [hr] at h
        | some paddr =>
          simp only [hr] at h
          by_cases hal : paddr &&& PAGE_FRAME ≠ paddr
          · rw [if_pos hal] at h
            cases h
          · rw [if_neg hal] at h
            simp only [ne_eq, not_not] at hal
            have hmod := ((aligned_iff paddr).mp hal).2
            simp only [↓reduceIte, Except.ok.injEq, Prod.mk.injEq, true_and] at h
            by_cases hc : as.as_vbase1 ≤ v &&& PAGE_FRAME ∧
                v &&& PAGE_FRAME < vtop as.as_vbase1 as.as_npages1 ∧ as.load_done = true
            · rw [if_pos hc] at h
              have hd : (paddr ||| TLBLO_VALID) &&& TLBLO_DIRTY = 0 := by
                rw [or_and_low hmod (by decide)]
                decide
              refine ⟨p, as, _, rfl, hp, h.symm, ?_, ?_, ?_⟩
              · rw [or_and_low hmod (by decide)]
                decide
              · exact ⟨fun _ => ⟨⟨hc.1, hc.2.1⟩, hc.2.2⟩, fun _ => hd⟩
              · intro hn
                exact absurd ⟨⟨hc.1, hc.2.1⟩, hc.2.2⟩ hn
            · rw [if_neg hc] at h
              have hd : (paddr ||| TLBLO_DIRTY ||| TLBLO_VALID) &&& TLBLO_DIRTY = TLBLO_DIRTY := by
                rw [Nat.or_assoc, or_and_low hmod (by decide)]
                decide
              have hnc : ¬ (in_window as.as_vbase1 as.as_npages1 (v &&& PAGE_FRAME) ∧
                  as.load_done = true) := by
                intro hw
                exact hc ⟨hw.1.1, hw.1.2, hw.2⟩
              refine ⟨p, as, _, rfl, hp, h.symm, ?_, ?_, fun _ => hd⟩
              · rw [Nat.or_assoc, or_and_low hmod (by decide)]
                decide
              · constructor
                · intro hz
                  rw [hd] at hz
                  exact absurd hz (by decide)
                · intro hw
                  exact absurd hw hnc

/-- Witness of C8: a write fault at `0x400123` on `as_demo`, whose load is
complete. -/
theorem vm_fault_dirty_bit_witness :
    ((VM_FAULT_WRITE = VM_FAULT_READ ∨ VM_FAULT_WRITE = VM_FAULT_WRITE) ∧
      vm_fault true 3 (some ⟨some as_demo⟩) tlb_empty VM_FAULT_WRITE 0x400123 =
        .ok (.zero, tlb_empty.set 3 (0x400000, 0x100200))) ∧
      ∃ p as elo, some (proc.mk (some as_demo)) = some p ∧ p.p_addrspace = some as ∧
        tlb_empty.set 3 (0x400000, 0x100200) =
          tlb_random tlb_empty 3 (0x400123 &&& PAGE_FRAME) elo ∧
        elo &&& TLBLO_VALID = TLBLO_VALID ∧
        (elo &&& TLBLO_DIRTY = 0 ↔
          in_window as.as_vbase1 as.as_npages1 (0x400123 &&& PAGE_FRAME) ∧
            as.load_done = true) ∧
        (¬ (in_window as.as_vbase1 as.as_npages1 (0x400123 &&& PAGE_FRAME) ∧
            as.load_done = true) →
          elo &&& TLBLO_DIRTY = TLBLO_DIRTY) :=
  ⟨⟨Or.inr rfl, by decide⟩,
    vm_fault_dirty_bit 3 (some ⟨some as_demo⟩) tlb_empty VM_FAULT_WRITE 0x400123
      (tlb_empty.set 3 (0x400000, 0x100200)) (Or.inr rfl) (by decide)⟩

/-! ## Region definition -/

theorem region_vbase_eq (vaddr : Nat) (h : vaddr < 2 ^ 32) :
    region_vbase vaddr = vaddr / 4096 * 4096 := by
  unfold region_vbase
  rw [and_PAGE_FRAME, Nat.mod_eq_of_lt h]

theorem region_npages_eq (vaddr sz : Nat) (h : vaddr + sz + PAGE_SIZE ≤ 2 ^ 32) :
    region_npages vaddr sz = (vaddr % 4096 + sz + 4095) / 4096 := by
  have e : (2 : Nat) ^ 32 = 4294967296 := by norm_num
  have hn : not32 PAGE_FRAME = 2 ^ 12 - 1 := by decide
  have h4096 : (2 : Nat) ^ 12 = 4096 := by norm_num
  have hlow : vaddr &&& not32 PAGE_FRAME = vaddr % 4096 := by
    rw [hn, Nat.and_pow_two_sub_one_eq_mod, h4096]
  unfold region_npages
  simp only [hlow, and_PAGE_FRAME]
  unfold u32 sub32
  simp only [PAGE_SIZE, e] at h ⊢
  omega

/-- C9: when `vaddr + sz + PAGE_SIZE ≤ 2^32`, a successful
`as_define_region` stores, in the first unused slot, `vbase` = `vaddr`
rounded down to a page boundary and
`npages = ceil(((vaddr - vbase) + sz) / PAGE_SIZE)`; `vbase` is page-aligned
and at most `vaddr`, the span `[vbase, vbase + npages * PAGE_SIZE)` reaches
from at or below `vaddr` to at or above `vaddr + sz`, and every page-aligned
span that does so contains it. -/
theorem as_define_region_rounding (as : addrspace) (vaddr sz : Nat)
    (readable writeable executable : Int) (as2 : addrspace)
    (hnw : vaddr + sz + PAGE_SIZE ≤ 2 ^ 32)
    (hok : as_define_region as vaddr sz readable writeable executable = (.zero, as2)) :
    ∃ vbase npages,
      ((as.as_vbase1 = 0 ∧ as2 = { as with as_vbase1 := vbase, as_npages1 := npages }) ∨
        (as.as_vbase1 ≠ 0 ∧ as.as_vbase2 = 0 ∧
          as2 = { as with as_vbase2 := vbase, as_npages2 := npages })) ∧
      vbase = vaddr / PAGE_SIZE * PAGE_SIZE ∧
      npages = ((vaddr - vbase) + sz + (PAGE_SIZE - 1)) / PAGE_SIZE ∧
      vbase % PAGE_SIZE = 0 ∧ vbase ≤ vaddr ∧ vaddr + sz ≤ vbase + npages * PAGE_SIZE ∧
      ∀ b m, b % PAGE_SIZE = 0 → b ≤ vaddr → vaddr + sz ≤ b + m * PAGE_SIZE →
        b ≤ vbase ∧ vbase + npages * PAGE_SIZE ≤ b + m * PAGE_SIZE := by
  have e : (2 : Nat) ^ 32 = 4294967296 := by norm_num
  have hps : PAGE_SIZE = 4096 := rfl
  have hv : vaddr < 2 ^ 32 := by rw [hps] at hnw; omega
  have hvb := region_vbase_eq vaddr hv
  have hnp := region_npages_eq vaddr sz hnw
  refine ⟨region_vbase vaddr, region_npages vaddr sz, ?_, ?_⟩
  · unfold as_define_region at hok
    simp only at hok
    by_cases h1 : as.as_vbase1 = 0
    · rw [if_pos h1] at hok
      left
      simp only [Prod.mk.injEq, true_and] at hok
      exact ⟨h1, hok.symm⟩
    · rw [if_neg h1] at hok
      by_cases h2 : as.as_vbase2 = 0
      · rw [if_pos h2] at hok
        right
        simp only [Prod.mk.injEq, true_and] at hok
        exact ⟨h1, h2, hok.symm⟩
      · rw [if_neg h2] at hok
        simp only [Prod.mk.injEq, reduceCtorEq, false_and] at hok
  · rw [hvb, hnp, hps]
    refine ⟨rfl, by omega, by omega, by omega, by omega, fun b m hb1 hb2 hb3 => ?_⟩
    omega

/-- Witness of C9: the request `(0x400123, 0x2000)` on a fresh record takes
three pages from `0x400000`. -/
theorem as_define_region_rounding_witness :
    (0x400123 + 0x2000 + PAGE_SIZE ≤ 2 ^ 32 ∧
      as_define_region { as_demo with as_vbase1 := 0 } 0x400123 0x2000 1 1 0 =
        (.zero, { as_demo with as_vbase1 := 0x400000, as_npages1 := 3 })) ∧
      ∃ vbase npages,
        (((({ as_demo with as_vbase1 := 0 } : addrspace).as_vbase1 = 0 ∧
            ({ as_demo with as_vbase1 := 0x400000, as_npages1 := 3 } : addrspace) =
              { ({ as_demo with as_vbase1 := 0 } : addrspace) with
                as_vbase1 := vbase, as_npages1 := npages }) ∨
          (({ as_demo with as_vbase1 := 0 } : addrspace).as_vbase1 ≠ 0 ∧
            ({ as_demo with as_vbase1 := 0 } : addrspace).as_vbase2 = 0 ∧
            ({ as_demo with as_vbase1 := 0x400000, as_npages1 := 3 } : addrspace) =
              { ({ as_demo with as_vbase1 := 0 } : addrspace) with
                as_vbase2 := vbase, as_npages2 := npages }))) ∧
        vbase = 0x400123 / PAGE_SIZE * PAGE_SIZE ∧
        npages = ((0x400123 - vbase) + 0x2000 + (PAGE_SIZE - 1)) / PAGE_SIZE ∧
        vbase % PAGE_SIZE = 0 ∧ vbase ≤ 0x400123 ∧
        0x400123 + 0x2000 ≤ vbase + npages * PAGE_SIZE ∧
        ∀ b m, b % PAGE_SIZE = 0 → b ≤ 0x400123 → 0x400123 + 0x2000 ≤ b + m * PAGE_SIZE →
          b ≤ vbase ∧ vbase + npages * PAGE_SIZE ≤ b + m * PAGE_SIZE :=
  ⟨⟨by decide, by decide⟩,
    as_define_region_rounding { as_demo with as_vbase1 := 0 } 0x400123 0x2000 1 1 0
      { as_demo with as_vbase1 := 0x400000, as_npages1 := 3 } (by decide) (by decide)⟩

/-- C10 fails as stated when the first request has page-rounded base 0: slot
1 then still counts as unused, the second request overwrites slot 1 and
leaves slot 2 empty, and the third request is stored in slot 2 and returns
0, not `EUNIMP`. -/
theorem as_define_region_three_counterexample :
    as_create true = some as_fresh ∧
      (as_define_region as_fresh 0 4096 1 1 1).1 = .zero ∧
      (as_define_region (as_define_region as_fresh 0 4096 1 1 1).2 0x2000 4096 1 1 1).2.as_vbase1 =
        0x2000 ∧
      (as_define_region (as_define_region as_fresh 0 4096 1 1 1).2 0x2000 4096 1 1 1).2.as_vbase2 =
        0 ∧
      (as_define_region
        (as_define_region (as_define_region as_fresh 0 4096 1 1 1).2 0x2000 4096 1 1 1).2
        0x4000 4096 1 1 1).1 = .zero ∧
      (as_define_region
        (as_define_region (as_define_region as_fresh 0 4096 1 1 1).2 0x2000 4096 1 1 1).2
        0x4000 4096 1 1 1).2.as_vbase2 = 0x4000 := by
  decide

/-- C10, as amended: on a record freshly returned by `as_create`, for three
successive `as_define_region` requests of which the first two have a
non-zero page-rounded base, the first call returns 0 and stores its
page-rounded `(vbase, npages)` in slot 1, the second returns 0 and stores
its page-rounded `(vbase, npages)` in slot 2 leaving slot 1 intact, and the
third returns `EUNIMP` and leaves the record as it was after the second
call. -/
theorem as_define_region_three (as0 : addrspace) (v1 s1 v2 s2 v3 s3 : Nat)
    (r1 w1 x1 r2 w2 x2 r3 w3 x3 : Int) (h0 : as_create true = some as0)
    (h1 : region_vbase v1 ≠ 0) (h2 : region_vbase v2 ≠ 0) :
    as_define_region as0 v1 s1 r1 w1 x1 =
      (.zero, { as0 with as_vbase1 := region_vbase v1, as_npages1 := region_npages v1 s1 }) ∧
    as_define_region (as_define_region as0 v1 s1 r1 w1 x1).2 v2 s2 r2 w2 x2 =
      (.zero, { (as_define_region as0 v1 s1 r1 w1 x1).2 with
        as_vbase2 := region_vbase v2, as_npages2 := region_npages v2 s2 }) ∧
    as_define_region
        (as_define_region (as_define_region as0 v1 s1 r1 w1 x1).2 v2 s2 r2 w2 x2).2
        v3 s3 r3 w3 x3 =
      (.EUNIMP, (as_define_region (as_define_region as0 v1 s1 r1 w1 x1).2 v2 s2 r2 w2 x2).2) := by
  simp only [as_create, ↓reduceIte, Option.some.injEq] at h0
  subst h0
  simp [as_define_region, h1, h2]

/-- Witness of C10: three requests at `0x400000`, `0x10000000` and
`0x20000000`. -/
theorem as_define_region_three_witness :
    (as_create true = some as_fresh ∧
      region_vbase 0x400000 ≠ 0 ∧ region_vbase 0x10000000 ≠ 0) ∧
      as_define_region
        (as_define_region (as_define_region as_fresh 0x400000 0x2000 1 0 1).2
          0x10000000 0x1000 1 1 0).2 0x20000000 0x1000 1 1 0 =
        (.EUNIMP, (as_define_region (as_define_region as_fresh 0x400000 0x2000 1 0 1).2
          0x10000000 0x1000 1 1 0).2) :=
  ⟨⟨by decide, by decide, by decide⟩,
    (as_define_region_three as_fresh 0x400000 0x2000 0x10000000 0x1000 0x20000000
      0x1000 1 0 1 1 1 0 1 1 0 (by decide) (by decide) (by decide)).2.2⟩

/-! ## Addresses outside the managed range -/

/-- C11 fails as stated above the managed range: `free_kpages` compares the
address with `MEM_START` only, so for the address `MEM_END` of the
four-page table it computes frame number 4 and reads `CORE_MAP[4]`, past
the end of the table. With zero bytes there it does not return: it stops on
`KASSERT(f.block_len > 0)`. -/
theorem free_kpages_above_range_counterexample :
    boot4.MEM_END ≤ KVADDR_TO_PADDR (PADDR_TO_KVADDR 0x104000) ∧
      frame_number boot4 (KVADDR_TO_PADDR (PADDR_TO_KVADDR 0x104000)) = boot4.NUM_PAGES ∧
      boot4.CORE_MAP boot4.NUM_PAGES = ⟨false, 0⟩ ∧
      free_kpages boot4 (PADDR_TO_KVADDR 0x104000) = .error ⟨.kassert, boot4.CORE_MAP⟩ :=
  ⟨by decide, by decide, by decide, rfl⟩

/-- C11, as amended: for every address whose physical address lies below
`MEM_START`, `free_kpages` returns normally and leaves the frame table, and
every other static, unchanged. -/
theorem free_kpages_below_range (vm : VM) (addr : Nat)
    (h : KVADDR_TO_PADDR addr < vm.MEM_START) : free_kpages vm addr = .ok vm := by
  unfold free_kpages
  rw [if_pos h]

/-- Witness of C11: the kernel address of physical address `0x1000`, below
the four-page range that starts at `0x100000`. -/
theorem free_kpages_below_range_witness :
    KVADDR_TO_PADDR (PADDR_TO_KVADDR 0x1000) < boot4.MEM_START ∧
      free_kpages boot4 (PADDR_TO_KVADDR 0x1000) = .ok boot4 :=
  ⟨by decide, free_kpages_below_range boot4 (PADDR_TO_KVADDR 0x1000) (by decide)⟩

/-! ## The table after bootstrap -/

/-- C15 fails as stated. After `vm_bootstrap` on 1024 pages the table of
8-byte descriptors occupies two pages, and frame 0, the first frame of the
table's own footprint, is in use but records `block_len = 0`, not the
number of pages the table occupies. After `vm_bootstrap` on 512 pages the
table occupies one page, and frame 0 is in use but records `block_len = 0`,
not 1. -/
theorem vm_bootstrap_block_len_counterexample :
    (boot1024.NUM_PAGES = 1024 ∧ boot1024.CORE_MAP_NPAGES = 2 ∧
      boot1024.CORE_MAP 0 = ⟨true, 0⟩) ∧
    (boot512.NUM_PAGES = 512 ∧ boot512.CORE_MAP_NPAGES = 1 ∧
      boot512.CORE_MAP 0 = ⟨true, 0⟩) := by
  decide

/-- C15, as amended: after `vm_bootstrap` every frame of the table records
`block_len = 0`, the first frame of the table's own footprint included, and
frame `i` is in use exactly when `i` is below the number of pages the table
occupies. -/
theorem vm_bootstrap_block_len (lo hi sizeof_frame : Nat) (mem : Nat → frame) (i : Nat)
    (h : i < (vm_bootstrap lo hi sizeof_frame mem).NUM_PAGES) :
    (vm_bootstrap lo hi sizeof_frame mem).CORE_MAP i =
      ⟨decide (i < (vm_bootstrap lo hi sizeof_frame mem).CORE_MAP_NPAGES), 0⟩ :=
  bootstrap_table lo hi sizeof_frame mem i h

/-- Witness of C15: frame 0 of the 1024-page table with 8-byte
descriptors. -/
theorem vm_bootstrap_block_len_witness :
    0 < (vm_bootstrap 0x100000 0x500000 8 zero_mem).NUM_PAGES ∧
      (vm_bootstrap 0x100000 0x500000 8 zero_mem).CORE_MAP 0 =
        ⟨decide (0 < (vm_bootstrap 0x100000 0x500000 8 zero_mem).CORE_MAP_NPAGES), 0⟩ :=
  ⟨by decide, vm_bootstrap_block_len 0x100000 0x500000 8 zero_mem 0 (by decide)⟩

/-- C17 (the scan past the end of the table): on the eight-page table with
frame 0 in use and the seven frames 1 to 7 free, `getppages(8)` starts its
fit scan at `i = 1`, finds frames `1 + 0` to `1 + 6` free and then reads
`CORE_MAP[1 + 7]`, where `1 + 7 = NUM_PAGES` is past the end of the table.
The outcome turns on that descriptor: when it reads as in use the scan
breaks at `c = 7` and the call panics; when it reads as not in use the call
returns frame 1 and the marking loop writes `CORE_MAP[8]`. -/
theorem getppages_scan_indexes_past_table :
    (post_bootstrap boot8 ∧ boot8.NUM_PAGES = 8 ∧ boot8_busy.NUM_PAGES = 8) ∧
      (∀ i < 8, boot8.CORE_MAP i = boot8_busy.CORE_MAP i) ∧
      ((boot8.CORE_MAP 0).in_use = true ∧ ∀ c < 7, boot8.CORE_MAP (1 + c) = ⟨false, 0⟩) ∧
      ((boot8_busy.CORE_MAP (1 + 7)).in_use = true ∧
        fit_scan boot8_busy.CORE_MAP 1 8 0 = (false, 7) ∧
        getppages no_stealmem boot8_busy 8 = .error ⟨.panic, boot8_busy.CORE_MAP⟩) ∧
      ((boot8.CORE_MAP (1 + 7)).in_use = false ∧
        fit_scan boot8.CORE_MAP 1 8 0 = (true, 8) ∧
        getppages no_stealmem boot8 8 = .ok (4096, boot8_over) ∧
        (boot8_over.CORE_MAP (1 + 7)).in_use = true) :=
  ⟨by decide, by decide, by decide,
    ⟨by decide, by decide, getppages_panic no_stealmem boot8_busy 8 (by decide) (by decide)⟩,
    ⟨by decide, by decide,
      getppages_first_fit no_stealmem boot8 8 1 (by decide) (by decide) (by decide) (by decide),
      by decide⟩⟩

/-! ## Alignment of the translated address -/

theorem translated_aligned {p vbase pbase : Nat} (hp : p % 4096 = 0) (hv : vbase % 4096 = 0)
    (hb : pbase % 4096 = 0) :
    u32 (sub32 p vbase + pbase) &&& PAGE_FRAME = u32 (sub32 p vbase + pbase) := by
  rw [aligned_iff]
  unfold u32 sub32
  have e : (2 : Nat) ^ 32 = 4294967296 := by norm_num
  rw [e]
  omega

theorem resolve_aligned (as : addrspace) (p paddr : Nat) (hsetup : setup_asserts as = true)
    (hp : p % 4096 = 0) (hres : resolve as p = some paddr) : paddr &&& PAGE_FRAME = paddr := by
  obtain ⟨_, a1, a2, a3, a4, a5⟩ := (setup_asserts_iff as).mp hsetup
  have hv1 := ((aligned_iff _).mp a1).2
  have hb1 := ((aligned_iff _).mp a2).2
  have hv2 := ((aligned_iff _).mp a3).2
  have hb2 := ((aligned_iff _).mp a4).2
  have hb3 := ((aligned_iff _).mp a5).2
  have hsb : stackbase % 4096 = 0 := by decide
  unfold resolve at hres
  split at hres
  · cases hres
    exact translated_aligned hp hv1 hb1
  · split at hres
    · cases hres
      exact translated_aligned hp hv2 hb2
    · split at hres
      · cases hres
        exact translated_aligned hp hsb hb3
      · cases hres

/-- C19: when the setup assertions of `vm_fault` hold and the page-masked
fault address `p` passes the handler's test for one of the three windows,
the physical address `(p - window_vbase) + window_pbase`, computed in 32-bit
wrap-around arithmetic, is page-aligned; so `vm_fault` never stops on
`KASSERT((paddr & PAGE_FRAME) == paddr)`, nor on any other assertion. -/
theorem vm_fault_paddr_aligned (as : addrspace) (v : Nat) (hsetup : setup_asserts as = true) :
    (in_window as.as_vbase1 as.as_npages1 (v &&& PAGE_FRAME) →
      u32 (sub32 (v &&& PAGE_FRAME) as.as_vbase1 + as.as_page_table1) &&& PAGE_FRAME =
        u32 (sub32 (v &&& PAGE_FRAME) as.as_vbase1 + as.as_page_table1)) ∧
    (in_window as.as_vbase2 as.as_npages2 (v &&& PAGE_FRAME) →
      u32 (sub32 (v &&& PAGE_FRAME) as.as_vbase2 + as.as_page_table2) &&& PAGE_FRAME =
        u32 (sub32 (v &&& PAGE_FRAME) as.as_vbase2 + as.as_page_table2)) ∧
    (stackbase ≤ v &&& PAGE_FRAME ∧ v &&& PAGE_FRAME < USERSTACK →
      u32 (sub32 (v &&& PAGE_FRAME) stackbase + as.as_stack_page_table) &&& PAGE_FRAME =
        u32 (sub32 (v &&& PAGE_FRAME) stackbase + as.as_stack_page_table)) ∧
    (∀ paddr, resolve as (v &&& PAGE_FRAME) = some paddr → paddr &&& PAGE_FRAME = paddr) ∧
    ∀ OPT_A3 slot tlb faulttype e,
      vm_fault OPT_A3 slot (some ⟨some as⟩) tlb faulttype v ≠ .error e := by
  obtain ⟨_, hpmod, _⟩ := page_mask_facts v
  obtain ⟨_, a1, a2, a3, a4, a5⟩ := (setup_asserts_iff as).mp hsetup
  refine ⟨fun _ => translated_aligned hpmod ((aligned_iff _).mp a1).2 ((aligned_iff _).mp a2).2,
    fun _ => translated_aligned hpmod ((aligned_iff _).mp a3).2 ((aligned_iff _).mp a4).2,
    fun _ => translated_aligned hpmod (by decide) ((aligned_iff _).mp a5).2,
    fun paddr hres => resolve_aligned as _ paddr hsetup hpmod hres, ?_⟩
  intro OPT_A3 slot tlb faulttype e h
  simp only [vm_fault] at h
  split at h
  · cases h
  · split at h
    · simp only [hsetup, Bool.true_eq_false, ↓reduceIte] at h
      cases hres : resolve as (v &&& PAGE_FRAME) with
      | none => simp [hres] at h
      | some paddr =>
        simp only [hres] at h
        rw [if_neg (by simp [resolve_aligned as _ paddr hsetup hpmod hres])] at h
        split at h
        · cases h
        · split at h <;> cases h
    · cases h

/-- Witness of C19: `as_demo` and a fault at `0x400123`. -/
theorem vm_fault_paddr_aligned_witness :
    setup_asserts as_demo = true ∧
      ∀ paddr, resolve as_demo (0x400123 &&& PAGE_FRAME) = some paddr →
        paddr &&& PAGE_FRAME = paddr :=
  ⟨by decide, (vm_fault_paddr_aligned as_demo 0x400123 (by decide)).2.2.2.1⟩

/-- In the `OPT_A3` build a resolved read or write fault writes, in the slot
of `tlb_random`, the page-masked address with the low word chosen by the
region-1 test and the flag `load_done`. -/
theorem vm_fault_elo (slot : Nat) (as : addrspace) (tlb : TLB) (faulttype : Int) (v : Nat)
    (tlb2 : TLB) (hft : faulttype = VM_FAULT_READ ∨ faulttype = VM_FAULT_WRITE)
    (h : vm_fault true slot (some ⟨some as⟩) tlb faulttype v = .ok (.zero, tlb2)) :
    ∃ paddr, resolve as (v &&& PAGE_FRAME) = some paddr ∧ paddr &&& PAGE_FRAME = paddr ∧
      tlb2 = tlb_random tlb slot (v &&& PAGE_FRAME)
        (if in_window as.as_vbase1 as.as_npages1 (v &&& PAGE_FRAME) ∧ as.load_done = true then
          paddr ||| TLBLO_VALID
        else paddr ||| TLBLO_DIRTY ||| TLBLO_VALID) := by
  simp only [vm_fault, if_neg (not_readonly hft), if_pos hft] at h
  by_cases hs : setup_asserts as = false
  · simp [hs] at h
  · rw [if_neg hs] at h
    cases hr : resolve as (v &&& PAGE_FRAME) with
    | none => simp [hr] at h
    | some paddr =>
      simp only [hr] at h
      by_cases hal : paddr &&& PAGE_FRAME ≠ paddr
      · rw [if_pos hal] at h
        cases h
      · rw [if_neg hal] at h
        simp only [ne_eq, not_not] at hal
        simp only [↓reduceIte, Except.ok.injEq, Prod.mk.injEq, true_and] at h
        refine ⟨paddr, rfl, hal, ?_⟩
        rw [← h]
        unfold in_window
        congr 1
        by_cases hc : as.as_vbase1 ≤ v &&& PAGE_FRAME ∧
            v &&& PAGE_FRAME < vtop as.as_vbase1 as.as_npages1 ∧ as.load_done = true
        · rw [if_pos hc, if_pos ⟨⟨hc.1, hc.2.1⟩, hc.2.2⟩]
        · rw [if_neg hc, if_neg (fun hw => hc ⟨hw.1.1, hw.1.2, hw.2⟩)]

/-! ## Allocation followed by release -/

theorem vm_with_table_eq (vm : VM) : { vm with CORE_MAP := vm.CORE_MAP } = vm := by
  cases vm
  rfl

/-- Marking a run of descriptors that are not in use and clearing it again
gives back the memory, when the first descriptor recorded no block
length. -/
theorem clear_mark_block (cm : Nat → frame) (j n : Nat) (hfit : fits cm j n)
    (hbl : (cm j).block_len = 0) : clear_block (mark_block cm j n) j n = cm := by
  funext k
  unfold clear_block mark_block
  by_cases hr : j ≤ k ∧ k < j + n
  · have h1 := hfit (k - j) (by omega)
    rw [show j + (k - j) = k by omega] at h1
    by_cases hk : k = j
    · ext
      · simp [hr, h1]
      · simp [hk, hbl]
    · ext
      · simp [hr, h1]
      · simp [hk]
  · by_cases hk : k = j
    · ext
      · simp [hr]
      · simp [hk, hbl]
    · ext
      · simp [hr]
      · simp [hk]

/-- Marking one block and clearing another commute when the two ranges have
no frame in common and start at different frames. -/
theorem clear_mark_comm (cm : Nat → frame) (j1 n1 j2 n2 : Nat) (hne : j1 ≠ j2)
    (hd : disjoint_ranges (j1, n1) (j2, n2)) :
    clear_block (mark_block cm j2 n2) j1 n1 = mark_block (clear_block cm j1 n1) j2 n2 := by
  unfold disjoint_ranges at hd
  simp only at hd
  funext k
  unfold clear_block mark_block
  ext
  · by_cases h1 : j1 ≤ k ∧ k < j1 + n1
    · have h2 : ¬ (j2 ≤ k ∧ k < j2 + n2) := by omega
      simp [h1, h2]
    · simp [h1]
  · by_cases hk1 : k = j1
    · have hk2 : k ≠ j2 := by omega
      simp [hk1, hk2, hne]
    · simp [hk1]

/-- The block that `getppages(n)` has just returned is released by
`free_kpages` exactly when every descriptor of the block after the first
records `block_len = 0`; the release then gives back the statics of before
the call. The first descriptor is a frame of the table that was free, so
clause (a) of the block invariant makes its block length 0. -/
theorem free_after_getppages (ram_stealmem : Nat → Nat) (vm : VM) (n a : Nat) (vm1 : VM)
    (hpb : post_bootstrap vm) (hfz : free_zero vm) (hn : 1 ≤ n)
    (hg : getppages ram_stealmem vm n = .ok (a, vm1))
    (hzero : ∀ k < n, 0 < k → (vm.CORE_MAP (frame_number vm a + k)).block_len = 0) :
    free_kpages vm1 (PADDR_TO_KVADDR a) = .ok vm := by
  obtain ⟨j, hj, ha, hfn, rfl, ⟨hj0, hfit⟩, _⟩ := getppages_ok ram_stealmem vm n a vm1 hpb hg
  rw [hfn] at hzero
  have ha32 := (frame_number_base vm j hpb hj).1
  rw [← ha] at ha32
  have hrt := kvaddr_roundtrip ha32
  have hfn1 : frame_number { vm with CORE_MAP := mark_block vm.CORE_MAP j n }
      (KVADDR_TO_PADDR (PADDR_TO_KVADDR a)) = j := by
    rw [hrt]
    exact hfn
  have hbl : (mark_block vm.CORE_MAP j n j).block_len = n := by simp [mark_block]
  have hspec := free_kpages_spec { vm with CORE_MAP := mark_block vm.CORE_MAP j n }
    (PADDR_TO_KVADDR a) (by rw [hrt, ha]; exact Nat.le_add_right _ _)
    (by rw [hfn1]; simp only; rw [hbl]; exact hn)
    (by
      rw [hfn1]
      simp only
      rw [hbl]
      intro k hk
      unfold free_ok_at
      by_cases hk0 : k = 0
      · rw [if_pos hk0, hk0, Nat.add_zero]
        simp [mark_block]
        omega
      · rw [if_neg hk0]
        have hz := hzero k hk (by omega)
        have hne : j + k ≠ j := by omega
        simp [mark_block, hne, hz]
        right
        exact hk)
  rw [hspec, hfn1]
  simp only
  rw [hbl, clear_mark_block _ j n hfit (hfz j hj hj0), vm_with_table_eq]

/-- If the release of the block that `getppages(n)` has just returned
returns, it gives back the statics of before the call. -/
theorem free_after_getppages_eq (ram_stealmem : Nat → Nat) (vm : VM) (n a : Nat) (vm1 vm2 : VM)
    (hpb : post_bootstrap vm) (hfz : free_zero vm)
    (hg : getppages ram_stealmem vm n = .ok (a, vm1))
    (hf : free_kpages vm1 (PADDR_TO_KVADDR a) = .ok vm2) : vm2 = vm := by
  obtain ⟨j, hj, ha, hfn, rfl, ⟨hj0, hfit⟩, _⟩ := getppages_ok ram_stealmem vm n a vm1 hpb hg
  have ha32 := (frame_number_base vm j hpb hj).1
  rw [← ha] at ha32
  have hrt := kvaddr_roundtrip ha32
  have hfn1 : frame_number { vm with CORE_MAP := mark_block vm.CORE_MAP j n }
      (KVADDR_TO_PADDR (PADDR_TO_KVADDR a)) = j := by
    rw [hrt]
    exact hfn
  have hbl : (mark_block vm.CORE_MAP j n j).block_len = n := by simp [mark_block]
  rcases free_kpages_ok _ _ vm2 hf with ⟨hlt, _⟩ | ⟨_, _, _, hvm⟩
  · rw [hrt, ha] at hlt
    simp only at hlt
    omega
  · rw [hfn1] at hvm
    simp only at hvm
    rw [hbl, clear_mark_block _ j n hfit (hfz j hj hj0), vm_with_table_eq] at hvm
    exact hvm

/-- C18 (the block that ends past the table): on the four-page table, which
satisfies the block invariant, with memory past its end that reads
`in_use = false`, `block_len = 7`, `getppages(4)` returns the address
`0x101000` of frame 1, and `free_kpages(PADDR_TO_KVADDR(0x101000))` does not
return: at `i = 3` it reads `CORE_MAP[4]`, past the end of the table, and
stops on `KASSERT(CORE_MAP[fn + i].block_len == 0)`. -/
theorem alloc_free_stops_past_table :
    (post_bootstrap boot4_junk ∧ block_inv boot4_junk ∧ boot4_junk.NUM_PAGES = 4) ∧
      getppages no_stealmem boot4_junk 4 = .ok (0x101000, boot4_junk_over) ∧
      (boot4_junk_over.CORE_MAP (1 + 3) = ⟨true, 7⟩ ∧
        free_ok_at boot4_junk_over.CORE_MAP 1 3 = false) ∧
      stop_reason (free_kpages boot4_junk_over (PADDR_TO_KVADDR 0x101000)) = some .kassert :=
  ⟨by decide,
    getppages_first_fit no_stealmem boot4_junk 4 1 (by decide) (by decide) (by decide)
      (by decide),
    by decide, by decide⟩

/-! ## Tables reachable from bootstrap -/

/-- A property of the statics that every returning `getppages` and every
returning `free_kpages` keeps holds along every sequence of returning
calls. -/
theorem run_calls_preserves (ram_stealmem : Nat → Nat) (P : VM → Prop)
    (hg : ∀ vm n a vm2, P vm → getppages ram_stealmem vm n = .ok (a, vm2) → P vm2)
    (hf : ∀ vm addr vm2, P vm → free_kpages vm addr = .ok vm2 → P vm2) :
    ∀ (calls : List Call) (s s2 : Trace), P s.vm →
      run_calls ram_stealmem calls s = some s2 → P s2.vm
  | [], s, s2, hP, h => by
    simp only [run_calls, Option.some.injEq] at h
    rw [← h]
    exact hP
  | c :: cs, s, s2, hP, h => by
    rw [run_calls] at h
    cases hc : call_step ram_stealmem s c with
    | none => rw [hc] at h; cases h
    | some s1 =>
      rw [hc] at h
      simp only at h
      refine run_calls_preserves ram_stealmem P hg hf cs s1 s2 ?_ h
      cases c with
      | getppages n =>
        simp only [call_step] at hc
        cases hgp : getppages ram_stealmem s.vm n with
        | error e => rw [hgp] at hc; cases hc
        | ok r =>
          obtain ⟨a, vm2⟩ := r
          rw [hgp] at hc
          simp only [Option.some.injEq] at hc
          rw [← hc]
          exact hg s.vm n a vm2 hP hgp
      | free_kpages addr =>
        simp only [call_step] at hc
        cases hfp : free_kpages s.vm addr with
        | error e => rw [hfp] at hc; cases hc
        | ok vm2 =>
          rw [hfp] at hc
          simp only at hc
          split at hc <;>
          · simp only [Option.some.injEq] at hc
            rw [← hc]
            exact hf s.vm addr vm2 hP hfp

/-- What `getppages` does to the statics when it returns, after bootstrap or
before it. -/
theorem getppages_table (ram_stealmem : Nat → Nat) (vm : VM) (n a : Nat) (vm2 : VM)
    (h : getppages ram_stealmem vm n = .ok (a, vm2)) :
    vm2 = vm ∨ ∃ j, j < vm.NUM_PAGES ∧ fit_at vm.CORE_MAP j n ∧
      vm2 = { vm with CORE_MAP := mark_block vm.CORE_MAP j n } := by
  unfold getppages at h
  by_cases hb : vm.BOOTSTRAP_DONE = true
  · rw [if_pos hb] at h
    rcases getppages_scan_spec vm.NUM_PAGES n vm.NUM_PAGES 0 vm.CORE_MAP (by omega) with
      ⟨j, _, h2, h3, _, h5⟩ | ⟨_, h2⟩
    · rw [h5] at h
      simp only [Except.ok.injEq, Prod.mk.injEq] at h
      exact Or.inr ⟨j, h2, h3, h.2.symm⟩
    · rw [h2] at h
      cases h
  · rw [if_neg hb] at h
    simp only [Except.ok.injEq, Prod.mk.injEq] at h
    exact Or.inl h.2.symm

theorem post_bootstrap_getppages (ram_stealmem : Nat → Nat) (vm : VM) (n a : Nat) (vm2 : VM)
    (hpb : post_bootstrap vm) (h : getppages ram_stealmem vm n = .ok (a, vm2)) :
    post_bootstrap vm2 := by
  rcases getppages_table ram_stealmem vm n a vm2 h with rfl | ⟨j, _, _, rfl⟩
  · exact hpb
  · exact hpb

theorem post_bootstrap_free_kpages (vm : VM) (addr : Nat) (vm2 : VM)
    (hpb : post_bootstrap vm) (h : free_kpages vm addr = .ok vm2) : post_bootstrap vm2 := by
  rcases free_kpages_ok vm addr vm2 h with ⟨_, rfl⟩ | ⟨_, _, _, rfl⟩
  · exact hpb
  · exact hpb

theorem free_zero_bootstrap (lo hi sz : Nat) (mem : Nat → frame) :
    free_zero (vm_bootstrap lo hi sz mem) := by
  intro h hh _
  rw [bootstrap_table lo hi sz mem h hh]

/-- Clause (a) of the block invariant is kept by every returning
`getppages`, also when the block runs past the end of the table. -/
theorem free_zero_getppages (ram_stealmem : Nat → Nat) (vm : VM) (n a : Nat) (vm2 : VM)
    (hinv : free_zero vm) (h : getppages ram_stealmem vm n = .ok (a, vm2)) : free_zero vm2 := by
  rcases getppages_table ram_stealmem vm n a vm2 h with rfl | ⟨j, _, hfit, rfl⟩
  · exact hinv
  · intro h hh hu
    simp only [mark_block] at hh hu ⊢
    simp only [Bool.or_eq_false_iff, decide_eq_false_iff_not] at hu
    by_cases hj : h = j
    · rw [if_pos hj]
      have := hinv j (by rw [← hj]; exact hh) hfit.1
      by_contra hn0
      exact hu.2 ⟨by omega, by omega⟩
    · rw [if_neg hj]
      exact hinv h hh hu.1

/-- Clause (a) of the block invariant is kept by every returning
`free_kpages`: its second assertion checks the block length of every
descriptor it clears. -/
theorem free_zero_free_kpages (vm : VM) (addr : Nat) (vm2 : VM) (hinv : free_zero vm)
    (h : free_kpages vm addr = .ok vm2) : free_zero vm2 := by
  rcases free_kpages_ok vm addr vm2 h with ⟨_, rfl⟩ | ⟨_, _, hok, rfl⟩
  · exact hinv
  · generalize frame_number vm (KVADDR_TO_PADDR addr) = fn at hok
    intro h hh hu
    simp only [clear_block] at hh hu ⊢
    by_cases hj : h = fn
    · rw [if_pos hj]
    · rw [if_neg hj]
      by_cases hr : fn ≤ h ∧ h < fn + (vm.CORE_MAP fn).block_len
      · have := hok (h - fn) (by omega)
        unfold free_ok_at at this
        rw [show fn + (h - fn) = h by omega, if_neg (by omega)] at this
        simp only [Bool.and_eq_true, decide_eq_true_eq] at this
        exact this.2
      · simp only [hr, decide_False, Bool.not_false, Bool.and_true] at hu
        exact hinv h hh hu

theorem table_pages_inv_bootstrap (lo hi sz : Nat) (mem : Nat → frame) :
    table_pages_inv (vm_bootstrap lo hi sz mem) := by
  constructor
  · intro i hi' hk
    rw [bootstrap_table lo hi sz mem i hi']
    simp only [decide_eq_true_eq]
    exact hk
  · intro h hh hpos
    rw [bootstrap_table lo hi sz mem h hh] at hpos
    exact absurd hpos (Nat.lt_irrefl 0)

theorem table_pages_inv_getppages (ram_stealmem : Nat → Nat) (vm : VM) (n a : Nat) (vm2 : VM)
    (hinv : table_pages_inv vm) (h : getppages ram_stealmem vm n = .ok (a, vm2)) :
    table_pages_inv vm2 := by
  rcases getppages_table ram_stealmem vm n a vm2 h with rfl | ⟨j, hj, hfit, rfl⟩
  · exact hinv
  · obtain ⟨h1, h2⟩ := hinv
    constructor
    · intro i hi hk
      simp only [mark_block] at hi hk ⊢
      rw [h1 i hi hk]
      rfl
    · intro h hh hpos
      simp only [mark_block] at hh hpos ⊢
      by_cases hj2 : h = j
      · by_contra hlt
        have := h1 j hj (by omega)
        rw [hfit.1] at this
        cases this
      · rw [if_neg hj2] at hpos
        exact h2 h hh hpos

theorem table_pages_inv_free_kpages (vm : VM) (addr : Nat) (vm2 : VM)
    (hinv : table_pages_inv vm) (h : free_kpages vm addr = .ok vm2) : table_pages_inv vm2 := by
  rcases free_kpages_ok vm addr vm2 h with ⟨_, rfl⟩ | ⟨_, hpos, _, rfl⟩
  · exact hinv
  · obtain ⟨h1, h2⟩ := hinv
    generalize frame_number vm (KVADDR_TO_PADDR addr) = fn at hpos
    constructor
    · intro i hi hk
      have hi2 : i < vm.NUM_PAGES := hi
      have hk2 : i < vm.CORE_MAP_NPAGES := hk
      simp only [clear_block]
      rw [h1 i hi2 hk2]
      simp only [Bool.true_and, Bool.not_eq_true', decide_eq_false_iff_not]
      by_cases hfn : fn < vm.NUM_PAGES
      · have := h2 fn hfn hpos
        omega
      · omega
    · intro h hh hpos2
      simp only [clear_block] at hh hpos2 ⊢
      by_cases hj2 : h = fn
      · rw [if_pos hj2] at hpos2
        omega
      · rw [if_neg hj2] at hpos2
        exact h2 h hh hpos2

/-- Every state reached from `vm_bootstrap` through returning calls is
post-bootstrap, satisfies clause (a) of the block invariant, keeps the
frames of the table out of reach, and has the page counts of the
bootstrap. -/
theorem reachable_inv (ram_stealmem : Nat → Nat) (lo hi sz : Nat) (mem : Nat → frame)
    (hlo : lo ≤ hi) (hhi : hi < 2 ^ 32) (calls : List Call) (s : Trace)
    (hrun : run_calls ram_stealmem calls ⟨vm_bootstrap lo hi sz mem, []⟩ = some s) :
    post_bootstrap s.vm ∧ free_zero s.vm ∧ table_pages_inv s.vm ∧
      s.vm.NUM_PAGES = (vm_bootstrap lo hi sz mem).NUM_PAGES ∧
      s.vm.CORE_MAP_NPAGES = (vm_bootstrap lo hi sz mem).CORE_MAP_NPAGES := by
  refine run_calls_preserves ram_stealmem
    (fun vm => post_bootstrap vm ∧ free_zero vm ∧ table_pages_inv vm ∧
      vm.NUM_PAGES = (vm_bootstrap lo hi sz mem).NUM_PAGES ∧
      vm.CORE_MAP_NPAGES = (vm_bootstrap lo hi sz mem).CORE_MAP_NPAGES)
    ?_ ?_ calls _ s
    ⟨post_bootstrap_vm_bootstrap lo hi sz mem hlo hhi, free_zero_bootstrap lo hi sz mem,
      table_pages_inv_bootstrap lo hi sz mem, rfl, rfl⟩ hrun
  · intro vm n a vm2 ⟨h1, h2, h3, h4, h5⟩ hg
    refine ⟨post_bootstrap_getppages ram_stealmem vm n a vm2 h1 hg,
      free_zero_getppages ram_stealmem vm n a vm2 h2 hg,
      table_pages_inv_getppages ram_stealmem vm n a vm2 h3 hg, ?_, ?_⟩
    · rcases getppages_table ram_stealmem vm n a vm2 hg with rfl | ⟨j, _, _, rfl⟩
      · exact h4
      · exact h4
    · rcases getppages_table ram_stealmem vm n a vm2 hg with rfl | ⟨j, _, _, rfl⟩
      · exact h5
      · exact h5
  · intro vm addr vm2 ⟨h1, h2, h3, h4, h5⟩ hf
    refine ⟨post_bootstrap_free_kpages vm addr vm2 h1 hf, free_zero_free_kpages vm addr vm2 h2 hf,
      table_pages_inv_free_kpages vm addr vm2 h3 hf, ?_, ?_⟩
    · rcases free_kpages_ok vm addr vm2 hf with ⟨_, rfl⟩ | ⟨_, _, _, rfl⟩
      · exact h4
      · exact h4
    · rcases free_kpages_ok vm addr vm2 hf with ⟨_, rfl⟩ | ⟨_, _, _, rfl⟩
      · exact h5
      · exact h5

/-! ## Reuse of a released block -/

/-- The three calls `hole_calls` on the eight-page table all return, and
leave frame 1 free below the live block at frame 2. -/
theorem hole_run :
    run_calls no_stealmem hole_calls ⟨boot8, []⟩ = some ⟨boot8_hole, [(2, 1)]⟩ := by
  have h1 : call_step no_stealmem ⟨boot8, []⟩ (.getppages 1) = some ⟨boot8_a1, [(1, 1)]⟩ :=
    call_step_getppages no_stealmem ⟨boot8, []⟩ 1 4096 boot8_a1
      (getppages_first_fit no_stealmem boot8 1 1 (by decide) (by decide) (by decide) (by decide))
  have h2 : call_step no_stealmem ⟨boot8_a1, [(1, 1)]⟩ (.getppages 1) =
      some ⟨boot8_a12, [(2, 1), (1, 1)]⟩ :=
    call_step_getppages no_stealmem ⟨boot8_a1, [(1, 1)]⟩ 1 8192 boot8_a12
      (getppages_first_fit no_stealmem boot8_a1 1 2 (by decide) (by decide) (by decide)
        (by decide))
  have h3 : call_step no_stealmem ⟨boot8_a12, [(2, 1), (1, 1)]⟩
      (.free_kpages (PADDR_TO_KVADDR 4096)) = some ⟨boot8_hole, [(2, 1)]⟩ :=
    call_step_free_kpages no_stealmem ⟨boot8_a12, [(2, 1), (1, 1)]⟩ (PADDR_TO_KVADDR 4096)
      boot8_hole (by decide)
      (free_kpages_spec boot8_a12 (PADDR_TO_KVADDR 4096) (by decide) (by decide) (by decide))
  unfold hole_calls
  rw [run_calls_cons _ _ _ _ _ h1, run_calls_cons _ _ _ _ _ h2, run_calls_cons _ _ _ _ _ h3]
  rfl

/-- C12 fails as stated: from `vm_bootstrap` on eight pages, two one-frame
allocations and the release of the first leave frame 1 free below the live
frame 2. Then `getppages(2)` returns the block at frames 3 and 4, the block
is freed, and `getppages(1)` returns frame 1, which is not a frame of the
freed block. -/
theorem first_fit_reuse_counterexample :
    run_calls no_stealmem hole_calls ⟨vm_bootstrap 0 32768 8 zero_mem, []⟩ =
        some ⟨boot8_hole, [(2, 1)]⟩ ∧
      getppages no_stealmem boot8_hole 2 = .ok (12288, boot8_hole_alloc2) ∧
      free_kpages boot8_hole_alloc2 (PADDR_TO_KVADDR 12288) = .ok boot8_hole ∧
      getppages no_stealmem boot8_hole 1 = .ok (4096, boot8_hole_alloc1) ∧
      frame_number boot8_hole 12288 = 3 ∧ frame_number boot8_hole 4096 = 1 :=
  ⟨hole_run,
    getppages_first_fit no_stealmem boot8_hole 2 3 (by decide) (by decide) (by decide)
      (by decide),
    free_after_getppages no_stealmem boot8_hole 2 12288 boot8_hole_alloc2 (by decide)
      (by decide) (by decide)
      (getppages_first_fit no_stealmem boot8_hole 2 3 (by decide) (by decide) (by decide)
        (by decide)) (by decide),
    getppages_first_fit no_stealmem boot8_hole 1 1 (by decide) (by decide) (by decide)
      (by decide),
    by decide, by decide⟩

/-- C12, as amended: for every frame table reachable from `vm_bootstrap` and
all `N ≥ M ≥ 1`, if `getppages(N)` returns a block `R` and `R` is then
freed with `free_kpages`, a following `getppages(M)` returns a block that
starts at or below the first frame of `R`; when no run of `M` free frames
starts below `R` in the table as it was before the first call, the new
block starts at the first frame of `R` and every frame of it lies inside
`R`. -/
theorem first_fit_reuse (ram_stealmem : Nat → Nat) (lo hi sizeof_frame : Nat)
    (mem : Nat → frame) (hlo : lo ≤ hi) (hhi : hi < 2 ^ 32) (calls : List Call) (s : Trace)
    (hrun : run_calls ram_stealmem calls ⟨vm_bootstrap lo hi sizeof_frame mem, []⟩ = some s)
    (N M a : Nat) (vm1 vm2 : VM) (_hM : 1 ≤ M) (hMN : M ≤ N)
    (hg : getppages ram_stealmem s.vm N = .ok (a, vm1))
    (hf : free_kpages vm1 (PADDR_TO_KVADDR a) = .ok vm2) :
    ∃ b vm3, getppages ram_stealmem vm2 M = .ok (b, vm3) ∧
      frame_number vm2 b ≤ frame_number s.vm a ∧
      ((∀ k < frame_number s.vm a, ¬ (k + M ≤ s.vm.NUM_PAGES ∧ fits s.vm.CORE_MAP k M)) →
        b = a ∧ ∀ k < M, frame_number s.vm a ≤ frame_number vm2 b + k ∧
          frame_number vm2 b + k < frame_number s.vm a + N) := by
  obtain ⟨hpb, hfz, _, _, _⟩ :=
    reachable_inv ram_stealmem lo hi sizeof_frame mem hlo hhi calls s hrun
  have hback := free_after_getppages_eq ram_stealmem s.vm N a vm1 vm2 hpb hfz hg hf
  subst hback
  obtain ⟨j, hj, ha, hfn, _, ⟨hj0, hfit⟩, hminN⟩ := getppages_ok ram_stealmem s.vm N a vm1 hpb hg
  have hfitM : fit_at s.vm.CORE_MAP j M := ⟨hj0, fun k hk => hfit k (by omega)⟩
  have hex : ∃ m, fit_at s.vm.CORE_MAP m M := ⟨j, hfitM⟩
  have hmj : Nat.find hex ≤ j := Nat.find_le hfitM
  have hmfit := Nat.find_spec hex
  have hfirst := getppages_first_fit ram_stealmem s.vm M (Nat.find hex) hpb (by omega) hmfit
    (fun k hk => Nat.find_min hex hk)
  have hfnm := (frame_number_base s.vm (Nat.find hex) hpb (by omega)).2
  refine ⟨_, _, hfirst, by rw [hfnm, hfn]; exact hmj, fun hno => ?_⟩
  have hmeq : Nat.find hex = j := by
    by_contra hne
    have hlt : Nat.find hex < j := by omega
    by_cases hin : Nat.find hex + M ≤ s.vm.NUM_PAGES
    · exact hno (Nat.find hex) (by rw [hfn]; exact hlt) ⟨hin, hmfit.2⟩
    · refine hminN (Nat.find hex) hlt ⟨hmfit.1, fun k hk => ?_⟩
      by_cases hkM : k < M
      · exact hmfit.2 k hkM
      · have := hfit (Nat.find hex + k - j) (by omega)
        rwa [show j + (Nat.find hex + k - j) = Nat.find hex + k by omega] at this
  rw [hfnm, hfn, hmeq]
  exact ⟨ha.symm, fun k hk => by omega⟩

/-- Witness of C12: on the eight-page table right after bootstrap,
`getppages(2)`, the release of the block, then `getppages(1)`. -/
theorem first_fit_reuse_witness :
    ((0 ≤ 32768 ∧ 32768 < 2 ^ 32) ∧
      run_calls no_stealmem [] ⟨vm_bootstrap 0 32768 8 zero_mem, []⟩ = some ⟨boot8, []⟩ ∧
      (1 ≤ 1 ∧ 1 ≤ 2) ∧ getppages no_stealmem boot8 2 = .ok (4096, boot8_alloc2) ∧
      free_kpages boot8_alloc2 (PADDR_TO_KVADDR 4096) = .ok boot8) ∧
      ∃ b vm3, getppages no_stealmem boot8 1 = .ok (b, vm3) ∧
        frame_number boot8 b ≤ frame_number boot8 4096 ∧
        ((∀ k < frame_number boot8 4096, ¬ (k + 1 ≤ boot8.NUM_PAGES ∧ fits boot8.CORE_MAP k 1)) →
          b = 4096 ∧ ∀ k < 1, frame_number boot8 4096 ≤ frame_number boot8 b + k ∧
            frame_number boot8 b + k < frame_number boot8 4096 + 2) :=
  ⟨⟨⟨by decide, by decide⟩, rfl, ⟨by decide, by decide⟩,
      getppages_first_fit no_stealmem boot8 2 1 (by decide) (by decide) (by decide) (by decide),
      free_after_getppages no_stealmem boot8 2 4096 boot8_alloc2 (by decide) (by decide)
        (by decide)
        (getppages_first_fit no_stealmem boot8 2 1 (by decide) (by decide) (by decide)
          (by decide)) (by decide)⟩,
    first_fit_reuse no_stealmem 0 32768 8 zero_mem (by decide) (by decide) [] ⟨boot8, []⟩ rfl
      2 1 4096 boot8_alloc2 boot8 (by decide) (by decide)
      (getppages_first_fit no_stealmem boot8 2 1 (by decide) (by decide) (by decide) (by decide))
      (free_after_getppages no_stealmem boot8 2 4096 boot8_alloc2 (by decide) (by decide)
        (by decide)
        (getppages_first_fit no_stealmem boot8 2 1 (by decide) (by decide) (by decide)
          (by decide)) (by decide))⟩

/-! ## The pages of the frame table -/

theorem core_map_npages_eq (lo hi sz : Nat) (mem : Nat → frame) (hlo : lo ≤ hi)
    (hhi : hi < 2 ^ 32) (hsz : sz ≤ PAGE_SIZE) :
    (vm_bootstrap lo hi sz mem).CORE_MAP_NPAGES =
      ((vm_bootstrap lo hi sz mem).NUM_PAGES * sz + (PAGE_SIZE - 1)) / PAGE_SIZE := by
  have e : (2 : Nat) ^ 32 = 4294967296 := by norm_num
  have hs : sub32 hi lo = hi - lo := sub32_eq hlo hhi
  have hps : PAGE_SIZE = 4096 := rfl
  simp only [vm_bootstrap, hs, hps, DIVROUNDUP] at hsz ⊢
  rw [e] at hhi
  have hN : (hi - lo) / 4096 ≤ 1048575 := by omega
  have hprod : (hi - lo) / 4096 * sz ≤ 1048575 * 4096 := Nat.mul_le_mul hN hsz
  generalize (hi - lo) / 4096 * sz = x at hprod ⊢
  unfold u32 sub32
  rw [e]
  omega

/-- C16: with `k = ceil(NUM_PAGES * sizeof(struct frame) / PAGE_SIZE)` the
number of pages of the frame table, frame `i` is in use right after
`vm_bootstrap` if and only if `i < k`; and in every state reached afterwards
through `getppages` and `free_kpages` calls that return normally every frame
`i < k` is still in use. -/
theorem table_pages_stay_in_use (ram_stealmem : Nat → Nat) (lo hi sizeof_frame : Nat)
    (mem : Nat → frame) (hlo : lo ≤ hi) (hhi : hi < 2 ^ 32) (hsz : sizeof_frame ≤ PAGE_SIZE) :
    (vm_bootstrap lo hi sizeof_frame mem).CORE_MAP_NPAGES =
        ((vm_bootstrap lo hi sizeof_frame mem).NUM_PAGES * sizeof_frame + (PAGE_SIZE - 1)) /
          PAGE_SIZE ∧
      (∀ i < (vm_bootstrap lo hi sizeof_frame mem).NUM_PAGES,
        (((vm_bootstrap lo hi sizeof_frame mem).CORE_MAP i).in_use = true ↔
          i < (vm_bootstrap lo hi sizeof_frame mem).CORE_MAP_NPAGES)) ∧
      ∀ calls s,
        run_calls ram_stealmem calls ⟨vm_bootstrap lo hi sizeof_frame mem, []⟩ = some s →
        s.vm.NUM_PAGES = (vm_bootstrap lo hi sizeof_frame mem).NUM_PAGES ∧
        ∀ i < (vm_bootstrap lo hi sizeof_frame mem).NUM_PAGES,
          i < (vm_bootstrap lo hi sizeof_frame mem).CORE_MAP_NPAGES →
            (s.vm.CORE_MAP i).in_use = true := by
  refine ⟨core_map_npages_eq lo hi sizeof_frame mem hlo hhi hsz, fun i hi' => ?_,
    fun calls s hrun => ?_⟩
  · rw [bootstrap_table lo hi sizeof_frame mem i hi']
    simp
  · obtain ⟨_, _, htp, hN, hK⟩ :=
      reachable_inv ram_stealmem lo hi sizeof_frame mem hlo hhi calls s hrun
    refine ⟨hN, fun i hi' hk => ?_⟩
    exact htp.1 i (by rw [hN]; exact hi') (by rw [hK]; exact hk)

/-- Witness of C16: frame 0 of the eight-page table after `demo_calls`. -/
theorem table_pages_stay_in_use_witness :
    ((0 ≤ 32768 ∧ 32768 < 2 ^ 32 ∧ 8 ≤ PAGE_SIZE) ∧
      run_calls no_stealmem demo_calls ⟨vm_bootstrap 0 32768 8 zero_mem, []⟩ =
        some ⟨boot8_demo, demo_live⟩ ∧
      0 < (vm_bootstrap 0 32768 8 zero_mem).NUM_PAGES ∧
      0 < (vm_bootstrap 0 32768 8 zero_mem).CORE_MAP_NPAGES) ∧
      (boot8_demo.CORE_MAP 0).in_use = true :=
  ⟨⟨⟨by decide, by decide, by decide⟩, demo_run, by decide, by decide⟩,
    ((table_pages_stay_in_use no_stealmem 0 32768 8 zero_mem (by decide) (by decide)
      (by decide)).2.2 demo_calls ⟨boot8_demo, demo_live⟩ demo_run).2 0 (by decide) (by decide)⟩

/-! ## Backing an address space -/

/-- A run that passes the test of `getppages` in memory with one block
marked passes it in the memory without the block, and has no frame in
common with the block. -/
theorem fit_at_mark_block (cm : Nat → frame) (j1 n1 j2 n2 : Nat) (h1 : 0 < n1) (h2 : 0 < n2)
    (hfit : fit_at (mark_block cm j1 n1) j2 n2) :
    fit_at cm j2 n2 ∧ disjoint_ranges (j1, n1) (j2, n2) ∧ j1 ≠ j2 := by
  have key : ∀ k < n2, (cm (j2 + k)).in_use = false ∧ ¬ (j1 ≤ j2 + k ∧ j2 + k < j1 + n1) := by
    intro k hk
    have hu := hfit.2 k hk
    simp only [mark_block, Bool.or_eq_false_iff, decide_eq_false_iff_not] at hu
    exact hu
  have k0 := key 0 h2
  rw [Nat.add_zero] at k0
  refine ⟨⟨k0.1, fun k hk => (key k hk).1⟩, ?_, ?_⟩
  · unfold disjoint_ranges
    simp only
    by_contra hcon
    by_cases hle : j1 ≤ j2
    · omega
    · have := (key (j1 - j2) (by omega)).2
      omega
  · intro e
    omega

/-- A run of descriptors that are not in use has no frame in common with a
run of descriptors in use. -/
theorem fits_in_use_disjoint (cm : Nat → frame) (j n h m : Nat) (hn : 0 < n) (hm : 0 < m)
    (hfit : fits cm j n) (hu : ∀ k < m, (cm (h + k)).in_use = true) :
    disjoint_ranges (j, n) (h, m) := by
  unfold disjoint_ranges
  simp only
  by_contra hcon
  by_cases hle : j ≤ h
  · have hf := hfit (h - j) (by omega)
    rw [show j + (h - j) = h by omega] at hf
    have := hu 0 hm
    rw [Nat.add_zero, hf] at this
    cases this
  · have hf := hfit 0 hn
    have := hu (j - h) (by omega)
    rw [Nat.add_zero] at hf
    rw [show h + (j - h) = j by omega, hf] at this
    cases this

/-- What a successful `as_prepare_load` after bootstrap has done: three
first-fit allocations in a row, each marked in the memory left by the one
before. -/
theorem as_prepare_load_ok (ram_stealmem : Nat → Nat) (vm : VM) (as as2 : addrspace) (vm2 : VM)
    (hpb : post_bootstrap vm)
    (h : as_prepare_load ram_stealmem vm as = .ok (.zero, as2, vm2)) :
    ∃ j1 j2 j3, (j1 < vm.NUM_PAGES ∧ j2 < vm.NUM_PAGES ∧ j3 < vm.NUM_PAGES) ∧
      as2 = { as with as_page_table1 := vm.MEM_START + j1 * PAGE_SIZE,
                      as_page_table2 := vm.MEM_START + j2 * PAGE_SIZE,
                      as_stack_page_table := vm.MEM_START + j3 * PAGE_SIZE } ∧
      vm2 = { vm with CORE_MAP :=
        (mark_block (mark_block (mark_block vm.CORE_MAP j1 as.as_npages1) j2 as.as_npages2)
          j3 DUMBVM_STACKPAGES) } ∧
      fit_at vm.CORE_MAP j1 as.as_npages1 ∧
      fit_at (mark_block vm.CORE_MAP j1 as.as_npages1) j2 as.as_npages2 ∧
      fit_at (mark_block (mark_block vm.CORE_MAP j1 as.as_npages1) j2 as.as_npages2)
        j3 DUMBVM_STACKPAGES := by
  unfold as_prepare_load at h
  split at h
  · cases h
  · cases hg1 : getppages ram_stealmem vm as.as_npages1 with
    | error e => rw [hg1] at h; cases h
    | ok r1 =>
      obtain ⟨pt1, vm1⟩ := r1
      rw [hg1] at h
      simp only at h
      split at h
      · simp only [Except.ok.injEq, Prod.mk.injEq, reduceCtorEq, false_and] at h
      · cases hg2 : getppages ram_stealmem vm1 as.as_npages2 with
        | error e => rw [hg2] at h; cases h
        | ok r2 =>
          obtain ⟨pt2, vm2b⟩ := r2
          rw [hg2] at h
          simp only at h
          split at h
          · simp only [Except.ok.injEq, Prod.mk.injEq, reduceCtorEq, false_and] at h
          · cases hg3 : getppages ram_stealmem vm2b DUMBVM_STACKPAGES with
            | error e => rw [hg3] at h; cases h
            | ok r3 =>
              obtain ⟨pt3, vm3⟩ := r3
              rw [hg3] at h
              simp only at h
              split at h
              · simp only [Except.ok.injEq, Prod.mk.injEq, reduceCtorEq, false_and] at h
              · simp only [Except.ok.injEq, Prod.mk.injEq, true_and] at h
                obtain ⟨has, hvm⟩ := h
                obtain ⟨j1, hj1, ha1, _, rfl, hf1, _⟩ :=
                  getppages_ok ram_stealmem vm _ pt1 vm1 hpb hg1
                have hpb1 := post_bootstrap_getppages ram_stealmem vm _ pt1 _ hpb hg1
                obtain ⟨j2, hj2, ha2, _, rfl, hf2, _⟩ :=
                  getppages_ok ram_stealmem _ _ pt2 vm2b hpb1 hg2
                have hpb2 := post_bootstrap_getppages ram_stealmem _ _ pt2 _ hpb1 hg2
                obtain ⟨j3, hj3, ha3, _, rfl, hf3, _⟩ :=
                  getppages_ok ram_stealmem _ _ pt3 vm3 hpb2 hg3
                refine ⟨j1, j2, j3, ⟨hj1, hj2, hj3⟩, ?_, hvm.symm, hf1, hf2, hf3⟩
                rw [← has, ha1, ha2, ha3]

/-- Three returning `getppages` calls with non-zero results make
`as_prepare_load` return 0 on a record that has no backing yet. -/
theorem as_prepare_load_eq (ram_stealmem : Nat → Nat) (vm vm1 vm2 vm3 : VM) (as : addrspace)
    (pt1 pt2 pt3 : Nat)
    (h0 : as.as_page_table1 = 0 ∧ as.as_page_table2 = 0 ∧ as.as_stack_page_table = 0)
    (g1 : getppages ram_stealmem vm as.as_npages1 = .ok (pt1, vm1))
    (g2 : getppages ram_stealmem vm1 as.as_npages2 = .ok (pt2, vm2))
    (g3 : getppages ram_stealmem vm2 DUMBVM_STACKPAGES = .ok (pt3, vm3))
    (hne : pt1 ≠ 0 ∧ pt2 ≠ 0 ∧ pt3 ≠ 0) :
    as_prepare_load ram_stealmem vm as =
      .ok (.zero, { as with as_page_table1 := pt1, as_page_table2 := pt2,
                            as_stack_page_table := pt3 }, vm3) := by
  unfold as_prepare_load
  rw [if_neg (by rw [h0.1, h0.2.1, h0.2.2]; simp), g1]
  simp only
  rw [if_neg hne.1, g2]
  simp only
  rw [if_neg hne.2.1, g3]
  simp only
  rw [if_neg hne.2.2]

/-- The fields that `as_prepare_load` leaves alone. -/
theorem as_prepare_load_fields (ram_stealmem : Nat → Nat) (vm : VM) (as as2 : addrspace)
    (r : RetCode) (vm2 : VM) (h : as_prepare_load ram_stealmem vm as = .ok (r, as2, vm2)) :
    as2.as_vbase1 = as.as_vbase1 ∧ as2.as_npages1 = as.as_npages1 ∧
      as2.as_vbase2 = as.as_vbase2 ∧ as2.as_npages2 = as.as_npages2 ∧
      as2.load_done = as.load_done := by
  unfold as_prepare_load at h
  split at h
  · cases h
  · split at h
    · cases h
    · split at h
      · simp only [Except.ok.injEq, Prod.mk.injEq] at h
        rw [← h.2.1]
        exact ⟨rfl, rfl, rfl, rfl, rfl⟩
      · split at h
        · cases h
        · split at h
          · simp only [Except.ok.injEq, Prod.mk.injEq] at h
            rw [← h.2.1]
            exact ⟨rfl, rfl, rfl, rfl, rfl⟩
          · split at h
            · cases h
            · split at h
              · simp only [Except.ok.injEq, Prod.mk.injEq] at h
                rw [← h.2.1]
                exact ⟨rfl, rfl, rfl, rfl, rfl⟩
              · simp only [Except.ok.injEq, Prod.mk.injEq] at h
                rw [← h.2.1]
                exact ⟨rfl, rfl, rfl, rfl, rfl⟩

/-- A successful `as_copy` is a successful `as_prepare_load` on the fresh
record that carries the layout of the source. -/
theorem as_copy_ok (ram_stealmem : Nat → Nat) (kmalloc_ok : Bool) (vm : VM)
    (old new : addrspace) (vm2 : VM)
    (h : as_copy ram_stealmem kmalloc_ok vm old = .ok (.zero, some new, vm2)) :
    as_prepare_load ram_stealmem vm
      { as_fresh with as_vbase1 := old.as_vbase1, as_npages1 := old.as_npages1,
                      as_vbase2 := old.as_vbase2, as_npages2 := old.as_npages2 } =
      .ok (.zero, new, vm2) := by
  unfold as_copy as_create at h
  cases kmalloc_ok with
  | false => simp at h
  | true =>
    simp only [↓reduceIte] at h
    change (match as_prepare_load ram_stealmem vm
      { as_fresh with as_vbase1 := old.as_vbase1, as_npages1 := old.as_npages1,
                      as_vbase2 := old.as_vbase2, as_npages2 := old.as_npages2 } with
      | .error e => _ | .ok (r, new2, vm1) => _) = _ at h
    cases hp : as_prepare_load ram_stealmem vm
      { as_fresh with as_vbase1 := old.as_vbase1, as_npages1 := old.as_npages1,
                      as_vbase2 := old.as_vbase2, as_npages2 := old.as_npages2 } with
    | error e => rw [hp] at h; cases h
    | ok res =>
      obtain ⟨r, new2, vm1⟩ := res
      rw [hp] at h
      simp only at h
      split at h
      · split at h
        · cases h
        · simp only [Except.ok.injEq, Prod.mk.injEq, reduceCtorEq, false_and] at h
      · rename_i hr
        simp only [ne_eq, not_not] at hr
        split at h
        · cases h
        · simp only [Except.ok.injEq, Prod.mk.injEq, Option.some.injEq, true_and] at h
          rw [hr, h.1, h.2]

/-- A successful `as_prepare_load` on the fresh record that carries the
layout of the source, with three non-zero bases, makes `as_copy` return 0
with that record. -/
theorem as_copy_eq (ram_stealmem : Nat → Nat) (vm vm2 : VM) (old new : addrspace)
    (h : as_prepare_load ram_stealmem vm
      { as_fresh with as_vbase1 := old.as_vbase1, as_npages1 := old.as_npages1,
                      as_vbase2 := old.as_vbase2, as_npages2 := old.as_npages2 } =
      .ok (.zero, new, vm2))
    (hne : new.as_page_table1 ≠ 0 ∧ new.as_page_table2 ≠ 0 ∧ new.as_stack_page_table ≠ 0) :
    as_copy ram_stealmem true vm old = .ok (.zero, some new, vm2) := by
  unfold as_copy as_create
  simp only [↓reduceIte]
  change (match as_prepare_load ram_stealmem vm
    { as_fresh with as_vbase1 := old.as_vbase1, as_npages1 := old.as_npages1,
                    as_vbase2 := old.as_vbase2, as_npages2 := old.as_npages2 } with
    | .error e => _ | .ok (r, new2, vm1) => _) = _
  rw [h]
  simp only [ne_eq, not_true_eq_false, ↓reduceIte]
  rw [if_neg (by
    intro hc
    rcases hc with hc | hc | hc
    · exact hne.1 hc
    · exact hne.2.1 hc
    · exact hne.2.2 hc)]

/-- After bootstrap, the block recorded at frame `j` of the table is
released through the kernel address of the base of frame `j`, when its
descriptors are in use and those after the first record no block length. -/
theorem free_kpages_at (vm : VM) (j n : Nat) (hpb : post_bootstrap vm) (hj : j < vm.NUM_PAGES)
    (hn : 0 < n) (hbl : (vm.CORE_MAP j).block_len = n)
    (hu : ∀ k < n, (vm.CORE_MAP (j + k)).in_use = true)
    (hz : ∀ k < n, 0 < k → (vm.CORE_MAP (j + k)).block_len = 0) :
    free_kpages vm (PADDR_TO_KVADDR (vm.MEM_START + j * PAGE_SIZE)) =
      .ok { vm with CORE_MAP := clear_block vm.CORE_MAP j n } := by
  obtain ⟨h32, hfn⟩ := frame_number_base vm j hpb hj
  have hrt := kvaddr_roundtrip h32
  have hspec := free_kpages_spec vm (PADDR_TO_KVADDR (vm.MEM_START + j * PAGE_SIZE))
    (by rw [hrt]; exact Nat.le_add_right _ _) (by rw [hrt, hfn, hbl]; exact hn)
    (by
      rw [hrt, hfn, hbl]
      intro k hk
      unfold free_ok_at
      rw [hu k hk]
      by_cases hk0 : k = 0
      · rw [if_pos hk0, hk0, Nat.add_zero, hbl]
        simpa using hn
      · rw [if_neg hk0, hz k hk (by omega)]
        rfl)
  rw [hspec, hrt, hfn, hbl]

/-- After bootstrap and under clause (a) of the block invariant,
`as_destroy` undoes a successful `as_prepare_load` of a record with two
non-empty regions, when the descriptors past the end of the table that the
three blocks cover record no block length. -/
theorem as_destroy_after_prepare (ram_stealmem : Nat → Nat) (vm : VM) (as as2 : addrspace)
    (vm2 : VM) (hpb : post_bootstrap vm) (hfz : free_zero vm) (h1 : 1 ≤ as.as_npages1)
    (h2 : 1 ≤ as.as_npages2)
    (h : as_prepare_load ram_stealmem vm as = .ok (.zero, as2, vm2))
    (hpast : past_table_zero vm as2) :
    as_destroy vm2 as2 = .ok vm := by
  obtain ⟨j1, j2, j3, ⟨hj1, hj2, hj3⟩, rfl, rfl, f1, hf2, hf3⟩ :=
    as_prepare_load_ok ram_stealmem vm as as2 vm2 hpb h
  have h12 : 0 < DUMBVM_STACKPAGES := by decide
  obtain ⟨f2, d12, ne12⟩ := fit_at_mark_block _ j1 _ j2 _ h1 h2 hf2
  obtain ⟨f3b, d23, ne23⟩ := fit_at_mark_block _ j2 _ j3 _ h2 h12 hf3
  obtain ⟨f3, d13, ne13⟩ := fit_at_mark_block _ j1 _ j3 _ h1 h12 f3b
  have e12 := d12
  have e23 := d23
  have e13 := d13
  unfold disjoint_ranges at e12 e23 e13
  simp only at e12 e23 e13
  have n1 := (frame_number_base vm j1 hpb hj1).2
  have n2 := (frame_number_base vm j2 hpb hj2).2
  have n3 := (frame_number_base vm j3 hpb hj3).2
  -- the descriptors of a block after the first record no block length
  have zero : ∀ (j n : Nat), (j, n) ∈ [(j1, as.as_npages1), (j2, as.as_npages2),
      (j3, DUMBVM_STACKPAGES)] → fits vm.CORE_MAP j n →
      ∀ k < n, 0 < k → (vm.CORE_MAP (j + k)).block_len = 0 := by
    intro j n hmem hfit k hk hk0
    by_cases hin : j + k < vm.NUM_PAGES
    · exact hfz (j + k) hin (hfit k hk)
    · refine hpast (j, n) ?_ k hk hk0 (by simp only; omega)
      unfold backing_blocks
      simp only [n1, n2, n3]
      exact hmem
  have z1 := zero j1 _ (List.mem_cons_self _ _) f1.2
  have z2 := zero j2 _ (List.mem_cons_of_mem _ (List.mem_cons_self _ _)) f2.2
  have z3 := zero j3 _ (List.mem_cons_of_mem _ (List.mem_cons_of_mem _ (List.mem_cons_self _ _)))
    f3.2
  -- first release: region 1
  have step1 := free_kpages_at { vm with CORE_MAP :=
      (mark_block (mark_block (mark_block vm.CORE_MAP j1 as.as_npages1) j2 as.as_npages2)
        j3 DUMBVM_STACKPAGES) } j1 as.as_npages1 hpb hj1 h1
    (by simp [mark_block, ne12, ne13])
    (fun k hk => by
      simp [mark_block]
      left; left; right
      exact hk)
    (fun k hk hk0 => by
      have e1 : j1 + k ≠ j1 := by omega
      have e2 : j1 + k ≠ j2 := by omega
      have e3 : j1 + k ≠ j3 := by omega
      simp only [mark_block, if_neg e1, if_neg e2, if_neg e3]
      exact z1 k hk hk0)
  simp only at step1
  rw [clear_mark_comm _ j1 _ j3 _ ne13 d13, clear_mark_comm _ j1 _ j2 _ ne12 d12,
    clear_mark_block _ j1 _ f1.2 (hfz j1 hj1 f1.1)] at step1
  -- second release: region 2
  have step2 := free_kpages_at { vm with CORE_MAP :=
      (mark_block (mark_block vm.CORE_MAP j2 as.as_npages2) j3 DUMBVM_STACKPAGES) }
    j2 as.as_npages2 hpb hj2 h2
    (by simp [mark_block, ne23])
    (fun k hk => by
      simp [mark_block]
      left; right
      exact hk)
    (fun k hk hk0 => by
      have e2 : j2 + k ≠ j2 := by omega
      have e3 : j2 + k ≠ j3 := by omega
      simp only [mark_block, if_neg e2, if_neg e3]
      exact z2 k hk hk0)
  simp only at step2
  rw [clear_mark_comm _ j2 _ j3 _ ne23 d23,
    clear_mark_block _ j2 _ f2.2 (hfz j2 hj2 f2.1)] at step2
  -- third release: the stack
  have step3 := free_kpages_at { vm with CORE_MAP := mark_block vm.CORE_MAP j3 DUMBVM_STACKPAGES }
    j3 DUMBVM_STACKPAGES hpb hj3 h12
    (by simp [mark_block])
    (fun k hk => by
      simp [mark_block]
      right
      exact hk)
    (fun k hk hk0 => by
      have e3 : j3 + k ≠ j3 := by omega
      simp only [mark_block, if_neg e3]
      exact z3 k hk hk0)
  simp only at step3
  rw [clear_mark_block _ j3 _ f3.2 (hfz j3 hj3 f3.1), vm_with_table_eq] at step3
  unfold as_destroy
  simp only
  rw [step1]
  simp only
  rw [step2]
  simp only
  rw [step3]

/-- The call `as_prepare_load` on `as_two_regions` and the eight-page table
returns 0: region 1 at frames 1 and 2, region 2 at frame 3, and the stack at
frame 4, a block of twelve descriptors that ends past the end of the
table. -/
theorem load_run8 :
    as_prepare_load no_stealmem boot8 as_two_regions = .ok (.zero, as_loaded8, boot8_loaded) :=
  as_prepare_load_eq no_stealmem boot8 boot8_alloc2 boot8_l2 boot8_loaded as_two_regions
    0x1000 0x3000 0x4000 (by decide)
    (getppages_first_fit no_stealmem boot8 2 1 (by decide) (by decide) (by decide) (by decide))
    (getppages_first_fit no_stealmem boot8_alloc2 1 3 (by decide) (by decide) (by decide)
      (by decide))
    (getppages_first_fit no_stealmem boot8_l2 12 4 (by decide) (by decide) (by decide)
      (by decide))
    (by decide)

/-- The call `as_copy` of `as_loaded_done` on the 32-page table returns 0
with three new blocks at frames 16, 18 and 19. -/
theorem copy_run :
    as_copy no_stealmem true boot32_loaded as_loaded_done =
      .ok (.zero, some as_copied, boot32_copied) :=
  as_copy_eq no_stealmem boot32_loaded boot32_copied as_loaded_done as_copied
    (as_prepare_load_eq no_stealmem boot32_loaded boot32_c1 boot32_c2 boot32_copied
      { as_fresh with as_vbase1 := as_loaded_done.as_vbase1,
                      as_npages1 := as_loaded_done.as_npages1,
                      as_vbase2 := as_loaded_done.as_vbase2,
                      as_npages2 := as_loaded_done.as_npages2 }
      0x110000 0x112000 0x113000 (by decide)
      (getppages_first_fit no_stealmem boot32_loaded 2 16 (by decide) (by decide) (by decide)
        (by decide))
      (getppages_first_fit no_stealmem boot32_c1 1 18 (by decide) (by decide) (by decide)
        (by decide))
      (getppages_first_fit no_stealmem boot32_c2 12 19 (by decide) (by decide) (by decide)
        (by decide))
      (by decide))
    (by decide)

theorem live_block_intro (vm : VM) (cm : Nat → frame) (j n : Nat) (hpb : post_bootstrap vm)
    (hj : j < vm.NUM_PAGES) (hbl : (cm j).block_len = n)
    (hu : ∀ k < n, (cm (j + k)).in_use = true) :
    live_block { vm with CORE_MAP := cm } (vm.MEM_START + j * PAGE_SIZE) n := by
  have hfn : frame_number { vm with CORE_MAP := cm } (vm.MEM_START + j * PAGE_SIZE) = j :=
    (frame_number_base vm j hpb hj).2
  unfold live_block
  rw [hfn]
  exact ⟨hj, rfl, hbl, hu⟩

/-- C20: `as_copy` does not carry the flag `load_done` over. Whatever the
flag of the source, the record returned by a successful `as_copy` has
`load_done = false`, so in the `OPT_A3` build every read or write fault
resolved against the copy, a fault in region 1 included, installs an entry
with the dirty bit set. -/
theorem as_copy_load_done (ram_stealmem : Nat → Nat) (kmalloc_ok : Bool) (vm : VM)
    (old new : addrspace) (vm2 : VM)
    (h : as_copy ram_stealmem kmalloc_ok vm old = .ok (.zero, some new, vm2)) :
    new.load_done = false ∧
      ∀ slot tlb faulttype v tlb2,
        faulttype = VM_FAULT_READ ∨ faulttype = VM_FAULT_WRITE →
        vm_fault true slot (some ⟨some new⟩) tlb faulttype v = .ok (.zero, tlb2) →
        ∃ elo, tlb2 = tlb_random tlb slot (v &&& PAGE_FRAME) elo ∧
          elo &&& TLBLO_DIRTY = TLBLO_DIRTY := by
  have hp := as_copy_ok ram_stealmem kmalloc_ok vm old new vm2 h
  obtain ⟨_, _, _, _, hld⟩ := as_prepare_load_fields ram_stealmem vm _ new .zero vm2 hp
  have hfalse : new.load_done = false := hld
  refine ⟨hfalse, fun slot tlb faulttype v tlb2 hft hv => ?_⟩
  obtain ⟨paddr, _, hal, htlb⟩ := vm_fault_elo slot new tlb faulttype v tlb2 hft hv
  rw [if_neg (by rw [hfalse]; simp)] at htlb
  refine ⟨_, htlb, ?_⟩
  rw [Nat.or_assoc, or_and_low ((aligned_iff paddr).mp hal).2 (by decide)]
  decide

/-- Witness of C20: the copy of `as_loaded_done`, whose flag is set. -/
theorem as_copy_load_done_witness :
    (as_loaded_done.load_done = true ∧
      as_copy no_stealmem true boot32_loaded as_loaded_done =
        .ok (.zero, some as_copied, boot32_copied)) ∧
      as_copied.load_done = false :=
  ⟨⟨by decide, copy_run⟩,
    (as_copy_load_done no_stealmem true boot32_loaded as_loaded_done as_copied boot32_copied
      copy_run).1⟩

end Dumbvm
